import Mathlib

/-!
# ditrace: the Elasticsearch tail of the trace collector (`dtrace/elastic.go`)

A shallow embedding of `Trace.GetESDocuments`, `TraceMap.Collect`, `elasticSender` and
`sendBulk`, followed by the properties proved about them.

Conventions of the embedding.

* A Go `map[string]T` is a `GoMap T`: a finite list of entries with pairwise distinct keys.
  `range` visits the entries in the order of the list; Go leaves that order unspecified, and
  the theorems below hold for every map, hence for every order.
* A `time.Time` is an instant (nanoseconds since the Unix epoch, unbounded) together with the
  zone offset in force at that instant. `Add` and `After` work on the instant only.
* Pointers (`*Trace`, `*Span`, `*Document`) are modelled by the value they point to; the `Roots`
  map of a trace is an allocated (non-nil) map and `Root` a non-nil span. An `ESClient` may be
  nil: it is an `Option`.
* A send on the channel `toES` appends the document to the list of documents sent so far.
* Log calls and metric updates are recorded as data. `Collect` reports the amounts it adds to
  the counters; `sendBulk` transforms the counters, which are `int64` values that wrap around.
* `elasticSender` is a state machine over what its `select` observes: a document received, the
  timer firing, the channel closed. A `go sendBulk(...)` statement is recorded as the batch it
  hands over, in the order of the statements; the interleaving of concurrent runs of
  `sendBulk` and the final `wg.Wait()` are not modelled.
* `elasticSender` is followed along the schedule in which each started `sendBulk` runs at
  once. A panic of the Go runtime is a result of its own: the flags `makePanicked` and
  `sendPanicked` of a run of `elasticSender`, the flag `panicked` for `sendBulk`.
* Code of the repository outside `elastic.go` (`Timeline.get`, `Span.Duration`,
  `Span.Durations`, `Trace.GetChains`) is a parameter of the embedding: see `Collaborators`.
-/

namespace dtrace

/-! ## Go maps -/

/-- A Go `map[string]α`: association list with pairwise distinct keys. -/
def GoMap (α : Type) : Type := AList (fun _ : String => α)

namespace GoMap

variable {α : Type}

instance [DecidableEq α] : DecidableEq (GoMap α) := fun a b =>
  decidable_of_iff (AList.entries a = AList.entries b)
    ⟨fun h => AList.ext h, fun h => congrArg AList.entries h⟩

/-- The map `make(map[string]α)`. -/
def empty : GoMap α := (∅ : AList (fun _ : String => α))

/-- The entries of the map, in the order `range` visits them. -/
def range (m : GoMap α) : List (String × α) :=
  (AList.entries m).map (fun e => (e.1, e.2))

/-- Go `len(m)`. -/
def len (m : GoMap α) : Nat := (AList.entries m).length

/-- Go `v, ok := m[k]`. -/
def get (m : GoMap α) (k : String) : Option α := AList.lookup k m

/-- Go `m[k] = v`. -/
def set (m : GoMap α) (k : String) (v : α) : GoMap α := AList.insert k v m

/-- Go `delete(m, k)`. -/
def delete (m : GoMap α) (k : String) : GoMap α := AList.erase k m

/-- The map holding exactly the given bindings, later ones overriding earlier ones. -/
def ofList (l : List (String × α)) : GoMap α :=
  l.foldl (fun m kv => m.set kv.1 kv.2) empty

end GoMap

/-! ## Time (Go standard library `time`) -/

/-- Go `time.Duration`: a number of nanoseconds. -/
abbrev Duration := Int

/-- Go `time.Time`: an instant, and the offset (seconds east of UTC) of its location at
that instant. -/
structure Time where
  unixNano : Int
  offset : Int
  deriving DecidableEq, Repr

namespace Time

/-- Go `t.Add(d)`. -/
def Add (t : Time) (d : Duration) : Time := { t with unixNano := t.unixNano + d }

/-- Go `t.After(u)`: `t` is strictly later than `u`. -/
def After (t u : Time) : Bool := decide (u.unixNano < t.unixNano)

/-- Go `t.Sub(u)`. -/
def Sub (t u : Time) : Duration := t.unixNano - u.unixNano

/-- Seconds since the epoch shifted into the zone of `t` (local wall clock seconds). -/
def localSeconds (t : Time) : Int := t.unixNano / 1000000000 + t.offset

/-- Days since 1970-01-01 of the local date of `t`. -/
def localDays (t : Time) : Int := t.localSeconds / 86400

/-- Year, month and day of the proleptic Gregorian date that lies `days` after 1970-01-01. -/
def civil (days : Int) : Int × Int × Int :=
  let z := days + 719468
  let era := z / 146097
  let doe := z - era * 146097
  let yoe := (doe - doe / 1460 + doe / 36524 - doe / 146096) / 365
  let doy := doe - (365 * yoe + yoe / 4 - yoe / 100)
  let mp := (5 * doy + 2) / 153
  let d := doy - (153 * mp + 2) / 5 + 1
  let m := if mp < 10 then mp + 3 else mp - 9
  let y := yoe + era * 400 + (if m ≤ 2 then 1 else 0)
  (y, m, d)

/-- Go `t.Year()`. -/
def Year (t : Time) : Int := (civil t.localDays).1

/-- Go `t.Month()`, as a number from 1 to 12. -/
def Month (t : Time) : Int := (civil t.localDays).2.1

/-- Go `t.Day()`. -/
def Day (t : Time) : Int := (civil t.localDays).2.2

/-- Second of the local day of `t`, from 0 to 86399. -/
def secondOfDay (t : Time) : Int := t.localSeconds % 86400

/-- Go `t.Nanosecond()`. -/
def Nanosecond (t : Time) : Int := t.unixNano % 1000000000

/-- Go `appendInt` of package `time`: the decimal digits of `x`, padded with zeros on the left
to at least `width` digits, after a minus sign when `x` is negative. -/
def appendInt (x : Int) (width : Nat) : String :=
  let digits := Nat.repr x.natAbs
  let padded := String.mk (List.replicate (width - digits.length) '0') ++ digits
  if x < 0 then "-" ++ padded else padded

/-- Go `formatNano(b, nanosec, 9, true)`: the fraction of a second, with trailing zeros
removed, and nothing at all when the fraction is zero. -/
def formatNano (nanosec : Int) : String :=
  let digits := (appendInt nanosec 9).data
  let trimmed := (digits.reverse.dropWhile (fun c => c == '0')).reverse
  if trimmed.isEmpty then "" else "." ++ String.mk trimmed

/-- The zone of layout element `Z07:00`. -/
def formatZone (offset : Int) : String :=
  if offset = 0 then "Z"
  else
    let zone := Int.tdiv offset 60
    let sign := if zone < 0 then "-" else "+"
    let zone := if zone < 0 then -zone else zone
    sign ++ appendInt (zone / 60) 2 ++ ":" ++ appendInt (zone % 60) 2

/-- Go `t.Format("2006.01.02")`. -/
def FormatDate (t : Time) : String :=
  appendInt t.Year 4 ++ "." ++ appendInt t.Month 2 ++ "." ++ appendInt t.Day 2

/-- Go `t.Format(time.RFC3339Nano)`, layout `2006-01-02T15:04:05.999999999Z07:00`. -/
def FormatRFC3339Nano (t : Time) : String :=
  appendInt t.Year 4 ++ "-" ++ appendInt t.Month 2 ++ "-" ++ appendInt t.Day 2 ++ "T"
    ++ appendInt (t.secondOfDay / 3600) 2 ++ ":" ++ appendInt (t.secondOfDay % 3600 / 60) 2
    ++ ":" ++ appendInt (t.secondOfDay % 60) 2 ++ formatNano t.Nanosecond
    ++ formatZone t.offset

end Time

/-! ## Data model -/

/-- Go `len(s)` of a string: its length in bytes. -/
def strLen (s : String) : Nat := s.utf8ByteSize

/-- A dynamically typed value (`interface{}`) stored in a span record: the annotation values
and the fields `GetESDocuments` computes. `raw` stands for any value of another shape. -/
inductive Iface where
  | str (s : String)
  | num (n : Int)
  | strMap (m : GoMap String)
  | raw (payload : String)
  deriving DecidableEq

/-- One entry of a span's timeline; `GetESDocuments` reads its field `Value`. -/
structure Timestamp where
  Value : Time
  deriving DecidableEq

/-- The type `Timeline`: event code to timestamp. -/
abbrev Timeline := GoMap Timestamp

/-- The fields of `Span` that `elastic.go` reads. -/
structure Span where
  ID : String
  ParentSpanID : String
  Prefix : String
  System : String
  Annotations : GoMap Iface
  Timeline : Timeline
  deriving DecidableEq

/-- The fields of `Trace` that `elastic.go` reads. -/
structure Trace where
  ID : String
  ProfileID : String
  Timestamp : Time
  Completed : Bool
  Spans : GoMap Span
  Roots : GoMap Span
  Root : Span
  deriving DecidableEq

/-- The type `TraceMap`: trace ID to trace. -/
abbrev TraceMap := GoMap Trace

/-- The chain summary returned by `Trace.GetChains`; `elastic.go` stores it and never looks
inside. -/
abbrev Chains := List String

/-- A value stored in `Document.Fields`. -/
inductive Field where
  | time (t : Time)
  | str (s : String)
  | num (n : Int)
  | chains (c : Chains)
  | records (docSpans : List (GoMap Iface))
  deriving DecidableEq

/-- The type `Document`. -/
structure Document where
  Fields : GoMap Field
  Index : String
  deriving DecidableEq

deriving instance DecidableEq for Except

/-- The functions that `elastic.go` calls and the repository defines in other files.
* `get tl d keys` is `tl.get(d, keys...)` of `Timeline`;
* `Duration s` and `Durations s` are the methods of `Span`;
* `GetChains t id` is `t.GetChains(id)`, an error or the spans of the subtree with the chain
  summary. -/
structure Collaborators where
  get : Timeline → Time → List String → Time
  Duration : Span → Int
  Durations : Span → Int × Int × Int
  GetChains : Trace → String → Except String (List Span × Chains)

/-- A line written to the log. -/
inductive LogEntry where
  | chainsError (traceID : String) (err : String)
  | spansOverflow (traceID : String) (limit : Int)
  deriving DecidableEq

/-! ## `Trace.GetESDocuments` -/

/-- Lines 87 to 90: the map of event code to formatted time. -/
def formatTimeline (tl : Timeline) : GoMap String :=
  tl.range.foldl (fun timeline kt => timeline.set kt.1 kt.2.Value.FormatRFC3339Nano)
    GoMap.empty

/-- Lines 75 to 92, the body of the loop over the spans: the record `ds` of one span. -/
def spanRecord (env : Collaborators) (span : Span) : GoMap Iface :=
  let ds : GoMap Iface := GoMap.empty
  let ds := ds.set "spanid" (.str span.ID)
  let ds := if strLen span.ParentSpanID > 0 then
      ds.set "parentspanid" (.str span.ParentSpanID) else ds
  let ds := ds.set "prefix" (.str span.Prefix)
  let ds := span.Annotations.range.foldl (fun ds kv => ds.set kv.1 kv.2) ds
  let d := env.Durations span
  let ds := ds.set "cd" (.num d.1)
  let ds := ds.set "sd" (.num d.2.1)
  let ds := ds.set "td" (.num d.2.2)
  if span.Timeline.len > 0 then
    ds.set "timeline" (.strMap (formatTimeline span.Timeline))
  else ds

/-- Lines 47 to 49: the legacy root is stored in `Roots` when `Roots` is empty. -/
def promoteRoot (trace : Trace) : Trace :=
  if trace.Roots.len = 0 then
    { trace with Roots := trace.Roots.set trace.Root.ID trace.Root }
  else trace

/-- Lines 51 to 63: the document of one root before the chains are resolved. -/
def rootHeader (env : Collaborators) (trace : Trace) (root : Span) : Document :=
  let timestamp := env.get root.Timeline trace.Timestamp ["cs", "sr"]
  let fields : GoMap Field := GoMap.empty
  let fields := fields.set "timestamp" (.time timestamp)
  let fields := fields.set "id" (.str trace.ID)
  let fields := fields.set "system" (.str root.System)
  let fields := fields.set "duration" (.num (env.Duration root))
  let fields := if strLen trace.ProfileID > 0 then
      fields.set "profileid" (.str trace.ProfileID) else fields
  { Fields := fields, Index := "traces-" ++ timestamp.FormatDate }

/-- Lines 71 to 95: the chain summary and the span records are added to the document. -/
def withChains (env : Collaborators) (doc : Document) (spans : List Span) (chains : Chains) :
    Document :=
  let fields := doc.Fields.set "chains" (.chains chains)
  let docSpans := spans.map (spanRecord env)
  { doc with Fields := fields.set "spans" (.records docSpans) }

/-- What `GetESDocuments` has built so far: the slice `documents` and the lines logged. -/
structure DocsState where
  documents : List Document
  log : List LogEntry
  deriving DecidableEq

/-- Lines 51 to 96, the body of the loop over `trace.Roots`. -/
def rootStep (env : Collaborators) (trace : Trace) (st : DocsState)
    (rootSpanID : String) (root : Span) : DocsState :=
  let doc := rootHeader env trace root
  match env.GetChains trace rootSpanID with
  | .error err => { st with log := st.log ++ [.chainsError trace.ID err] }
  | .ok (spans, chains) =>
    { st with documents := st.documents ++ [withChains env doc spans chains] }

/-- The result of `GetESDocuments`: the returned slice, the lines logged, and the trace as the
call leaves it (the receiver is a pointer and `Roots` may have been written). -/
structure DocsResult where
  documents : List Document
  log : List LogEntry
  trace : Trace
  deriving DecidableEq

/-- The method `(trace *Trace) GetESDocuments() []*Document`. -/
def GetESDocuments (env : Collaborators) (trace : Trace) : DocsResult :=
  let trace := promoteRoot trace
  let st := trace.Roots.range.foldl
    (fun st kv => rootStep env trace st kv.1 kv.2) { documents := [], log := [] }
  { documents := st.documents, log := st.log, trace := trace }

/-! ## `TraceMap.Collect` -/

/-- The variables of `Collect` while it scans the map: the next generation, the documents sent
on `toES`, the two local counters, and the lines logged. -/
structure CollectState where
  nextGenerationTraceMap : TraceMap
  toES : List Document
  completed : Int
  uncompleted : Int
  log : List LogEntry
  deriving DecidableEq

/-- Lines 114 to 135, the body of the loop over `traceMap`. -/
def collectStep (env : Collaborators) (now : Time) (minTTL maxTTL : Duration)
    (maxSpansPerTrace : Int) (st : CollectState) (traceID : String) (trace : Trace) :
    CollectState :=
  let spansCount : Int := trace.Spans.len
  let st := if spansCount > maxSpansPerTrace then
      { st with log := st.log ++ [.spansOverflow traceID maxSpansPerTrace] } else st
  if (trace.Timestamp.Add minTTL).After now && decide (spansCount ≤ maxSpansPerTrace) then
    { st with nextGenerationTraceMap := st.nextGenerationTraceMap.set traceID trace }
  else if trace.Completed then
    let r := GetESDocuments env trace
    { st with completed := st.completed + 1, toES := st.toES ++ r.documents,
              log := st.log ++ r.log }
  else if (trace.Timestamp.Add maxTTL).After now && decide (spansCount ≤ maxSpansPerTrace) then
    { st with nextGenerationTraceMap := st.nextGenerationTraceMap.set traceID trace }
  else
    { st with uncompleted := st.uncompleted + 1 }

/-- The state of `Collect` before the first iteration (lines 108 to 112). -/
def collectInit : CollectState :=
  { nextGenerationTraceMap := GoMap.empty, toES := [], completed := 0, uncompleted := 0,
    log := [] }

/-- What a call of `Collect` does: the map it returns, the documents it sent on `toES` in
order, the amounts added to `metrics.TracesCompleted`, `metrics.TracesUncompleted` and
`metrics.TracesPending`, the duration given to `metrics.FlushTimer.Update`, and the lines
logged. -/
structure CollectResult where
  nextGenerationTraceMap : TraceMap
  toES : List Document
  completed : Int
  uncompleted : Int
  pending : Int
  flushTimer : Duration
  log : List LogEntry
  deriving DecidableEq

/-- The method `(traceMap TraceMap) Collect(minTTL, maxTTL, maxSpansPerTrace, toES) TraceMap`.
`now` is the reading of the clock at line 103 and `sinceNow` the value of `time.Since(now)`
at line 105, where the arguments of the deferred call are evaluated. -/
def Collect (env : Collaborators) (now : Time) (sinceNow : Duration) (traceMap : TraceMap)
    (minTTL maxTTL : Duration) (maxSpansPerTrace : Int) : CollectResult :=
  let st := traceMap.range.foldl
    (fun st kv => collectStep env now minTTL maxTTL maxSpansPerTrace st kv.1 kv.2) collectInit
  { nextGenerationTraceMap := st.nextGenerationTraceMap, toES := st.toES,
    completed := st.completed, uncompleted := st.uncompleted,
    pending := traceMap.len, flushTimer := sinceNow, log := st.log }

/-! ## The three outcomes of one iteration of `Collect` -/

/-- The guard of line 118: the trace is younger than `minTTL` and within the span limit. -/
def tooFresh (now : Time) (minTTL : Duration) (maxSpansPerTrace : Int) (trace : Trace) : Bool :=
  (trace.Timestamp.Add minTTL).After now && decide ((trace.Spans.len : Int) ≤ maxSpansPerTrace)

/-- The guard of line 129: the trace is younger than `maxTTL` and within the span limit. -/
def stillWaiting (now : Time) (maxTTL : Duration) (maxSpansPerTrace : Int) (trace : Trace) :
    Bool :=
  (trace.Timestamp.Add maxTTL).After now && decide ((trace.Spans.len : Int) ≤ maxSpansPerTrace)

/-- The iteration reaches line 119 or line 130: the trace goes to the next generation. -/
def isRetained (now : Time) (minTTL maxTTL : Duration) (maxSpansPerTrace : Int)
    (trace : Trace) : Bool :=
  tooFresh now minTTL maxSpansPerTrace trace ||
    (!trace.Completed && stillWaiting now maxTTL maxSpansPerTrace trace)

/-- The iteration reaches line 123: the documents of the trace are sent. -/
def isFlushed (now : Time) (minTTL : Duration) (maxSpansPerTrace : Int) (trace : Trace) : Bool :=
  !tooFresh now minTTL maxSpansPerTrace trace && trace.Completed

/-- The iteration reaches line 133: the trace is counted as uncompleted. -/
def isDropped (now : Time) (minTTL maxTTL : Duration) (maxSpansPerTrace : Int)
    (trace : Trace) : Bool :=
  !tooFresh now minTTL maxSpansPerTrace trace && !trace.Completed &&
    !stillWaiting now maxTTL maxSpansPerTrace trace

/-- The documents one iteration of `Collect` sends on `toES` for a trace. -/
def sentFor (env : Collaborators) (now : Time) (minTTL : Duration) (maxSpansPerTrace : Int)
    (trace : Trace) : List Document :=
  if isFlushed now minTTL maxSpansPerTrace trace then (GetESDocuments env trace).documents
  else []

/-- The document the loop body of `GetESDocuments` appends for one root, if any. -/
def rootDocument (env : Collaborators) (trace : Trace) (rootSpanID : String) (root : Span) :
    Option Document :=
  match env.GetChains trace rootSpanID with
  | .error _ => none
  | .ok (spans, chains) => some (withChains env (rootHeader env trace root) spans chains)

/-- Whether `GetChains` returns an error for a root. -/
def chainsFail (env : Collaborators) (trace : Trace) (rootSpanID : String) : Bool :=
  match env.GetChains trace rootSpanID with
  | .error _ => true
  | .ok _ => false

/-! ## Concrete inputs

One instance of the collaborators and a few traces, on which the definitions above are
evaluated. -/

/-- Modelled from the spec: `Timeline.get` is defined outside `elastic.go`. It takes the first
present value among the given keys, in order; the first argument is returned when none of the
keys is present. -/
def timelineGet (tl : Timeline) (dflt : Time) : List String → Time
  | [] => dflt
  | k :: ks =>
    match tl.get k with
    | some ts => ts.Value
    | none => timelineGet tl dflt ks

/-- An instance of the collaborators: `get` as the spec describes it, fixed durations, and a
`GetChains` that returns the spans of the trace when the root is one of them and an error
otherwise. -/
def sampleEnv : Collaborators where
  get := timelineGet
  Duration := fun _ => 7
  Durations := fun _ => (1, 2, 3)
  GetChains := fun trace rootSpanID =>
    match trace.Spans.get rootSpanID with
    | some _ => .ok (trace.Spans.range.map Prod.snd, [rootSpanID])
    | none => .error "unknown root span"

/-- The instant 2016-02-29T00:00:00Z. -/
def t0 : Time := { unixNano := 1456704000000000000, offset := 0 }

/-- One second, in nanoseconds. -/
def second : Duration := 1000000000

/-- A span with the given ID, annotations and timeline. -/
def mkSpan (id : String) (annotations : List (String × Iface))
    (timeline : List (String × Time)) : Span :=
  { ID := id, ParentSpanID := "", Prefix := "p", System := "web",
    Annotations := GoMap.ofList annotations,
    Timeline := GoMap.ofList (timeline.map (fun kt => (kt.1, ({ Value := kt.2 } : Timestamp)))) }

/-- A span `s1` annotated `host = a`, with client send at `t0`. -/
def spanS1 : Span := mkSpan "s1" [("host", .str "a")] [("cs", t0)]

/-- A second span `s2`, with no annotation and no timeline. -/
def spanS2 : Span := mkSpan "s2" [] []

/-- A trace first seen at `t0` with the single span and root `s1`. -/
def traceT1 (completed : Bool) : Trace :=
  { ID := "T1", ProfileID := "", Timestamp := t0, Completed := completed,
    Spans := GoMap.ofList [("s1", spanS1)], Roots := GoMap.ofList [("s1", spanS1)],
    Root := spanS1 }

/-- A trace first seen at `t0` with the two spans `s1` and `s2`, rooted at `s1`. -/
def traceT2 (completed : Bool) : Trace :=
  { ID := "T2", ProfileID := "prof", Timestamp := t0, Completed := completed,
    Spans := GoMap.ofList [("s1", spanS1), ("s2", spanS2)],
    Roots := GoMap.ofList [("s1", spanS1)], Root := spanS1 }

/-- A trace with no entry in `Roots`, whose legacy root is `s1`. -/
def traceLegacy : Trace :=
  { ID := "T3", ProfileID := "", Timestamp := t0, Completed := true,
    Spans := GoMap.ofList [("s1", spanS1)], Roots := GoMap.empty, Root := spanS1 }

/-- A trace with the roots `s1` and `ghost`, of which only `s1` is among its spans. -/
def traceTwoRoots : Trace :=
  { ID := "T4", ProfileID := "", Timestamp := t0, Completed := true,
    Spans := GoMap.ofList [("s1", spanS1)],
    Roots := GoMap.ofList [("s1", spanS1), ("ghost", spanS2)], Root := spanS1 }

/-- A trace map holding the completed trace `T1` and the incomplete trace `T2`. -/
def sampleMap : TraceMap := GoMap.ofList [("T1", traceT1 true), ("T2", traceT2 false)]

/-- A span `s1` whose annotations use the reserved names `spanid` and `cd`. -/
def spanShadow : Span := mkSpan "s1" [("spanid", .str "x"), ("cd", .str "y")] []

/-- A completed trace whose single span and root is `spanShadow`. -/
def traceShadow : Trace :=
  { ID := "T5", ProfileID := "", Timestamp := t0, Completed := true,
    Spans := GoMap.ofList [("s1", spanShadow)], Roots := GoMap.ofList [("s1", spanShadow)],
    Root := spanShadow }

/-- The document expected for the trace `traceT1 true` under `sampleEnv`. -/
def docT1 : Document :=
  { Fields := GoMap.ofList
      [("timestamp", .time t0), ("id", .str "T1"), ("system", .str "web"),
       ("duration", .num 7), ("chains", .chains ["s1"]),
       ("spans", .records [GoMap.ofList
          [("spanid", .str "s1"), ("prefix", .str "p"), ("host", .str "a"), ("cd", .num 1),
           ("sd", .num 2), ("td", .num 3),
           ("timeline", .strMap (GoMap.ofList [("cs", "2016-02-29T00:00:00Z")]))]])],
    Index := "traces-2016.02.29" }

/-- A span `s3` with no timeline entry and no parent, whose annotations use the names
`timeline` and `parentspanid`. -/
def spanNoted : Span := mkSpan "s3" [("timeline", .str "x"), ("parentspanid", .str "y")] []

/-! ## The clock of `Collect` -/

/-- The readings of the clock during one call of `Collect`: at line 103 (`now`), at line 105
where `time.Since(now)` is evaluated, and when the scan is over and the deferred calls run. -/
structure Clock where
  atEntry : Time
  atDefer : Time
  atReturn : Time
  deriving DecidableEq

/-- Go `time.Since(t)` when the clock reads `reading`. -/
def Since (reading t : Time) : Duration := reading.Sub t

/-- The method `Collect` with the clock read explicitly: `now` is the reading at entry, and the
argument of the deferred `metrics.FlushTimer.Update` is `time.Since(now)` at the `defer`
statement of line 105. -/
def CollectClocked (env : Collaborators) (clock : Clock) (traceMap : TraceMap)
    (minTTL maxTTL : Duration) (maxSpansPerTrace : Int) : CollectResult :=
  Collect env clock.atEntry (Since clock.atDefer clock.atEntry) traceMap minTTL maxTTL
    maxSpansPerTrace

/-! ## Metrics -/

/-- The value of an `int64` after an arithmetic result `x` wraps around. -/
def wrapInt64 (x : Int) : Int :=
  (x + 9223372036854775808) % 18446744073709551616 - 9223372036854775808

/-- Go `atomic.AddInt64(&value, delta)`: the new value of the counter. -/
def AddInt64 (value delta : Int) : Int := wrapInt64 (value + delta)

/-- Whether an integer is a value of type `int64`. -/
def isInt64 (x : Int) : Prop := -9223372036854775808 ≤ x ∧ x < 9223372036854775808

instance (x : Int) : Decidable (isInt64 x) :=
  inferInstanceAs (Decidable (-9223372036854775808 ≤ x ∧ x < 9223372036854775808))

/-- The counters of package `metrics` that `sendBulk` updates. -/
structure Metrics where
  ActiveESRequests : Int
  FailedESRequests : Int
  FailedESTraces : Int
  deriving DecidableEq

/-! ## The Storage Client Facade -/

/-- The constant `esDocType`. -/
def esDocType : String := "trace"

/-- The state of a bulk index request (`realESBulkRequest`, lines 239 to 256): what the calls
`Index`, `Type` and `Doc` have stored in it. -/
structure BulkIndexRequest where
  index : String
  docType : String
  doc : Option (GoMap Field)
  deriving DecidableEq

/-- The request returned by `NewBulkIndexRequest()`. -/
def NewBulkIndexRequest : BulkIndexRequest := { index := "", docType := "", doc := none }

/-- The method `Index(name)` of `ESBulkRequest`. -/
def BulkIndexRequest.Index (r : BulkIndexRequest) (name : String) : BulkIndexRequest :=
  { r with index := name }

/-- The method `Type(name)` of `ESBulkRequest`. -/
def BulkIndexRequest.TypeName (r : BulkIndexRequest) (name : String) : BulkIndexRequest :=
  { r with docType := name }

/-- The method `Doc(doc)` of `ESBulkRequest`. -/
def BulkIndexRequest.Doc (r : BulkIndexRequest) (doc : GoMap Field) : BulkIndexRequest :=
  { r with doc := some doc }

/-- The error payload of a failed item; `sendBulk` only gives it to `json.Marshal`, whose
outcome is recorded here. -/
structure ErrorDetails where
  json : Except String String
  deriving DecidableEq

/-- One item of a bulk response: the fields `Index` and `Error` that `sendBulk` reads. -/
structure BulkResponseItem where
  Index : String
  Error : ErrorDetails
  deriving DecidableEq

/-- The part of `elastic.BulkResponse` that `sendBulk` reads: the field `Took` and the results
of the methods `Indexed()` and `Failed()`. -/
structure BulkResponse where
  Took : Int
  Indexed : List BulkResponseItem
  Failed : List BulkResponseItem
  deriving DecidableEq

/-- An `ESClient`: what executing a bulk session returns, given the requests added to it. -/
structure ESClient where
  Do : List BulkIndexRequest → Except String BulkResponse

/-- A call made on the facade. -/
inductive FacadeCall where
  | Bulk
  | NewBulkIndexRequest
  | Index (name : String)
  | TypeName (name : String)
  | Doc (doc : GoMap Field)
  | Add (request : BulkIndexRequest)
  | Do (session : List BulkIndexRequest)
  deriving DecidableEq

/-- A line written to the log by `sendBulk`. -/
inductive SendLog where
  | sendFailed (err : String)
  | indexed (indexed failed documents : Nat) (took : Int)
  | omitted
  | decodeFailed (err : String)
  | failDetails (i : Nat) (index : String) (response : String)
  deriving DecidableEq

/-- Whether a log line is a `Fail details` line. -/
def SendLog.isFailDetails : SendLog → Bool
  | .failDetails _ _ _ => true
  | _ => false

/-! ## `sendBulk` -/

/-- The text that `json.Marshal` returns for an error payload, and the empty text when it
fails. -/
def ErrorDetails.response (e : ErrorDetails) : String :=
  match e.json with
  | .ok response => response
  | .error _ => ""

/-- Whether a call on the facade is `Do`. -/
def FacadeCall.isDo : FacadeCall → Bool
  | .Do _ => true
  | _ => false

/-- Whether a call on the facade is `Bulk`. -/
def FacadeCall.isBulk : FacadeCall → Bool
  | .Bulk => true
  | _ => false

/-- Whether a call on the facade is `Add`. -/
def FacadeCall.isAdd : FacadeCall → Bool
  | .Add _ => true
  | _ => false

/-- The index request that `sendBulk` builds for a document at line 196. -/
def requestFor (m : Document) : BulkIndexRequest :=
  { index := m.Index, docType := "trace", doc := some m.Fields }

/-- A bulk session while `sendBulk` fills it: the requests added, and the calls made so far. -/
structure Session where
  requests : List BulkIndexRequest
  calls : List FacadeCall
  deriving DecidableEq

/-- Line 196, the body of the loop over the documents. -/
def addDocument (s : Session) (m : Document) : Session :=
  let request := ((NewBulkIndexRequest.Index m.Index).TypeName esDocType).Doc m.Fields
  { requests := s.requests ++ [request],
    calls := s.calls ++ [.NewBulkIndexRequest, .Index m.Index, .TypeName esDocType,
      .Doc m.Fields, .Add request] }

/-- Lines 208 to 219, the loop over the failed items, from index `i` on. -/
def failLoop : Nat → List BulkResponseItem → List SendLog
  | _, [] => []
  | i, res :: rest =>
    if i > 5 then [.omitted]
    else
      match res.Error.json with
      | .error err => .decodeFailed err :: failLoop (i + 1) rest
      | .ok response => .failDetails i res.Index response :: failLoop (i + 1) rest

/-- What a call of `sendBulk` does: the counters after the call, the calls made on the facade,
the lines logged, and whether the call ended in a panic. -/
structure SendResult where
  metrics : Metrics
  calls : List FacadeCall
  log : List SendLog
  panicked : Bool
  deriving DecidableEq

/-- The deferred call of line 188. -/
def leaveRequest (m : Metrics) : Metrics :=
  { m with ActiveESRequests := AddInt64 m.ActiveESRequests (-1) }

/-- The function `sendBulk(esClient, documents)`, started with the counters `metrics`. The
client is `none` for a nil `esClient`: the call `esClient.Bulk()` then panics. -/
def sendBulk (esClient : Option ESClient) (documents : List Document) (metrics : Metrics) :
    SendResult :=
  let entered := { metrics with ActiveESRequests := AddInt64 metrics.ActiveESRequests 1 }
  if documents.length = 0 then
    { metrics := leaveRequest entered, calls := [], log := [], panicked := false }
  else
    match esClient with
    | none => { metrics := leaveRequest entered, calls := [], log := [], panicked := true }
    | some client =>
      let session := documents.foldl addDocument { requests := [], calls := [.Bulk] }
      let calls := session.calls ++ [.Do session.requests]
      match client.Do session.requests with
      | .error err =>
        { metrics := leaveRequest
            { entered with FailedESRequests := AddInt64 entered.FailedESRequests 1 },
          calls := calls, log := [.sendFailed err], panicked := false }
      | .ok res =>
        let failedTraces := res.Failed
        { metrics := leaveRequest
            { entered with
              FailedESTraces := AddInt64 entered.FailedESTraces failedTraces.length },
          calls := calls,
          log := .indexed res.Indexed.length failedTraces.length documents.length res.Took ::
            failLoop 0 failedTraces,
          panicked := false }

/-! ## `elasticSender` -/

/-- What one turn of the `select` of `elasticSender` observes: a document received from the
channel, the timer firing, or the channel closed. -/
inductive SinkEvent where
  | receive (doc : Document)
  | timerFire
  | close
  deriving DecidableEq

/-- The variables of `elasticSender` in its loop: the current batch `bulk`, the batches handed
to `sendBulk` so far in the order of the `go` statements, and whether the function has
returned. -/
structure SinkState where
  bulk : List Document
  dispatched : List (List Document)
  returned : Bool
  deriving DecidableEq

/-- Lines 160 to 184, one turn of the loop. -/
def sinkStep (bulkSize : Int) (st : SinkState) (ev : SinkEvent) : SinkState :=
  if st.returned then st
  else
    match ev with
    | .receive doc =>
      let bulk := st.bulk ++ [doc]
      if (bulk.length : Int) ≥ bulkSize then
        { st with bulk := [], dispatched := st.dispatched ++ [bulk] }
      else { st with bulk := bulk }
    | .timerFire => { st with bulk := [], dispatched := st.dispatched ++ [st.bulk] }
    | .close => { st with dispatched := st.dispatched ++ [st.bulk], returned := true }

/-- The state of `elasticSender` when it enters the loop. -/
def sinkInit : SinkState := { bulk := [], dispatched := [], returned := false }

/-- The largest capacity that `make` accepts for a slice of pointers whatever the memory at
hand: `maxAlloc` divided by the size of a pointer, on 64-bit Linux. -/
def maxSliceCap : Int := 35184372088832

/-- Whether `make([]*Document, 0, cap)` returns a slice. The Go runtime panics for a negative
capacity and for a capacity above `maxSliceCap`; between the two the allocation succeeds up
to `capLimit`, the largest capacity for which the process gets the memory. -/
def makeSucceeds (capLimit cap : Int) : Bool :=
  decide (0 ≤ cap ∧ cap ≤ capLimit ∧ cap ≤ maxSliceCap)

/-- A line written to the log by `elasticSender` (lines 144 and 148). -/
inductive SinkLog where
  | connecting (urls : List String)
  | connectFailed (err : String)
  deriving DecidableEq

/-- Whether the call `sendBulk(esClient, batch)` started by a `go` statement panics. -/
def sendPanics (esClient : Option ESClient) (batch : List Document) : Bool :=
  (sendBulk esClient batch
    { ActiveESRequests := 0, FailedESRequests := 0, FailedESTraces := 0 }).panicked

/-- A run of `elasticSender`: the client obtained at line 146, which every `go` statement
hands to `sendBulk`; the lines logged; whether `make` at line 151 panicked; whether a send
that was started panicked, which terminates the process; the events the `select` has taken;
and the variables of the loop. -/
structure SinkRun where
  esClient : Option ESClient
  log : List SinkLog
  makePanicked : Bool
  sendPanicked : Bool
  observed : List SinkEvent
  state : SinkState

/-- Whether the run is over: the function has returned or the process was terminated by a
panic. -/
def SinkRun.ended (run : SinkRun) : Bool :=
  run.makePanicked || run.sendPanicked || run.state.returned

/-- One event offered to a run. A run that is over takes no event. Otherwise the loop takes
the event and makes its turn, and each send it starts runs at once: when that send panics,
the process is terminated there. -/
def runStep (bulkSize : Int) (run : SinkRun) (ev : SinkEvent) : SinkRun :=
  if run.ended then run
  else
    { run with
      observed := run.observed ++ [ev],
      state := sinkStep bulkSize run.state ev,
      sendPanicked := (sinkStep bulkSize run.state ev).dispatched.any
        (sendPanics run.esClient) }

/-- The function `elasticSender(ch, urls, bulkSize, interval)` on the events offered by the
channel and the timer. `ESClientFactory` is the package variable of line 17: it returns a
client, nil or not, and an error, nil or not; the client is used whatever the error
(lines 146 to 149). When `make` at line 151 panics, no event is taken. -/
def elasticSender (ESClientFactory : List String → Option ESClient × Option String)
    (capLimit : Int) (urls : List String) (bulkSize : Int) (events : List SinkEvent) :
    SinkRun :=
  let connected := ESClientFactory urls
  let log := SinkLog.connecting urls ::
    (match connected.2 with
      | some err => [SinkLog.connectFailed err]
      | none => [])
  let start : SinkRun :=
    { esClient := connected.1, log := log, makePanicked := false, sendPanicked := false,
      observed := [], state := sinkInit }
  if makeSucceeds capLimit bulkSize then events.foldl (runStep bulkSize) start
  else { start with makePanicked := true }

/-- The documents of the `receive` events of a sequence, in order. -/
def received : List SinkEvent → List Document
  | [] => []
  | .receive doc :: evs => doc :: received evs
  | _ :: evs => received evs

/-- What a run keeps true: the batches started so far, followed by the open batch while the
function has not returned, are the documents taken from the channel; the flag `sendPanicked`
says whether one of the sends started panics; and a send panics only at a moment where the
open batch is empty or the function returns. -/
def RunInvariant (run : SinkRun) : Prop :=
  run.state.dispatched.flatten ++ (if run.state.returned then [] else run.state.bulk) =
      received run.observed ∧
    run.sendPanicked = run.state.dispatched.any (sendPanics run.esClient) ∧
    (run.sendPanicked = true → run.state.returned = true ∨ run.state.bulk = [])

/-! ## Concrete inputs for the sink and for `sendBulk` -/

/-- A document with the given index and no field. -/
def mkDoc (index : String) : Document := { Fields := GoMap.empty, Index := index }

/-- Five documents `d1` to `d5`. -/
def fiveDocs : List Document := [mkDoc "d1", mkDoc "d2", mkDoc "d3", mkDoc "d4", mkDoc "d5"]

/-- A failed item for the given index, whose error serializes to `boom`. -/
def failedItem (index : String) : BulkResponseItem :=
  { Index := index, Error := { json := .ok "boom" } }

/-- An indexed item for the given index. -/
def indexedItem (index : String) : BulkResponseItem :=
  { Index := index, Error := { json := .ok "" } }

/-- A client whose bulk call succeeds and reports the first `k` requests as failed and the
others as indexed. -/
def partialClient (k : Nat) : ESClient where
  Do := fun session =>
    .ok { Took := 12,
          Indexed := (session.drop k).map (fun r => indexedItem r.index),
          Failed := (session.take k).map (fun r => failedItem r.index) }

/-- A client whose bulk call is rejected as a whole. -/
def brokenClient : ESClient where
  Do := fun _ => .error "connection refused"

/-- A factory that connects: it returns a client, whose bulk calls all succeed, and no
error. -/
def connectedFactory : List String → Option ESClient × Option String :=
  fun _ => (some (partialClient 0), none)

/-- A factory whose connection fails, as `newESClient` does: a nil client and an error. -/
def failedFactory : List String → Option ESClient × Option String :=
  fun _ => (none, some "no Elasticsearch node available")

/-- The largest value of an `int` on a 64-bit platform. -/
def maxInt : Int := 9223372036854775807

/-- Counters of a process that has one request in flight. -/
def sampleMetrics : Metrics :=
  { ActiveESRequests := 1, FailedESRequests := 4, FailedESTraces := 9 }

/-- A clock that reads `t0` at entry, 40 nanoseconds later at the `defer` statement, and one
second after `t0` when the scan is over. -/
def sampleClock : Clock := { atEntry := t0, atDefer := t0.Add 40, atReturn := t0.Add second }

/-! ## The three classes of traces in a scan -/

/-- The trace is retained by the scan: the returned map holds it under its ID, and its
iteration sends nothing and counts nothing. -/
def RetainedClass (env : Collaborators) (now : Time) (sinceNow : Duration)
    (traceMap : TraceMap) (minTTL maxTTL : Duration) (maxSpansPerTrace : Int)
    (traceID : String) (trace : Trace) : Prop :=
  (Collect env now sinceNow traceMap minTTL maxTTL
      maxSpansPerTrace).nextGenerationTraceMap.get traceID = some trace ∧
  ∀ st : CollectState,
    (collectStep env now minTTL maxTTL maxSpansPerTrace st traceID trace).toES = st.toES ∧
    (collectStep env now minTTL maxTTL maxSpansPerTrace st traceID trace).completed =
      st.completed ∧
    (collectStep env now minTTL maxTTL maxSpansPerTrace st traceID trace).uncompleted =
      st.uncompleted

/-- The trace is flushed by the scan: the returned map has nothing under its ID, and its
iteration sends its documents and counts it as completed. -/
def FlushedClass (env : Collaborators) (now : Time) (sinceNow : Duration)
    (traceMap : TraceMap) (minTTL maxTTL : Duration) (maxSpansPerTrace : Int)
    (traceID : String) (trace : Trace) : Prop :=
  (Collect env now sinceNow traceMap minTTL maxTTL
      maxSpansPerTrace).nextGenerationTraceMap.get traceID = none ∧
  ∀ st : CollectState,
    (collectStep env now minTTL maxTTL maxSpansPerTrace st traceID trace).toES =
      st.toES ++ (GetESDocuments env trace).documents ∧
    (collectStep env now minTTL maxTTL maxSpansPerTrace st traceID trace).completed =
      st.completed + 1 ∧
    (collectStep env now minTTL maxTTL maxSpansPerTrace st traceID trace).uncompleted =
      st.uncompleted

/-- The trace is dropped by the scan: the returned map has nothing under its ID, and its
iteration sends nothing and counts it as uncompleted. -/
def DroppedClass (env : Collaborators) (now : Time) (sinceNow : Duration)
    (traceMap : TraceMap) (minTTL maxTTL : Duration) (maxSpansPerTrace : Int)
    (traceID : String) (trace : Trace) : Prop :=
  (Collect env now sinceNow traceMap minTTL maxTTL
      maxSpansPerTrace).nextGenerationTraceMap.get traceID = none ∧
  ∀ st : CollectState,
    (collectStep env now minTTL maxTTL maxSpansPerTrace st traceID trace).toES = st.toES ∧
    (collectStep env now minTTL maxTTL maxSpansPerTrace st traceID trace).completed =
      st.completed ∧
    (collectStep env now minTTL maxTTL maxSpansPerTrace st traceID trace).uncompleted =
      st.uncompleted + 1

/-! ## Facts about Go maps -/

namespace GoMap

variable {α : Type}

theorem get_empty (k : String) : (empty : GoMap α).get k = none :=
  AList.lookup_empty k

theorem get_set_self (m : GoMap α) (k : String) (v : α) : (m.set k v).get k = some v :=
  AList.lookup_insert m

theorem get_set_ne (m : GoMap α) {k k' : String} (v : α) (h : k' ≠ k) :
    (m.set k v).get k' = m.get k' :=
  AList.lookup_insert_ne h

theorem mem_range_iff (m : GoMap α) (k : String) (v : α) :
    (k, v) ∈ m.range ↔ m.get k = some v := by
  unfold range get
  rw [← Option.mem_def, AList.mem_lookup_iff]
  constructor
  · intro h
    obtain ⟨e, he, heq⟩ := List.mem_map.1 h
    cases e
    simp only [Prod.mk.injEq] at heq
    obtain ⟨rfl, rfl⟩ := heq
    exact he
  · intro h
    exact List.mem_map.2 ⟨⟨k, v⟩, h, rfl⟩

theorem range_keys (m : GoMap α) : m.range.map Prod.fst = AList.keys m := by
  unfold range AList.keys List.keys
  rw [List.map_map]
  rfl

theorem range_nodup (m : GoMap α) : (m.range.map Prod.fst).Nodup := by
  rw [range_keys]
  exact AList.keys_nodup m

theorem len_eq_range (m : GoMap α) : m.len = m.range.length := by
  simp [len, range]

/-- Deleting a key that is present removes one entry of `range` and keeps the others in
place. -/
theorem range_delete {m : GoMap α} {k : String} {v : α} (h : m.get k = some v) :
    ∃ pre post, m.range = pre ++ (k, v) :: post ∧ (m.delete k).range = pre ++ post := by
  have hk : k ∈ (AList.entries m).keys := by
    have := (AList.lookup_isSome (a := k) (s := m)).1 (by
      show (AList.lookup k m).isSome = true
      have h2 : AList.lookup k m = some v := h
      rw [h2]; rfl)
    exact this
  obtain ⟨b, l₁, l₂, _, hl, hke⟩ := List.exists_of_kerase hk
  have hb : b = v := by
    have hmem : (⟨k, b⟩ : Sigma (fun _ : String => α)) ∈ AList.entries m := by
      rw [hl]; simp
    have h1 : b ∈ AList.lookup k m := AList.mem_lookup_iff.2 hmem
    have h2 : AList.lookup k m = some v := h
    rw [h2] at h1
    exact (Option.mem_some_iff.1 h1).symm
  subst hb
  refine ⟨l₁.map (fun e => (e.1, e.2)), l₂.map (fun e => (e.1, e.2)), ?_, ?_⟩
  · unfold range
    rw [hl]; simp
  · unfold range delete
    show List.map _ (List.kerase k (AList.entries m)) = _
    rw [hke]; simp

end GoMap

/-! ## One iteration of `Collect` -/

section step

variable (env : Collaborators) (now : Time) (minTTL maxTTL : Duration) (cap : Int)

theorem collectStep_next (st : CollectState) (traceID : String) (trace : Trace) :
    (collectStep env now minTTL maxTTL cap st traceID trace).nextGenerationTraceMap =
      if isRetained now minTTL maxTTL cap trace then st.nextGenerationTraceMap.set traceID trace
      else st.nextGenerationTraceMap := by
  unfold collectStep isRetained tooFresh stillWaiting
  by_cases hov : (trace.Spans.len : Int) > cap <;>
  by_cases h1 : ((trace.Timestamp.Add minTTL).After now
      && decide ((trace.Spans.len : Int) ≤ cap)) = true <;>
  by_cases h2 : trace.Completed = true <;>
  by_cases h3 : ((trace.Timestamp.Add maxTTL).After now
          && decide ((trace.Spans.len : Int) ≤ cap)) = true <;>
  simp only [hov, h1, h2, h3, if_true, if_false, Bool.true_or, Bool.false_or, Bool.not_true,
    Bool.false_and, Bool.not_false, Bool.true_and, Bool.false_eq_true]

theorem collectStep_toES (st : CollectState) (traceID : String) (trace : Trace) :
    (collectStep env now minTTL maxTTL cap st traceID trace).toES =
      st.toES ++ sentFor env now minTTL cap trace := by
  unfold collectStep sentFor isFlushed tooFresh
  by_cases hov : (trace.Spans.len : Int) > cap <;>
  by_cases h1 : ((trace.Timestamp.Add minTTL).After now
      && decide ((trace.Spans.len : Int) ≤ cap)) = true <;>
  by_cases h2 : trace.Completed = true <;>
  by_cases h3 : ((trace.Timestamp.Add maxTTL).After now
          && decide ((trace.Spans.len : Int) ≤ cap)) = true <;>
  simp only [hov, h1, h2, h3, if_true, if_false, Bool.true_or, Bool.false_or, Bool.not_true,
    Bool.false_and, Bool.not_false, Bool.true_and, Bool.false_eq_true] <;> simp_all

theorem collectStep_completed (st : CollectState) (traceID : String) (trace : Trace) :
    (collectStep env now minTTL maxTTL cap st traceID trace).completed =
      st.completed + (if isFlushed now minTTL cap trace then 1 else 0) := by
  unfold collectStep isFlushed tooFresh
  by_cases hov : (trace.Spans.len : Int) > cap <;>
  by_cases h1 : ((trace.Timestamp.Add minTTL).After now
      && decide ((trace.Spans.len : Int) ≤ cap)) = true <;>
  by_cases h2 : trace.Completed = true <;>
  by_cases h3 : ((trace.Timestamp.Add maxTTL).After now
          && decide ((trace.Spans.len : Int) ≤ cap)) = true <;>
  simp only [hov, h1, h2, h3, if_true, if_false, Bool.true_or, Bool.false_or, Bool.not_true,
    Bool.false_and, Bool.not_false, Bool.true_and, Bool.false_eq_true] <;> simp_all

theorem collectStep_uncompleted (st : CollectState) (traceID : String) (trace : Trace) :
    (collectStep env now minTTL maxTTL cap st traceID trace).uncompleted =
      st.uncompleted + (if isDropped now minTTL maxTTL cap trace then 1 else 0) := by
  unfold collectStep isDropped tooFresh stillWaiting
  by_cases hov : (trace.Spans.len : Int) > cap <;>
  by_cases h1 : ((trace.Timestamp.Add minTTL).After now
      && decide ((trace.Spans.len : Int) ≤ cap)) = true <;>
  by_cases h2 : trace.Completed = true <;>
  by_cases h3 : ((trace.Timestamp.Add maxTTL).After now
          && decide ((trace.Spans.len : Int) ≤ cap)) = true <;>
  simp only [hov, h1, h2, h3, if_true, if_false, Bool.true_or, Bool.false_or, Bool.not_true,
    Bool.false_and, Bool.not_false, Bool.true_and, Bool.false_eq_true] <;> simp_all

end step

/-! ## The scan of `Collect` as a fold -/

section scan

variable (env : Collaborators) (now : Time) (minTTL maxTTL : Duration) (cap : Int)

theorem scan_toES (l : List (String × Trace)) (st : CollectState) :
    (l.foldl (fun st kv => collectStep env now minTTL maxTTL cap st kv.1 kv.2) st).toES =
      st.toES ++ (l.map (fun kv => sentFor env now minTTL cap kv.2)).flatten := by
  induction l generalizing st with
  | nil => simp
  | cons e l ih =>
    rw [List.foldl_cons, ih, collectStep_toES]
    simp

theorem scan_completed (l : List (String × Trace)) (st : CollectState) :
    (l.foldl (fun st kv => collectStep env now minTTL maxTTL cap st kv.1 kv.2) st).completed =
      st.completed + (l.countP (fun kv => isFlushed now minTTL cap kv.2) : Nat) := by
  induction l generalizing st with
  | nil => simp
  | cons e l ih =>
    rw [List.foldl_cons, ih, collectStep_completed, List.countP_cons]
    split <;> simp_all
    omega

theorem scan_uncompleted (l : List (String × Trace)) (st : CollectState) :
    (l.foldl (fun st kv => collectStep env now minTTL maxTTL cap st kv.1 kv.2) st).uncompleted =
      st.uncompleted + (l.countP (fun kv => isDropped now minTTL maxTTL cap kv.2) : Nat) := by
  induction l generalizing st with
  | nil => simp
  | cons e l ih =>
    rw [List.foldl_cons, ih, collectStep_uncompleted, List.countP_cons]
    split <;> simp_all
    omega

theorem scan_next_of_not_mem (l : List (String × Trace)) (st : CollectState) (k : String)
    (hk : k ∉ l.map Prod.fst) :
    (l.foldl (fun st kv => collectStep env now minTTL maxTTL cap st kv.1 kv.2)
      st).nextGenerationTraceMap.get k = st.nextGenerationTraceMap.get k := by
  induction l generalizing st with
  | nil => rfl
  | cons e l ih =>
    rw [List.map_cons, List.mem_cons, not_or] at hk
    rw [List.foldl_cons, ih _ hk.2, collectStep_next]
    split
    · exact GoMap.get_set_ne _ _ hk.1
    · rfl

theorem scan_next_of_mem (l : List (String × Trace)) (st : CollectState) (k : String)
    (t : Trace) (hnd : (l.map Prod.fst).Nodup) (hmem : (k, t) ∈ l) :
    (l.foldl (fun st kv => collectStep env now minTTL maxTTL cap st kv.1 kv.2)
      st).nextGenerationTraceMap.get k =
      if isRetained now minTTL maxTTL cap t then some t else st.nextGenerationTraceMap.get k := by
  induction l generalizing st with
  | nil => simp at hmem
  | cons e l ih =>
    rw [List.map_cons, List.nodup_cons] at hnd
    rw [List.foldl_cons]
    rcases List.mem_cons.1 hmem with h | h
    · subst h
      rw [scan_next_of_not_mem _ _ _ _ _ _ _ _ hnd.1, collectStep_next]
      split
      · exact GoMap.get_set_self _ _ _
      · rfl
    · have hne : k ≠ e.1 := by
        intro hke
        apply hnd.1
        rw [← hke]
        exact List.mem_map.2 ⟨(k, t), h, rfl⟩
      rw [ih _ hnd.2 h, collectStep_next]
      split
      · rfl
      · split
        · exact GoMap.get_set_ne _ _ hne
        · rfl

end scan

/-! ## `Collect` as a whole -/

section collect

variable (env : Collaborators) (now : Time) (sinceNow : Duration) (minTTL maxTTL : Duration)
  (cap : Int)

theorem After_Add_iff (t : Time) (d : Duration) :
    (t.Add d).After now = true ↔ now.unixNano < t.unixNano + d := by
  simp [Time.After, Time.Add]

theorem tooFresh_iff (trace : Trace) :
    tooFresh now minTTL cap trace = true ↔
      now.unixNano < trace.Timestamp.unixNano + minTTL ∧ (trace.Spans.len : Int) ≤ cap := by
  simp [tooFresh, After_Add_iff]

theorem stillWaiting_iff (trace : Trace) :
    stillWaiting now maxTTL cap trace = true ↔
      now.unixNano < trace.Timestamp.unixNano + maxTTL ∧ (trace.Spans.len : Int) ≤ cap := by
  simp [stillWaiting, After_Add_iff]

theorem Collect_next_get (traceMap : TraceMap) (traceID : String) (trace : Trace)
    (hin : traceMap.get traceID = some trace) :
    (Collect env now sinceNow traceMap minTTL maxTTL cap).nextGenerationTraceMap.get traceID =
      if isRetained now minTTL maxTTL cap trace then some trace else none := by
  unfold Collect
  simp only
  rw [scan_next_of_mem env now minTTL maxTTL cap _ _ traceID trace (GoMap.range_nodup _)
    ((GoMap.mem_range_iff _ _ _).2 hin)]
  rfl

/-- Removing one trace from the input removes from the output exactly what its iteration
contributes: its documents, in place, and its share of the two counters. -/
theorem Collect_delete (traceMap : TraceMap) (traceID : String) (trace : Trace)
    (hin : traceMap.get traceID = some trace) :
    (∃ pre post,
      (Collect env now sinceNow traceMap minTTL maxTTL cap).toES =
        pre ++ sentFor env now minTTL cap trace ++ post ∧
      (Collect env now sinceNow (traceMap.delete traceID) minTTL maxTTL cap).toES =
        pre ++ post) ∧
    (Collect env now sinceNow traceMap minTTL maxTTL cap).completed =
      (Collect env now sinceNow (traceMap.delete traceID) minTTL maxTTL cap).completed +
        (if isFlushed now minTTL cap trace then 1 else 0) ∧
    (Collect env now sinceNow traceMap minTTL maxTTL cap).uncompleted =
      (Collect env now sinceNow (traceMap.delete traceID) minTTL maxTTL cap).uncompleted +
        (if isDropped now minTTL maxTTL cap trace then 1 else 0) := by
  obtain ⟨pre, post, h1, h2⟩ := GoMap.range_delete hin
  unfold Collect
  simp only [scan_toES, scan_completed, scan_uncompleted, h1, h2]
  refine ⟨⟨(pre.map (fun kv => sentFor env now minTTL cap kv.2)).flatten,
    (post.map (fun kv => sentFor env now minTTL cap kv.2)).flatten, ?_, ?_⟩, ?_, ?_⟩
  · simp [collectInit]
  · simp [collectInit]
  · simp only [List.countP_append, List.countP_cons, collectInit]
    split <;> simp
    omega
  · simp only [List.countP_append, List.countP_cons, collectInit]
    split <;> simp
    omega

end collect

theorem isDropped_iff (now : Time) (minTTL maxTTL : Duration) (cap : Int) (trace : Trace) :
    isDropped now minTTL maxTTL cap trace = true ↔
      trace.Completed = false ∧
        (cap < (trace.Spans.len : Int) ∨
          (trace.Timestamp.unixNano + minTTL ≤ now.unixNano ∧
            trace.Timestamp.unixNano + maxTTL ≤ now.unixNano)) := by
  cases hc : trace.Completed <;>
    simp only [isDropped, tooFresh, stillWaiting, Time.After, Time.Add, hc, Bool.and_eq_true,
      Bool.not_eq_true', Bool.and_eq_false_iff, decide_eq_true_eq, decide_eq_false_iff_not,
      Bool.not_false, Bool.not_true, and_true, true_and, false_and, and_false,
      Bool.false_eq_true, reduceCtorEq]
  omega

/-! ## `GetESDocuments` as a fold -/

section docs

variable (env : Collaborators)

theorem rootStep_documents (trace : Trace) (st : DocsState) (rootSpanID : String)
    (root : Span) :
    (rootStep env trace st rootSpanID root).documents =
      st.documents ++ (rootDocument env trace rootSpanID root).toList := by
  unfold rootStep rootDocument
  cases h : env.GetChains trace rootSpanID with
  | error e => simp
  | ok r => simp

theorem rootStep_log_length (trace : Trace) (st : DocsState) (rootSpanID : String)
    (root : Span) :
    (rootStep env trace st rootSpanID root).log.length =
      st.log.length + (if chainsFail env trace rootSpanID then 1 else 0) := by
  unfold rootStep chainsFail
  cases h : env.GetChains trace rootSpanID with
  | error e => simp
  | ok r => simp

theorem rootDocument_isSome (trace : Trace) (rootSpanID : String) (root : Span) :
    (rootDocument env trace rootSpanID root).isSome = !chainsFail env trace rootSpanID := by
  unfold rootDocument chainsFail
  cases h : env.GetChains trace rootSpanID with
  | error e => rfl
  | ok r => rfl

theorem roots_fold_documents (trace : Trace) (l : List (String × Span)) (st : DocsState) :
    (l.foldl (fun st kv => rootStep env trace st kv.1 kv.2) st).documents =
      st.documents ++ l.filterMap (fun kv => rootDocument env trace kv.1 kv.2) := by
  induction l generalizing st with
  | nil => simp
  | cons e l ih =>
    rw [List.foldl_cons, ih, rootStep_documents, List.filterMap_cons]
    cases h : rootDocument env trace e.1 e.2 <;> simp

theorem roots_fold_log_length (trace : Trace) (l : List (String × Span)) (st : DocsState) :
    (l.foldl (fun st kv => rootStep env trace st kv.1 kv.2) st).log.length =
      st.log.length + l.countP (fun kv => chainsFail env trace kv.1) := by
  induction l generalizing st with
  | nil => simp
  | cons e l ih =>
    rw [List.foldl_cons, ih, rootStep_log_length, List.countP_cons]
    omega

theorem filterMap_rootDocument_length (trace : Trace) (l : List (String × Span)) :
    (l.filterMap (fun kv => rootDocument env trace kv.1 kv.2)).length =
      l.countP (fun kv => !chainsFail env trace kv.1) := by
  induction l with
  | nil => rfl
  | cons e l ih =>
    rw [List.filterMap_cons, List.countP_cons, ← rootDocument_isSome env trace e.1 e.2]
    cases h : rootDocument env trace e.1 e.2 <;> simp [ih]

theorem GetESDocuments_documents (trace : Trace) :
    (GetESDocuments env trace).documents =
      (promoteRoot trace).Roots.range.filterMap
        (fun kv => rootDocument env (promoteRoot trace) kv.1 kv.2) := by
  unfold GetESDocuments
  simp only [roots_fold_documents, List.nil_append]

theorem GetESDocuments_length (trace : Trace) :
    (GetESDocuments env trace).documents.length =
      (promoteRoot trace).Roots.range.countP
        (fun kv => !chainsFail env (promoteRoot trace) kv.1) := by
  rw [GetESDocuments_documents, filterMap_rootDocument_length]

theorem promoteRoot_of_empty (trace : Trace) (h : trace.Roots.len = 0) :
    (promoteRoot trace).Roots.range = [(trace.Root.ID, trace.Root)] := by
  unfold promoteRoot
  rw [if_pos h]
  have he : AList.entries trace.Roots = [] := List.length_eq_zero.1 h
  simp [GoMap.range, GoMap.set, AList.insert_entries, he]

theorem promoteRoot_of_nonempty (trace : Trace) (h : trace.Roots.len ≠ 0) :
    promoteRoot trace = trace := by
  unfold promoteRoot
  rw [if_neg h]

theorem promoteRoot_len_pos (trace : Trace) : 0 < (promoteRoot trace).Roots.len := by
  by_cases h : trace.Roots.len = 0
  · rw [GoMap.len_eq_range, promoteRoot_of_empty trace h]
    simp
  · rw [promoteRoot_of_nonempty trace h]
    omega

end docs

/-! ## Span records and document fields -/

section records

variable {α : Type}

theorem fold_set_get_of_not_mem (l : List (String × α)) (m : GoMap α) (k : String)
    (hk : k ∉ l.map Prod.fst) :
    (l.foldl (fun m kv => m.set kv.1 kv.2) m).get k = m.get k := by
  induction l generalizing m with
  | nil => rfl
  | cons e l ih =>
    rw [List.map_cons, List.mem_cons, not_or] at hk
    rw [List.foldl_cons, ih _ hk.2]
    exact GoMap.get_set_ne _ _ hk.1

theorem fold_set_get_of_mem (l : List (String × α)) (m : GoMap α) (k : String) (v : α)
    (hnd : (l.map Prod.fst).Nodup) (hmem : (k, v) ∈ l) :
    (l.foldl (fun m kv => m.set kv.1 kv.2) m).get k = some v := by
  induction l generalizing m with
  | nil => simp at hmem
  | cons e l ih =>
    rw [List.map_cons, List.nodup_cons] at hnd
    rw [List.foldl_cons]
    rcases List.mem_cons.1 hmem with h | h
    · subst h
      rw [fold_set_get_of_not_mem _ _ _ hnd.1]
      exact GoMap.get_set_self _ _ _
    · exact ih _ hnd.2 h

variable (env : Collaborators)

/-- The record of a span after the loop over its annotations (line 83). -/
theorem spanRecord_get_of_not_computed (span : Span) (key : String)
    (hcd : key ≠ "cd") (hsd : key ≠ "sd") (htd : key ≠ "td")
    (htl : key = "timeline" → span.Timeline.len = 0) :
    (spanRecord env span).get key =
      (span.Annotations.range.foldl (fun ds kv => ds.set kv.1 kv.2)
        ((if strLen span.ParentSpanID > 0 then
            ((GoMap.empty : GoMap Iface).set "spanid" (.str span.ID)).set "parentspanid"
              (.str span.ParentSpanID)
          else (GoMap.empty : GoMap Iface).set "spanid" (.str span.ID)).set "prefix"
          (.str span.Prefix))).get key := by
  unfold spanRecord
  simp only
  by_cases hlen : span.Timeline.len > 0
  · have hne : key ≠ "timeline" := fun h => by
      have := htl h
      omega
    rw [if_pos hlen, GoMap.get_set_ne _ _ hne, GoMap.get_set_ne _ _ htd,
      GoMap.get_set_ne _ _ hsd, GoMap.get_set_ne _ _ hcd]
  · rw [if_neg hlen, GoMap.get_set_ne _ _ htd, GoMap.get_set_ne _ _ hsd,
      GoMap.get_set_ne _ _ hcd]

theorem spanRecord_get_annotation (span : Span) (key : String) (value : Iface)
    (hann : span.Annotations.get key = some value)
    (hcd : key ≠ "cd") (hsd : key ≠ "sd") (htd : key ≠ "td")
    (htl : key = "timeline" → span.Timeline.len = 0) :
    (spanRecord env span).get key = some value := by
  rw [spanRecord_get_of_not_computed env span key hcd hsd htd htl]
  exact fold_set_get_of_mem _ _ _ _ (GoMap.range_nodup _) ((GoMap.mem_range_iff _ _ _).2 hann)

theorem spanRecord_get_td (span : Span) :
    (spanRecord env span).get "td" = some (.num (env.Durations span).2.2) := by
  unfold spanRecord
  simp only
  split
  · rw [GoMap.get_set_ne _ _ (by decide), GoMap.get_set_self]
  · rw [GoMap.get_set_self]

theorem spanRecord_get_sd (span : Span) :
    (spanRecord env span).get "sd" = some (.num (env.Durations span).2.1) := by
  unfold spanRecord
  simp only
  split
  · rw [GoMap.get_set_ne _ _ (by decide), GoMap.get_set_ne _ _ (by decide),
      GoMap.get_set_self]
  · rw [GoMap.get_set_ne _ _ (by decide), GoMap.get_set_self]

theorem spanRecord_get_cd (span : Span) :
    (spanRecord env span).get "cd" = some (.num (env.Durations span).1) := by
  unfold spanRecord
  simp only
  split
  · rw [GoMap.get_set_ne _ _ (by decide), GoMap.get_set_ne _ _ (by decide),
      GoMap.get_set_ne _ _ (by decide), GoMap.get_set_self]
  · rw [GoMap.get_set_ne _ _ (by decide), GoMap.get_set_ne _ _ (by decide),
      GoMap.get_set_self]

theorem spanRecord_get_timeline (span : Span) (h : 0 < span.Timeline.len) :
    (spanRecord env span).get "timeline" =
      some (.strMap (formatTimeline span.Timeline)) := by
  unfold spanRecord
  simp only
  rw [if_pos h, GoMap.get_set_self]

theorem promoteRoot_Timestamp (trace : Trace) :
    (promoteRoot trace).Timestamp = trace.Timestamp := by
  unfold promoteRoot
  split <;> rfl

theorem rootHeader_timestamp (trace : Trace) (root : Span) :
    (rootHeader env trace root).Fields.get "timestamp" =
      some (.time (env.get root.Timeline trace.Timestamp ["cs", "sr"])) := by
  unfold rootHeader
  simp only
  split
  · rw [GoMap.get_set_ne _ _ (by decide), GoMap.get_set_ne _ _ (by decide),
      GoMap.get_set_ne _ _ (by decide), GoMap.get_set_ne _ _ (by decide),
      GoMap.get_set_self]
  · rw [GoMap.get_set_ne _ _ (by decide), GoMap.get_set_ne _ _ (by decide),
      GoMap.get_set_ne _ _ (by decide), GoMap.get_set_self]

theorem rootHeader_Index (trace : Trace) (root : Span) :
    (rootHeader env trace root).Index =
      "traces-" ++ (env.get root.Timeline trace.Timestamp ["cs", "sr"]).FormatDate := rfl

theorem withChains_Index (doc : Document) (spans : List Span) (chains : Chains) :
    (withChains env doc spans chains).Index = doc.Index := rfl

theorem withChains_get_timestamp (doc : Document) (spans : List Span) (chains : Chains) :
    (withChains env doc spans chains).Fields.get "timestamp" = doc.Fields.get "timestamp" := by
  unfold withChains
  simp only
  rw [GoMap.get_set_ne _ _ (by decide), GoMap.get_set_ne _ _ (by decide)]

theorem withChains_get_spans (doc : Document) (spans : List Span) (chains : Chains) :
    (withChains env doc spans chains).Fields.get "spans" =
      some (.records (spans.map (spanRecord env))) := by
  unfold withChains
  simp only
  rw [GoMap.get_set_self]

/-- Every returned document is the document of one root whose chains resolved. -/
theorem mem_documents_iff (trace : Trace) (doc : Document) :
    doc ∈ (GetESDocuments env trace).documents ↔
      ∃ rootSpanID root spans chains,
        (promoteRoot trace).Roots.get rootSpanID = some root ∧
        env.GetChains (promoteRoot trace) rootSpanID = .ok (spans, chains) ∧
        doc = withChains env (rootHeader env (promoteRoot trace) root) spans chains := by
  rw [GetESDocuments_documents, List.mem_filterMap]
  constructor
  · rintro ⟨⟨k, root⟩, hmem, hdoc⟩
    have hget := (GoMap.mem_range_iff _ _ _).1 hmem
    unfold rootDocument at hdoc
    simp only at hdoc
    cases hch : env.GetChains (promoteRoot trace) k with
    | error e => rw [hch] at hdoc; simp at hdoc
    | ok r =>
      obtain ⟨spans, chains⟩ := r
      rw [hch] at hdoc
      simp only [Option.some.injEq] at hdoc
      exact ⟨k, root, spans, chains, hget, hch, hdoc.symm⟩
  · rintro ⟨k, root, spans, chains, hget, hch, hdoc⟩
    refine ⟨(k, root), (GoMap.mem_range_iff _ _ _).2 hget, ?_⟩
    unfold rootDocument
    simp only [hch, hdoc]

end records

/-! ## The time layouts on known dates -/

/-- The layout `2006.01.02` on the epoch, on a leap day seen from a zone one hour east, on
the day after a leap day that is skipped in a century year, and on the last day before the
year 1. -/
theorem FormatDate_samples :
    (Time.mk 0 0).FormatDate = "1970.01.01" ∧
    (Time.mk (-1) 0).FormatDate = "1969.12.31" ∧
    (Time.mk 1456790399000000000 3600).FormatDate = "2016.03.01" ∧
    (Time.mk 1456790399000000000 0).FormatDate = "2016.02.29" ∧
    (Time.mk 4107542400000000000 0).FormatDate = "2100.03.01" ∧
    (Time.mk (-62135596800000000001) 0).FormatDate = "0000.12.31" := by
  decide

/-- The layout `RFC3339Nano` with and without a fraction of a second and a zone offset. -/
theorem FormatRFC3339Nano_samples :
    t0.FormatRFC3339Nano = "2016-02-29T00:00:00Z" ∧
    (Time.mk 1456704000000120000 (-5400)).FormatRFC3339Nano =
      "2016-02-28T22:30:00.00012-01:30" ∧
    (Time.mk (-1) 3600).FormatRFC3339Nano = "1970-01-01T00:59:59.999999999+01:00" := by
  decide

/-! ## Retention: the claims about `Collect` -/

/-- C1. A trace of the map that is not completed, younger than `maxTTL` and within the span
limit is returned in the next generation under its ID, unchanged, and no document is sent
for it: its iteration leaves the channel as it was, and `Collect` sends the very same
documents when the trace is deleted from the input. -/
theorem Collect_retains_waiting (env : Collaborators) (now : Time) (sinceNow : Duration)
    (traceMap : TraceMap) (minTTL maxTTL : Duration) (maxSpansPerTrace : Int)
    (traceID : String) (trace : Trace)
    (hin : traceMap.get traceID = some trace)
    (hcompleted : trace.Completed = false)
    (hyoung : now.unixNano < trace.Timestamp.unixNano + maxTTL)
    (hspans : (trace.Spans.len : Int) ≤ maxSpansPerTrace) :
    (Collect env now sinceNow traceMap minTTL maxTTL
        maxSpansPerTrace).nextGenerationTraceMap.get traceID = some trace ∧
    (∀ st : CollectState,
      (collectStep env now minTTL maxTTL maxSpansPerTrace st traceID trace).toES = st.toES) ∧
    (Collect env now sinceNow traceMap minTTL maxTTL maxSpansPerTrace).toES =
      (Collect env now sinceNow (traceMap.delete traceID) minTTL maxTTL
        maxSpansPerTrace).toES := by
  have hw : stillWaiting now maxTTL maxSpansPerTrace trace = true :=
    (stillWaiting_iff now maxTTL maxSpansPerTrace trace).2 ⟨hyoung, hspans⟩
  have hret : isRetained now minTTL maxTTL maxSpansPerTrace trace = true := by
    simp [isRetained, hw, hcompleted]
  have hsent : sentFor env now minTTL maxSpansPerTrace trace = [] := by
    simp [sentFor, isFlushed, hcompleted]
  refine ⟨?_, ?_, ?_⟩
  · rw [Collect_next_get env now sinceNow minTTL maxTTL maxSpansPerTrace _ _ _ hin, hret]
    rfl
  · intro st
    rw [collectStep_toES, hsent, List.append_nil]
  · obtain ⟨⟨pre, post, h1, h2⟩, _⟩ :=
      Collect_delete env now sinceNow minTTL maxTTL maxSpansPerTrace _ _ _ hin
    rw [h1, h2, hsent, List.append_nil]

/-- C1, on a map holding the incomplete trace `T1` one second after it was first seen, with
`maxTTL` of one hour and a limit of ten spans. -/
theorem Collect_retains_waiting_witness :
    (GoMap.ofList [("T1", traceT1 false)]).get "T1" = some (traceT1 false) ∧
    (traceT1 false).Completed = false ∧
    (t0.Add second).unixNano < (traceT1 false).Timestamp.unixNano + 3600 * second ∧
    (((traceT1 false).Spans.len : Int) ≤ 10) ∧
    ((Collect sampleEnv (t0.Add second) 0 (GoMap.ofList [("T1", traceT1 false)]) 0
        (3600 * second) 10).nextGenerationTraceMap.get "T1" = some (traceT1 false) ∧
    (∀ st : CollectState,
      (collectStep sampleEnv (t0.Add second) 0 (3600 * second) 10 st "T1"
        (traceT1 false)).toES = st.toES) ∧
    (Collect sampleEnv (t0.Add second) 0 (GoMap.ofList [("T1", traceT1 false)]) 0
        (3600 * second) 10).toES =
      (Collect sampleEnv (t0.Add second) 0
        ((GoMap.ofList [("T1", traceT1 false)]).delete "T1") 0 (3600 * second) 10).toES) :=
  ⟨by decide, by decide, by decide, by decide,
    Collect_retains_waiting sampleEnv (t0.Add second) 0 (GoMap.ofList [("T1", traceT1 false)])
      0 (3600 * second) 10 "T1" (traceT1 false) (by decide) (by decide) (by decide)
      (by decide)⟩

/-- C2. A completed trace of the map that has reached `minTTL`, whatever its span count,
is absent from the returned map, and the documents sent for it are exactly those that
`GetESDocuments` returns for it: its iteration appends them to the channel, `Collect` sends
them as one block that disappears when the trace is deleted from the input, and they are
the documents of the roots whose chains resolve, one each. -/
theorem Collect_flushes_completed (env : Collaborators) (now : Time) (sinceNow : Duration)
    (traceMap : TraceMap) (minTTL maxTTL : Duration) (maxSpansPerTrace : Int)
    (traceID : String) (trace : Trace)
    (hin : traceMap.get traceID = some trace)
    (hcompleted : trace.Completed = true)
    (hold : trace.Timestamp.unixNano + minTTL ≤ now.unixNano) :
    (Collect env now sinceNow traceMap minTTL maxTTL
        maxSpansPerTrace).nextGenerationTraceMap.get traceID = none ∧
    (∀ st : CollectState,
      (collectStep env now minTTL maxTTL maxSpansPerTrace st traceID trace).toES =
        st.toES ++ (GetESDocuments env trace).documents) ∧
    (∃ pre post,
      (Collect env now sinceNow traceMap minTTL maxTTL maxSpansPerTrace).toES =
        pre ++ (GetESDocuments env trace).documents ++ post ∧
      (Collect env now sinceNow (traceMap.delete traceID) minTTL maxTTL
        maxSpansPerTrace).toES = pre ++ post) ∧
    (GetESDocuments env trace).documents =
      (promoteRoot trace).Roots.range.filterMap
        (fun kv => rootDocument env (promoteRoot trace) kv.1 kv.2) ∧
    (GetESDocuments env trace).documents.length =
      (promoteRoot trace).Roots.range.countP
        (fun kv => !chainsFail env (promoteRoot trace) kv.1) := by
  have hf : tooFresh now minTTL maxSpansPerTrace trace = false := by
    rw [Bool.eq_false_iff, Ne, tooFresh_iff]
    intro h
    omega
  have hret : isRetained now minTTL maxTTL maxSpansPerTrace trace = false := by
    simp [isRetained, hf, hcompleted]
  have hsent : sentFor env now minTTL maxSpansPerTrace trace =
      (GetESDocuments env trace).documents := by
    simp [sentFor, isFlushed, hf, hcompleted]
  refine ⟨?_, ?_, ?_, GetESDocuments_documents env trace, GetESDocuments_length env trace⟩
  · rw [Collect_next_get env now sinceNow minTTL maxTTL maxSpansPerTrace _ _ _ hin, hret]
    rfl
  · intro st
    rw [collectStep_toES, hsent]
  · obtain ⟨⟨pre, post, h1, h2⟩, _⟩ :=
      Collect_delete env now sinceNow minTTL maxTTL maxSpansPerTrace _ _ _ hin
    rw [hsent] at h1
    exact ⟨pre, post, h1, h2⟩

/-- C2, on `sampleMap`, one second
after both were first seen, with `minTTL` zero. -/
theorem Collect_flushes_completed_witness :
    sampleMap.get "T1" =
      some (traceT1 true) ∧
    (traceT1 true).Completed = true ∧
    (traceT1 true).Timestamp.unixNano + 0 ≤ (t0.Add second).unixNano ∧
    ((Collect sampleEnv (t0.Add second) 0
        sampleMap 0 (3600 * second)
        10).nextGenerationTraceMap.get "T1" = none ∧
    (∀ st : CollectState,
      (collectStep sampleEnv (t0.Add second) 0 (3600 * second) 10 st "T1"
        (traceT1 true)).toES = st.toES ++ (GetESDocuments sampleEnv (traceT1 true)).documents) ∧
    (∃ pre post,
      (Collect sampleEnv (t0.Add second) 0
        sampleMap 0 (3600 * second)
        10).toES = pre ++ (GetESDocuments sampleEnv (traceT1 true)).documents ++ post ∧
      (Collect sampleEnv (t0.Add second) 0
        (sampleMap.delete "T1") 0
        (3600 * second) 10).toES = pre ++ post) ∧
    (GetESDocuments sampleEnv (traceT1 true)).documents =
      (promoteRoot (traceT1 true)).Roots.range.filterMap
        (fun kv => rootDocument sampleEnv (promoteRoot (traceT1 true)) kv.1 kv.2) ∧
    (GetESDocuments sampleEnv (traceT1 true)).documents.length =
      (promoteRoot (traceT1 true)).Roots.range.countP
        (fun kv => !chainsFail sampleEnv (promoteRoot (traceT1 true)) kv.1)) :=
  ⟨by decide, by decide, by decide,
    Collect_flushes_completed sampleEnv (t0.Add second) 0
      sampleMap 0 (3600 * second) 10 "T1"
      (traceT1 true) (by decide) (by decide) (by decide)⟩

/-- C3 fails as stated: a completed trace with two spans, a limit of one span, seen two hours
after the trace with `maxTTL` of one hour. The trace is over the limit and older than
`maxTTL`, yet its document is sent and it is counted as completed, not as uncompleted. -/
theorem Collect_drops_overcap_counterexample :
    (GoMap.ofList [("T2", traceT2 true)]).get "T2" = some (traceT2 true) ∧
    (1 : Int) < (traceT2 true).Spans.len ∧
    3600 * second < (t0.Add (7200 * second)).unixNano - (traceT2 true).Timestamp.unixNano ∧
    (Collect sampleEnv (t0.Add (7200 * second)) 0 (GoMap.ofList [("T2", traceT2 true)]) 0
        (3600 * second) 1).toES = (GetESDocuments sampleEnv (traceT2 true)).documents ∧
    (GetESDocuments sampleEnv (traceT2 true)).documents.length = 1 ∧
    (Collect sampleEnv (t0.Add (7200 * second)) 0
        ((GoMap.ofList [("T2", traceT2 true)]).delete "T2") 0 (3600 * second) 1).toES = [] ∧
    (Collect sampleEnv (t0.Add (7200 * second)) 0 (GoMap.ofList [("T2", traceT2 true)]) 0
        (3600 * second) 1).uncompleted = 0 ∧
    (Collect sampleEnv (t0.Add (7200 * second)) 0 (GoMap.ofList [("T2", traceT2 true)]) 0
        (3600 * second) 1).completed = 1 := by
  decide

/-- C3, amended. A trace of the map that is not completed, has more spans than the limit and
is older than `maxTTL` is absent from the returned map, no document is sent for it, and it
adds exactly 1 to the uncompleted counter and nothing to the completed counter. -/
theorem Collect_drops_overcap (env : Collaborators) (now : Time) (sinceNow : Duration)
    (traceMap : TraceMap) (minTTL maxTTL : Duration) (maxSpansPerTrace : Int)
    (traceID : String) (trace : Trace)
    (hin : traceMap.get traceID = some trace)
    (hcompleted : trace.Completed = false)
    (hover : maxSpansPerTrace < (trace.Spans.len : Int))
    (_hold : maxTTL < now.unixNano - trace.Timestamp.unixNano) :
    (Collect env now sinceNow traceMap minTTL maxTTL
        maxSpansPerTrace).nextGenerationTraceMap.get traceID = none ∧
    (∀ st : CollectState,
      (collectStep env now minTTL maxTTL maxSpansPerTrace st traceID trace).toES = st.toES ∧
      (collectStep env now minTTL maxTTL maxSpansPerTrace st traceID trace).uncompleted =
        st.uncompleted + 1 ∧
      (collectStep env now minTTL maxTTL maxSpansPerTrace st traceID trace).completed =
        st.completed) ∧
    (Collect env now sinceNow traceMap minTTL maxTTL maxSpansPerTrace).toES =
      (Collect env now sinceNow (traceMap.delete traceID) minTTL maxTTL
        maxSpansPerTrace).toES ∧
    (Collect env now sinceNow traceMap minTTL maxTTL maxSpansPerTrace).uncompleted =
      (Collect env now sinceNow (traceMap.delete traceID) minTTL maxTTL
        maxSpansPerTrace).uncompleted + 1 ∧
    (Collect env now sinceNow traceMap minTTL maxTTL maxSpansPerTrace).completed =
      (Collect env now sinceNow (traceMap.delete traceID) minTTL maxTTL
        maxSpansPerTrace).completed := by
  have hf : tooFresh now minTTL maxSpansPerTrace trace = false := by
    rw [Bool.eq_false_iff, Ne, tooFresh_iff]
    intro h
    omega
  have hw : stillWaiting now maxTTL maxSpansPerTrace trace = false := by
    rw [Bool.eq_false_iff, Ne, stillWaiting_iff]
    intro h
    omega
  have hret : isRetained now minTTL maxTTL maxSpansPerTrace trace = false := by
    simp [isRetained, hf, hw]
  have hfl : isFlushed now minTTL maxSpansPerTrace trace = false := by
    simp [isFlushed, hcompleted]
  have hdr : isDropped now minTTL maxTTL maxSpansPerTrace trace = true := by
    simp [isDropped, hf, hw, hcompleted]
  have hsent : sentFor env now minTTL maxSpansPerTrace trace = [] := by
    simp [sentFor, hfl]
  obtain ⟨⟨pre, post, h1, h2⟩, h3, h4⟩ :=
    Collect_delete env now sinceNow minTTL maxTTL maxSpansPerTrace _ _ _ hin
  refine ⟨?_, ?_, ?_, ?_, ?_⟩
  · rw [Collect_next_get env now sinceNow minTTL maxTTL maxSpansPerTrace _ _ _ hin, hret]
    rfl
  · intro st
    rw [collectStep_toES, collectStep_uncompleted, collectStep_completed, hsent, hdr, hfl]
    simp
  · rw [h1, h2, hsent, List.append_nil]
  · rw [h4, hdr]
    rfl
  · rw [h3, hfl]
    simp

/-- C3 amended, on `sampleMap`, for its incomplete two-span trace `T2`, two hours after both were first seen, with `maxTTL` of one hour and a limit of one
span. -/
theorem Collect_drops_overcap_witness :
    sampleMap.get "T2" =
      some (traceT2 false) ∧
    (traceT2 false).Completed = false ∧
    (1 : Int) < ((traceT2 false).Spans.len : Int) ∧
    3600 * second < (t0.Add (7200 * second)).unixNano - (traceT2 false).Timestamp.unixNano ∧
    ((Collect sampleEnv (t0.Add (7200 * second)) 0
        sampleMap 0 (3600 * second)
        1).nextGenerationTraceMap.get "T2" = none ∧
    (∀ st : CollectState,
      (collectStep sampleEnv (t0.Add (7200 * second)) 0 (3600 * second) 1 st "T2"
        (traceT2 false)).toES = st.toES ∧
      (collectStep sampleEnv (t0.Add (7200 * second)) 0 (3600 * second) 1 st "T2"
        (traceT2 false)).uncompleted = st.uncompleted + 1 ∧
      (collectStep sampleEnv (t0.Add (7200 * second)) 0 (3600 * second) 1 st "T2"
        (traceT2 false)).completed = st.completed) ∧
    (Collect sampleEnv (t0.Add (7200 * second)) 0
        sampleMap 0 (3600 * second)
        1).toES =
      (Collect sampleEnv (t0.Add (7200 * second)) 0
        (sampleMap.delete "T2") 0
        (3600 * second) 1).toES ∧
    (Collect sampleEnv (t0.Add (7200 * second)) 0
        sampleMap 0 (3600 * second)
        1).uncompleted =
      (Collect sampleEnv (t0.Add (7200 * second)) 0
        (sampleMap.delete "T2") 0
        (3600 * second) 1).uncompleted + 1 ∧
    (Collect sampleEnv (t0.Add (7200 * second)) 0
        sampleMap 0 (3600 * second)
        1).completed =
      (Collect sampleEnv (t0.Add (7200 * second)) 0
        (sampleMap.delete "T2") 0
        (3600 * second) 1).completed) :=
  ⟨by decide, by decide, by decide, by decide,
    Collect_drops_overcap sampleEnv (t0.Add (7200 * second)) 0
      sampleMap 0 (3600 * second) 1 "T2"
      (traceT2 false) (by decide) (by decide) (by decide) (by decide)⟩

/-- C4. A trace of the map for which `Timestamp + minTTL` is strictly after `now` and that is
within the span limit is kept in the returned map whatever its `Completed` flag; its
iteration does nothing but store it (the channel, both counters and the log stay as they
were), and `Collect` sends the same documents and counts the same numbers when the trace is
deleted from the input. -/
theorem Collect_minimum_window (env : Collaborators) (now : Time) (sinceNow : Duration)
    (traceMap : TraceMap) (minTTL maxTTL : Duration) (maxSpansPerTrace : Int)
    (traceID : String) (trace : Trace)
    (hin : traceMap.get traceID = some trace)
    (hfresh : now.unixNano < trace.Timestamp.unixNano + minTTL)
    (hspans : (trace.Spans.len : Int) ≤ maxSpansPerTrace) :
    (Collect env now sinceNow traceMap minTTL maxTTL
        maxSpansPerTrace).nextGenerationTraceMap.get traceID = some trace ∧
    (∀ st : CollectState,
      collectStep env now minTTL maxTTL maxSpansPerTrace st traceID trace =
        { st with nextGenerationTraceMap := st.nextGenerationTraceMap.set traceID trace }) ∧
    (Collect env now sinceNow traceMap minTTL maxTTL maxSpansPerTrace).toES =
      (Collect env now sinceNow (traceMap.delete traceID) minTTL maxTTL
        maxSpansPerTrace).toES ∧
    (Collect env now sinceNow traceMap minTTL maxTTL maxSpansPerTrace).completed =
      (Collect env now sinceNow (traceMap.delete traceID) minTTL maxTTL
        maxSpansPerTrace).completed ∧
    (Collect env now sinceNow traceMap minTTL maxTTL maxSpansPerTrace).uncompleted =
      (Collect env now sinceNow (traceMap.delete traceID) minTTL maxTTL
        maxSpansPerTrace).uncompleted := by
  have hf : tooFresh now minTTL maxSpansPerTrace trace = true :=
    (tooFresh_iff now minTTL maxSpansPerTrace trace).2 ⟨hfresh, hspans⟩
  have hret : isRetained now minTTL maxTTL maxSpansPerTrace trace = true := by
    simp [isRetained, hf]
  have hfl : isFlushed now minTTL maxSpansPerTrace trace = false := by
    simp [isFlushed, hf]
  have hdr : isDropped now minTTL maxTTL maxSpansPerTrace trace = false := by
    simp [isDropped, hf]
  have hsent : sentFor env now minTTL maxSpansPerTrace trace = [] := by
    simp [sentFor, hfl]
  obtain ⟨⟨pre, post, h1, h2⟩, h3, h4⟩ :=
    Collect_delete env now sinceNow minTTL maxTTL maxSpansPerTrace _ _ _ hin
  refine ⟨?_, ?_, ?_, ?_, ?_⟩
  · rw [Collect_next_get env now sinceNow minTTL maxTTL maxSpansPerTrace _ _ _ hin, hret]
    rfl
  · intro st
    have hnot : ¬ (trace.Spans.len : Int) > maxSpansPerTrace := by omega
    have hg : ((trace.Timestamp.Add minTTL).After now
        && decide ((trace.Spans.len : Int) ≤ maxSpansPerTrace)) = true := hf
    unfold collectStep
    simp only [hnot, if_false, hg, if_true]
  · rw [h1, h2, hsent, List.append_nil]
  · rw [h3, hfl]
    simp
  · rw [h4, hdr]
    simp

/-- C4, on `sampleMap` for its completed trace `T1`, one second after it was first seen, with
`minTTL` of one minute and a limit of ten spans. -/
theorem Collect_minimum_window_witness :
    sampleMap.get "T1" = some (traceT1 true) ∧
    (t0.Add second).unixNano < (traceT1 true).Timestamp.unixNano + 60 * second ∧
    (((traceT1 true).Spans.len : Int) ≤ 10) ∧
    ((Collect sampleEnv (t0.Add second) 0 sampleMap (60 * second) (3600 * second)
        10).nextGenerationTraceMap.get "T1" = some (traceT1 true) ∧
    (∀ st : CollectState,
      collectStep sampleEnv (t0.Add second) (60 * second) (3600 * second) 10 st "T1"
          (traceT1 true) =
        { st with nextGenerationTraceMap :=
            st.nextGenerationTraceMap.set "T1" (traceT1 true) }) ∧
    (Collect sampleEnv (t0.Add second) 0 sampleMap (60 * second) (3600 * second) 10).toES =
      (Collect sampleEnv (t0.Add second) 0 (sampleMap.delete "T1") (60 * second)
        (3600 * second) 10).toES ∧
    (Collect sampleEnv (t0.Add second) 0 sampleMap (60 * second) (3600 * second)
        10).completed =
      (Collect sampleEnv (t0.Add second) 0 (sampleMap.delete "T1") (60 * second)
        (3600 * second) 10).completed ∧
    (Collect sampleEnv (t0.Add second) 0 sampleMap (60 * second) (3600 * second)
        10).uncompleted =
      (Collect sampleEnv (t0.Add second) 0 (sampleMap.delete "T1") (60 * second)
        (3600 * second) 10).uncompleted) :=
  ⟨by decide, by decide, by decide,
    Collect_minimum_window sampleEnv (t0.Add second) 0 sampleMap (60 * second)
      (3600 * second) 10 "T1" (traceT1 true) (by decide) (by decide) (by decide)⟩

/-- C5. A trace of the map is dropped (absent from the returned map, nothing sent for it,
counted as uncompleted) exactly when it is not completed and either has more spans than the
limit, at any age, or `now` is at or past both `Timestamp + minTTL` and `Timestamp + maxTTL`;
and the amount `Collect` adds to the uncompleted counter is the number of such traces. -/
theorem Collect_drop_condition (env : Collaborators) (now : Time) (sinceNow : Duration)
    (traceMap : TraceMap) (minTTL maxTTL : Duration) (maxSpansPerTrace : Int)
    (traceID : String) (trace : Trace)
    (hin : traceMap.get traceID = some trace) :
    (((Collect env now sinceNow traceMap minTTL maxTTL
          maxSpansPerTrace).nextGenerationTraceMap.get traceID = none ∧
        (∀ st : CollectState,
          (collectStep env now minTTL maxTTL maxSpansPerTrace st traceID trace).toES =
            st.toES ∧
          (collectStep env now minTTL maxTTL maxSpansPerTrace st traceID trace).uncompleted =
            st.uncompleted + 1)) ↔
      (trace.Completed = false ∧
        (maxSpansPerTrace < (trace.Spans.len : Int) ∨
          (trace.Timestamp.unixNano + minTTL ≤ now.unixNano ∧
            trace.Timestamp.unixNano + maxTTL ≤ now.unixNano)))) ∧
    (Collect env now sinceNow traceMap minTTL maxTTL maxSpansPerTrace).uncompleted =
      (traceMap.range.countP (fun kv =>
        decide (kv.2.Completed = false ∧
          (maxSpansPerTrace < (kv.2.Spans.len : Int) ∨
            (kv.2.Timestamp.unixNano + minTTL ≤ now.unixNano ∧
              kv.2.Timestamp.unixNano + maxTTL ≤ now.unixNano)))) : Nat) := by
  constructor
  · rw [← isDropped_iff]
    constructor
    · rintro ⟨_, h⟩
      have h2 := (h collectInit).2
      rw [collectStep_uncompleted] at h2
      by_contra hd
      rw [if_neg hd] at h2
      omega
    · intro hd
      have hfl : isFlushed now minTTL maxSpansPerTrace trace = false := by
        simp only [isDropped, Bool.and_eq_true, Bool.not_eq_true'] at hd
        simp [isFlushed, hd.1.2]
      have hret : isRetained now minTTL maxTTL maxSpansPerTrace trace = false := by
        simp only [isDropped, Bool.and_eq_true, Bool.not_eq_true'] at hd
        simp [isRetained, hd.1.1, hd.2]
      refine ⟨?_, ?_⟩
      · rw [Collect_next_get env now sinceNow minTTL maxTTL maxSpansPerTrace _ _ _ hin, hret]
        rfl
      · intro st
        rw [collectStep_toES, collectStep_uncompleted, hd]
        simp [sentFor, hfl]
  · unfold Collect
    simp only [scan_uncompleted, collectInit, zero_add, Nat.cast_inj]
    apply List.countP_congr
    intro kv _
    rw [isDropped_iff, decide_eq_true_eq]

/-- C5, on `sampleMap` for its incomplete two-span trace `T2`, one second after it was first
seen, with a limit of one span. -/
theorem Collect_drop_condition_witness :
    sampleMap.get "T2" = some (traceT2 false) ∧
    ((((Collect sampleEnv (t0.Add second) 0 sampleMap 0 (3600 * second)
          1).nextGenerationTraceMap.get "T2" = none ∧
        (∀ st : CollectState,
          (collectStep sampleEnv (t0.Add second) 0 (3600 * second) 1 st "T2"
            (traceT2 false)).toES = st.toES ∧
          (collectStep sampleEnv (t0.Add second) 0 (3600 * second) 1 st "T2"
            (traceT2 false)).uncompleted = st.uncompleted + 1)) ↔
      ((traceT2 false).Completed = false ∧
        ((1 : Int) < ((traceT2 false).Spans.len : Int) ∨
          ((traceT2 false).Timestamp.unixNano + 0 ≤ (t0.Add second).unixNano ∧
            (traceT2 false).Timestamp.unixNano + 3600 * second ≤
              (t0.Add second).unixNano)))) ∧
    (Collect sampleEnv (t0.Add second) 0 sampleMap 0 (3600 * second) 1).uncompleted =
      (sampleMap.range.countP (fun kv =>
        decide (kv.2.Completed = false ∧
          ((1 : Int) < (kv.2.Spans.len : Int) ∨
            (kv.2.Timestamp.unixNano + 0 ≤ (t0.Add second).unixNano ∧
              kv.2.Timestamp.unixNano + 3600 * second ≤ (t0.Add second).unixNano)))) :
        Nat)) :=
  ⟨by decide, Collect_drop_condition sampleEnv (t0.Add second) 0 sampleMap 0 (3600 * second)
    1 "T2" (traceT2 false) (by decide)⟩

/-- C6 fails as stated: the incomplete trace `T2` has two spans, the limit is one span, and
`now` is one second after its timestamp with `maxTTL` of one hour, so `now` is before
`Timestamp + maxTTL`. The trace is not in the returned map: it is counted as uncompleted and
no document is sent. -/
theorem Collect_overflow_soft_counterexample :
    (GoMap.ofList [("T2", traceT2 false)]).get "T2" = some (traceT2 false) ∧
    (1 : Int) < ((traceT2 false).Spans.len : Int) ∧
    (traceT2 false).Completed = false ∧
    (t0.Add second).unixNano < (traceT2 false).Timestamp.unixNano + 3600 * second ∧
    (Collect sampleEnv (t0.Add second) 0 (GoMap.ofList [("T2", traceT2 false)]) 0
        (3600 * second) 1).nextGenerationTraceMap.get "T2" = none ∧
    (Collect sampleEnv (t0.Add second) 0 (GoMap.ofList [("T2", traceT2 false)]) 0
        (3600 * second) 1).toES = [] ∧
    (Collect sampleEnv (t0.Add second) 0 (GoMap.ofList [("T2", traceT2 false)]) 0
        (3600 * second) 1).uncompleted = 1 := by
  decide

/-- C6, amended. The span limit of `Collect` is a hard limit: a trace of the map with more
spans than the limit is never in the returned map, whatever its age. When it is not completed
it is discarded at once, with no document and counted as uncompleted, also while `now` is
before `Timestamp + maxTTL`; when it is completed its documents are sent and it is counted as
completed. Every iteration on such a trace logs the overflow warning. -/
theorem Collect_overflow_hard (env : Collaborators) (now : Time) (sinceNow : Duration)
    (traceMap : TraceMap) (minTTL maxTTL : Duration) (maxSpansPerTrace : Int)
    (traceID : String) (trace : Trace)
    (hin : traceMap.get traceID = some trace)
    (hover : maxSpansPerTrace < (trace.Spans.len : Int)) :
    (Collect env now sinceNow traceMap minTTL maxTTL
        maxSpansPerTrace).nextGenerationTraceMap.get traceID = none ∧
    (trace.Completed = false → ∀ st : CollectState,
      (collectStep env now minTTL maxTTL maxSpansPerTrace st traceID trace).toES = st.toES ∧
      (collectStep env now minTTL maxTTL maxSpansPerTrace st traceID trace).uncompleted =
        st.uncompleted + 1 ∧
      (collectStep env now minTTL maxTTL maxSpansPerTrace st traceID trace).completed =
        st.completed) ∧
    (trace.Completed = true → ∀ st : CollectState,
      (collectStep env now minTTL maxTTL maxSpansPerTrace st traceID trace).toES =
        st.toES ++ (GetESDocuments env trace).documents ∧
      (collectStep env now minTTL maxTTL maxSpansPerTrace st traceID trace).uncompleted =
        st.uncompleted ∧
      (collectStep env now minTTL maxTTL maxSpansPerTrace st traceID trace).completed =
        st.completed + 1) ∧
    (∀ st : CollectState,
      LogEntry.spansOverflow traceID maxSpansPerTrace ∈
        (collectStep env now minTTL maxTTL maxSpansPerTrace st traceID trace).log) := by
  have hf : tooFresh now minTTL maxSpansPerTrace trace = false := by
    rw [Bool.eq_false_iff, Ne, tooFresh_iff]
    intro h
    omega
  have hw : stillWaiting now maxTTL maxSpansPerTrace trace = false := by
    rw [Bool.eq_false_iff, Ne, stillWaiting_iff]
    intro h
    omega
  have hret : isRetained now minTTL maxTTL maxSpansPerTrace trace = false := by
    simp [isRetained, hf, hw]
  refine ⟨?_, ?_, ?_, ?_⟩
  · rw [Collect_next_get env now sinceNow minTTL maxTTL maxSpansPerTrace _ _ _ hin, hret]
    rfl
  · intro hc st
    rw [collectStep_toES, collectStep_uncompleted, collectStep_completed]
    simp [sentFor, isFlushed, isDropped, hf, hw, hc]
  · intro hc st
    rw [collectStep_toES, collectStep_uncompleted, collectStep_completed]
    simp [sentFor, isFlushed, isDropped, hf, hc]
  · intro st
    have hg1 : ((trace.Timestamp.Add minTTL).After now
        && decide ((trace.Spans.len : Int) ≤ maxSpansPerTrace)) = false := hf
    have hg2 : ((trace.Timestamp.Add maxTTL).After now
        && decide ((trace.Spans.len : Int) ≤ maxSpansPerTrace)) = false := hw
    have hgt : (trace.Spans.len : Int) > maxSpansPerTrace := hover
    unfold collectStep
    simp only [hgt, if_true, hg1, hg2, Bool.false_eq_true, if_false]
    cases trace.Completed <;> simp

/-- C6 amended, on `sampleMap` for its incomplete two-span trace `T2`, one second after it was
first seen, with `maxTTL` of one hour and a limit of one span. -/
theorem Collect_overflow_hard_witness :
    sampleMap.get "T2" = some (traceT2 false) ∧
    (1 : Int) < ((traceT2 false).Spans.len : Int) ∧
    ((Collect sampleEnv (t0.Add second) 0 sampleMap 0 (3600 * second)
        1).nextGenerationTraceMap.get "T2" = none ∧
    ((traceT2 false).Completed = false → ∀ st : CollectState,
      (collectStep sampleEnv (t0.Add second) 0 (3600 * second) 1 st "T2"
        (traceT2 false)).toES = st.toES ∧
      (collectStep sampleEnv (t0.Add second) 0 (3600 * second) 1 st "T2"
        (traceT2 false)).uncompleted = st.uncompleted + 1 ∧
      (collectStep sampleEnv (t0.Add second) 0 (3600 * second) 1 st "T2"
        (traceT2 false)).completed = st.completed) ∧
    ((traceT2 false).Completed = true → ∀ st : CollectState,
      (collectStep sampleEnv (t0.Add second) 0 (3600 * second) 1 st "T2"
        (traceT2 false)).toES = st.toES ++ (GetESDocuments sampleEnv (traceT2 false)).documents ∧
      (collectStep sampleEnv (t0.Add second) 0 (3600 * second) 1 st "T2"
        (traceT2 false)).uncompleted = st.uncompleted ∧
      (collectStep sampleEnv (t0.Add second) 0 (3600 * second) 1 st "T2"
        (traceT2 false)).completed = st.completed + 1) ∧
    (∀ st : CollectState,
      LogEntry.spansOverflow "T2" 1 ∈
        (collectStep sampleEnv (t0.Add second) 0 (3600 * second) 1 st "T2"
          (traceT2 false)).log)) :=
  ⟨by decide, by decide,
    Collect_overflow_hard sampleEnv (t0.Add second) 0 sampleMap 0 (3600 * second) 1 "T2"
      (traceT2 false) (by decide) (by decide)⟩

/-! ## Documents: the claims about `GetESDocuments` -/

/-- C7. `GetESDocuments` leaves the trace with a non-empty `Roots`: when `Roots` was empty it
now holds the legacy `Root` under `Root.ID` and nothing else, otherwise the trace is unchanged.
The number of documents returned is the number of these roots minus the number of roots for
which `GetChains` returns an error; the documents are exactly the documents of the other
roots, one each and in the order of the roots, and one line is logged per failing root. -/
theorem GetESDocuments_count (env : Collaborators) (trace : Trace) :
    (trace.Roots.len = 0 →
      (GetESDocuments env trace).trace.Roots.range = [(trace.Root.ID, trace.Root)]) ∧
    (trace.Roots.len ≠ 0 → (GetESDocuments env trace).trace = trace) ∧
    0 < (GetESDocuments env trace).trace.Roots.len ∧
    (GetESDocuments env trace).trace.Roots.range.countP
        (fun kv => chainsFail env (GetESDocuments env trace).trace kv.1) ≤
      (GetESDocuments env trace).trace.Roots.len ∧
    (GetESDocuments env trace).documents.length =
      (GetESDocuments env trace).trace.Roots.len -
        (GetESDocuments env trace).trace.Roots.range.countP
          (fun kv => chainsFail env (GetESDocuments env trace).trace kv.1) ∧
    (GetESDocuments env trace).documents =
      (GetESDocuments env trace).trace.Roots.range.filterMap
        (fun kv => rootDocument env (GetESDocuments env trace).trace kv.1 kv.2) ∧
    (∀ kv ∈ (GetESDocuments env trace).trace.Roots.range,
      (rootDocument env (GetESDocuments env trace).trace kv.1 kv.2).isSome =
        !chainsFail env (GetESDocuments env trace).trace kv.1) ∧
    (GetESDocuments env trace).log.length =
      (GetESDocuments env trace).trace.Roots.range.countP
        (fun kv => chainsFail env (GetESDocuments env trace).trace kv.1) := by
  have htr : (GetESDocuments env trace).trace = promoteRoot trace := rfl
  rw [htr]
  have hle : (promoteRoot trace).Roots.range.countP
      (fun kv => chainsFail env (promoteRoot trace) kv.1) ≤ (promoteRoot trace).Roots.len := by
    rw [GoMap.len_eq_range]
    exact List.countP_le_length _
  have hsplit : (promoteRoot trace).Roots.range.countP
        (fun kv => !chainsFail env (promoteRoot trace) kv.1) +
      (promoteRoot trace).Roots.range.countP
        (fun kv => chainsFail env (promoteRoot trace) kv.1) =
      (promoteRoot trace).Roots.len := by
    rw [GoMap.len_eq_range,
      List.length_eq_countP_add_countP (fun kv => chainsFail env (promoteRoot trace) kv.1)
        (promoteRoot trace).Roots.range, Nat.add_comm]
    congr 1
    apply List.countP_congr
    intro kv _
    simp
  refine ⟨promoteRoot_of_empty trace, promoteRoot_of_nonempty trace,
    promoteRoot_len_pos trace, hle, ?_, GetESDocuments_documents env trace, ?_, ?_⟩
  · rw [GetESDocuments_length]
    omega
  · intro kv _
    exact rootDocument_isSome env _ _ _
  · unfold GetESDocuments
    simp only [roots_fold_log_length, List.length_nil, zero_add]

/-- C7 on two traces: one with an empty `Roots`, whose legacy root is promoted and yields one
document, and one with two roots of which one fails, which yields one document. -/
theorem GetESDocuments_count_examples :
    traceLegacy.Roots.len = 0 ∧
    (GetESDocuments sampleEnv traceLegacy).trace.Roots.range = [("s1", spanS1)] ∧
    (GetESDocuments sampleEnv traceLegacy).documents.length = 1 ∧
    traceTwoRoots.Roots.len = 2 ∧
    chainsFail sampleEnv traceTwoRoots "ghost" = true ∧
    chainsFail sampleEnv traceTwoRoots "s1" = false ∧
    (GetESDocuments sampleEnv traceTwoRoots).documents.length = 1 ∧
    (GetESDocuments sampleEnv traceTwoRoots).log =
      [LogEntry.chainsError "T4" "unknown root span"] := by
  decide

/-- C8. Every document returned by `GetESDocuments` stores under `timestamp` the value that
`get` chose from the timeline of one of the roots (keys `cs`, then `sr`), and its `Index` is
`traces-` followed by the year padded to four digits, a dot, the month padded to two digits,
a dot, and the day padded to two digits, of that same value. -/
theorem GetESDocuments_index (env : Collaborators) (trace : Trace) (doc : Document)
    (hdoc : doc ∈ (GetESDocuments env trace).documents) :
    ∃ ts : Time,
      doc.Fields.get "timestamp" = some (.time ts) ∧
      doc.Index = "traces-" ++ ts.FormatDate ∧
      doc.Index = "traces-" ++ (Time.appendInt ts.Year 4 ++ "." ++ Time.appendInt ts.Month 2
        ++ "." ++ Time.appendInt ts.Day 2) ∧
      ∃ rootSpanID root, (GetESDocuments env trace).trace.Roots.get rootSpanID = some root ∧
        ts = env.get root.Timeline trace.Timestamp ["cs", "sr"] := by
  obtain ⟨k, root, spans, chains, hget, _, rfl⟩ := (mem_documents_iff env trace doc).1 hdoc
  refine ⟨env.get root.Timeline trace.Timestamp ["cs", "sr"], ?_, ?_, ?_, k, root, hget, rfl⟩
  · rw [withChains_get_timestamp, rootHeader_timestamp, promoteRoot_Timestamp]
  · rw [withChains_Index, rootHeader_Index, promoteRoot_Timestamp]
  · rw [withChains_Index, rootHeader_Index, promoteRoot_Timestamp]
    rfl

/-- C8 on the document of trace `T1`, whose root has client send at 2016-02-29T00:00:00Z: the
index is `traces-2016.02.29`. -/
theorem GetESDocuments_index_witness :
    docT1 ∈ (GetESDocuments sampleEnv (traceT1 true)).documents ∧
    docT1.Index = "traces-2016.02.29" ∧
    (∃ ts : Time,
      docT1.Fields.get "timestamp" = some (.time ts) ∧
      docT1.Index = "traces-" ++ ts.FormatDate ∧
      docT1.Index = "traces-" ++ (Time.appendInt ts.Year 4 ++ "." ++ Time.appendInt ts.Month 2
        ++ "." ++ Time.appendInt ts.Day 2) ∧
      ∃ rootSpanID root,
        (GetESDocuments sampleEnv (traceT1 true)).trace.Roots.get rootSpanID = some root ∧
        ts = sampleEnv.get root.Timeline (traceT1 true).Timestamp ["cs", "sr"]) :=
  ⟨by decide, by decide,
    GetESDocuments_index sampleEnv (traceT1 true) docT1 (by decide)⟩

/-- C9 fails as stated: the span of `traceShadow` has ID `s1` and the annotation
`spanid = x`. Its record in the `spans` field of the document holds `x` under `spanid`, the
annotation's value, and not the span ID. -/
theorem spanRecord_roundtrip_counterexample :
    sampleEnv.GetChains (promoteRoot traceShadow) "s1" = .ok ([spanShadow], ["s1"]) ∧
    spanShadow.Annotations.get "spanid" = some (.str "x") ∧
    spanShadow.ID = "s1" ∧
    (GetESDocuments sampleEnv traceShadow).documents.map (fun d => d.Fields.get "spans") =
      [some (.records [spanRecord sampleEnv spanShadow])] ∧
    (spanRecord sampleEnv spanShadow).get "spanid" = some (.str "x") ∧
    (spanRecord sampleEnv spanShadow).get "spanid" ≠ some (.str spanShadow.ID) := by
  decide

/-- C9, amended. When `GetChains` succeeds for a root, the document of that root stores under
`spans` the records of the returned spans, and for every annotation `(key, value)` of such a
span the record holds `value` under `key` unchanged, except when `key` is `cd`, `sd` or `td`,
or is `timeline` while the span has timeline entries: under these keys the record holds the
computed field (the three durations, the formatted timeline). -/
theorem spanRecord_roundtrip (env : Collaborators) (trace : Trace) (rootSpanID : String)
    (root : Span) (spans : List Span) (chains : Chains) (span : Span) (key : String)
    (value : Iface)
    (hroot : (promoteRoot trace).Roots.get rootSpanID = some root)
    (hchains : env.GetChains (promoteRoot trace) rootSpanID = .ok (spans, chains))
    (hspan : span ∈ spans)
    (hann : span.Annotations.get key = some value) :
    (∃ doc ∈ (GetESDocuments env trace).documents,
      doc.Fields.get "spans" = some (.records (spans.map (spanRecord env))) ∧
      spanRecord env span ∈ spans.map (spanRecord env)) ∧
    (key ≠ "cd" → key ≠ "sd" → key ≠ "td" → (key = "timeline" → span.Timeline.len = 0) →
      (spanRecord env span).get key = some value) ∧
    (spanRecord env span).get "cd" = some (.num (env.Durations span).1) ∧
    (spanRecord env span).get "sd" = some (.num (env.Durations span).2.1) ∧
    (spanRecord env span).get "td" = some (.num (env.Durations span).2.2) ∧
    (0 < span.Timeline.len →
      (spanRecord env span).get "timeline" =
        some (.strMap (formatTimeline span.Timeline))) := by
  refine ⟨⟨withChains env (rootHeader env (promoteRoot trace) root) spans chains, ?_, ?_, ?_⟩,
    ?_, spanRecord_get_cd env span, spanRecord_get_sd env span, spanRecord_get_td env span,
    spanRecord_get_timeline env span⟩
  · exact (mem_documents_iff env trace _).2 ⟨rootSpanID, root, spans, chains, hroot, hchains,
      rfl⟩
  · exact withChains_get_spans env _ _ _
  · exact List.mem_map.2 ⟨span, hspan, rfl⟩
  · intro hcd hsd htd htl
    exact spanRecord_get_annotation env span key value hann hcd hsd htd htl

/-- C9 amended, on the span `s1` of trace `T1` and its annotation `host = a`. -/
theorem spanRecord_roundtrip_witness :
    (promoteRoot (traceT1 true)).Roots.get "s1" = some spanS1 ∧
    sampleEnv.GetChains (promoteRoot (traceT1 true)) "s1" = .ok ([spanS1], ["s1"]) ∧
    spanS1 ∈ [spanS1] ∧
    spanS1.Annotations.get "host" = some (.str "a") ∧
    ((∃ doc ∈ (GetESDocuments sampleEnv (traceT1 true)).documents,
      doc.Fields.get "spans" = some (.records ([spanS1].map (spanRecord sampleEnv))) ∧
      spanRecord sampleEnv spanS1 ∈ [spanS1].map (spanRecord sampleEnv)) ∧
    ("host" ≠ "cd" → "host" ≠ "sd" → "host" ≠ "td" →
      ("host" = "timeline" → spanS1.Timeline.len = 0) →
      (spanRecord sampleEnv spanS1).get "host" = some (.str "a")) ∧
    (spanRecord sampleEnv spanS1).get "cd" = some (.num (sampleEnv.Durations spanS1).1) ∧
    (spanRecord sampleEnv spanS1).get "sd" = some (.num (sampleEnv.Durations spanS1).2.1) ∧
    (spanRecord sampleEnv spanS1).get "td" = some (.num (sampleEnv.Durations spanS1).2.2) ∧
    (0 < spanS1.Timeline.len →
      (spanRecord sampleEnv spanS1).get "timeline" =
        some (.strMap (formatTimeline spanS1.Timeline)))) :=
  ⟨by decide, by decide, by decide, by decide,
    spanRecord_roundtrip sampleEnv (traceT1 true) "s1" spanS1 [spanS1] ["s1"] spanS1 "host"
      (.str "a") (by decide) (by decide) (by decide) (by decide)⟩

/-- C10 fails as stated: the span `spanShadow` has the annotation `cd = y` and `Durations`
gives 1 for the client duration. Its record holds the computed 1 under `cd`, not the
annotation's value. -/
theorem spanRecord_collision_counterexample :
    spanShadow.Annotations.get "cd" = some (.str "y") ∧
    (sampleEnv.Durations spanShadow).1 = 1 ∧
    (spanRecord sampleEnv spanShadow).get "cd" = some (.num 1) ∧
    (spanRecord sampleEnv spanShadow).get "cd" ≠ some (.str "y") := by
  decide

/-- C10, amended. For every span and every annotation whose key is `spanid`, `parentspanid`
or `prefix`, or is `timeline` while the span has no timeline entry, the annotation overwrites
the reserved field: the record holds the annotation's value under that key. For `cd`, `sd`,
`td`, and for `timeline` when the span has timeline entries, the record holds the computed
value whatever the annotation says. The record is built for every span: `spanRecord` is a
total function. -/
theorem spanRecord_collision (env : Collaborators) (span : Span) (key : String)
    (value : Iface)
    (hann : span.Annotations.get key = some value) :
    ((key = "spanid" ∨ key = "parentspanid" ∨ key = "prefix" ∨
        (key = "timeline" ∧ span.Timeline.len = 0)) →
      (spanRecord env span).get key = some value) ∧
    (key = "cd" → (spanRecord env span).get key = some (.num (env.Durations span).1)) ∧
    (key = "sd" → (spanRecord env span).get key = some (.num (env.Durations span).2.1)) ∧
    (key = "td" → (spanRecord env span).get key = some (.num (env.Durations span).2.2)) ∧
    (key = "timeline" → 0 < span.Timeline.len →
      (spanRecord env span).get key = some (.strMap (formatTimeline span.Timeline))) := by
  refine ⟨?_, ?_, ?_, ?_, ?_⟩
  · intro h
    apply spanRecord_get_annotation env span key value hann
    · rcases h with h | h | h | h <;> (try rw [h.1]) <;> (try rw [h]) <;> decide
    · rcases h with h | h | h | h <;> (try rw [h.1]) <;> (try rw [h]) <;> decide
    · rcases h with h | h | h | h <;> (try rw [h.1]) <;> (try rw [h]) <;> decide
    · intro htl
      rcases h with h | h | h | h
      · rw [h] at htl; exact absurd htl (by decide)
      · rw [h] at htl; exact absurd htl (by decide)
      · rw [h] at htl; exact absurd htl (by decide)
      · exact h.2
  · rintro rfl
    exact spanRecord_get_cd env span
  · rintro rfl
    exact spanRecord_get_sd env span
  · rintro rfl
    exact spanRecord_get_td env span
  · rintro rfl h
    exact spanRecord_get_timeline env span h

/-- C10 amended, on the span `spanShadow` and its annotation `spanid = x`. -/
theorem spanRecord_collision_witness :
    spanShadow.Annotations.get "spanid" = some (.str "x") ∧
    (("spanid" = "spanid" ∨ "spanid" = "parentspanid" ∨ "spanid" = "prefix" ∨
        ("spanid" = "timeline" ∧ spanShadow.Timeline.len = 0)) →
      (spanRecord sampleEnv spanShadow).get "spanid" = some (.str "x")) ∧
    ("spanid" = "cd" →
      (spanRecord sampleEnv spanShadow).get "spanid" =
        some (.num (sampleEnv.Durations spanShadow).1)) ∧
    ("spanid" = "sd" →
      (spanRecord sampleEnv spanShadow).get "spanid" =
        some (.num (sampleEnv.Durations spanShadow).2.1)) ∧
    ("spanid" = "td" →
      (spanRecord sampleEnv spanShadow).get "spanid" =
        some (.num (sampleEnv.Durations spanShadow).2.2)) ∧
    ("spanid" = "timeline" → 0 < spanShadow.Timeline.len →
      (spanRecord sampleEnv spanShadow).get "spanid" =
        some (.strMap (formatTimeline spanShadow.Timeline))) :=
  ⟨by decide,
    spanRecord_collision sampleEnv spanShadow "spanid" (.str "x") (by decide)⟩

/-! ## The top-level fields of a document -/

section fields

variable (env : Collaborators)

theorem promoteRoot_ID (trace : Trace) : (promoteRoot trace).ID = trace.ID := by
  unfold promoteRoot
  split <;> rfl

theorem promoteRoot_ProfileID (trace : Trace) :
    (promoteRoot trace).ProfileID = trace.ProfileID := by
  unfold promoteRoot
  split <;> rfl

theorem rootHeader_id (trace : Trace) (root : Span) :
    (rootHeader env trace root).Fields.get "id" = some (.str trace.ID) := by
  unfold rootHeader
  simp only
  split
  · rw [GoMap.get_set_ne _ _ (by decide), GoMap.get_set_ne _ _ (by decide),
      GoMap.get_set_ne _ _ (by decide), GoMap.get_set_self]
  · rw [GoMap.get_set_ne _ _ (by decide), GoMap.get_set_ne _ _ (by decide),
      GoMap.get_set_self]

theorem rootHeader_system (trace : Trace) (root : Span) :
    (rootHeader env trace root).Fields.get "system" = some (.str root.System) := by
  unfold rootHeader
  simp only
  split
  · rw [GoMap.get_set_ne _ _ (by decide), GoMap.get_set_ne _ _ (by decide),
      GoMap.get_set_self]
  · rw [GoMap.get_set_ne _ _ (by decide), GoMap.get_set_self]

theorem rootHeader_duration (trace : Trace) (root : Span) :
    (rootHeader env trace root).Fields.get "duration" = some (.num (env.Duration root)) := by
  unfold rootHeader
  simp only
  split
  · rw [GoMap.get_set_ne _ _ (by decide), GoMap.get_set_self]
  · rw [GoMap.get_set_self]

theorem rootHeader_profileid (trace : Trace) (root : Span) :
    (rootHeader env trace root).Fields.get "profileid" =
      if strLen trace.ProfileID > 0 then some (.str trace.ProfileID) else none := by
  unfold rootHeader
  simp only
  split
  · rw [GoMap.get_set_self]
  · rw [GoMap.get_set_ne _ _ (by decide), GoMap.get_set_ne _ _ (by decide),
      GoMap.get_set_ne _ _ (by decide), GoMap.get_set_ne _ _ (by decide), GoMap.get_empty]

theorem withChains_get_chains (doc : Document) (spans : List Span) (chains : Chains) :
    (withChains env doc spans chains).Fields.get "chains" = some (.chains chains) := by
  unfold withChains
  simp only
  rw [GoMap.get_set_ne _ _ (by decide), GoMap.get_set_self]

theorem withChains_get_of_ne (doc : Document) (spans : List Span) (chains : Chains)
    (key : String) (h1 : key ≠ "chains") (h2 : key ≠ "spans") :
    (withChains env doc spans chains).Fields.get key = doc.Fields.get key := by
  unfold withChains
  simp only
  rw [GoMap.get_set_ne _ _ h2, GoMap.get_set_ne _ _ h1]

theorem strLen_pos_iff (s : String) : 0 < strLen s ↔ s ≠ "" := by
  unfold strLen
  constructor
  · intro h hs
    subst hs
    simp [String.utf8ByteSize, String.utf8ByteSize.go] at h
  · intro h
    obtain ⟨cs⟩ := s
    cases cs with
    | nil => exact absurd rfl h
    | cons c cs =>
      simp only [String.utf8ByteSize, String.utf8ByteSize.go]
      have := Char.utf8Size_pos c
      omega

end fields

/-! ## Documents: the fields -/

/-- C11. For every root of the trace whose `GetChains` call succeeds, `GetESDocuments` returns
a document whose fields hold: under `timestamp` the value `get` chose from the root's timeline
(`cs`, then `sr`), under `id` the trace ID, under `system` the root's `System`, under
`duration` the root's `Duration()`, under `chains` the chain summary that `GetChains`
returned, and under `spans` one record per span that `GetChains` returned, in the same order.
The key `profileid` is present exactly when `ProfileID` is not empty, and then holds
`ProfileID`. -/
theorem GetESDocuments_fields (env : Collaborators) (trace : Trace) (rootSpanID : String)
    (root : Span) (spans : List Span) (chains : Chains)
    (hroot : (GetESDocuments env trace).trace.Roots.get rootSpanID = some root)
    (hchains : env.GetChains (GetESDocuments env trace).trace rootSpanID =
      .ok (spans, chains)) :
    ∃ doc ∈ (GetESDocuments env trace).documents,
      doc.Fields.get "timestamp" =
        some (.time (env.get root.Timeline trace.Timestamp ["cs", "sr"])) ∧
      doc.Fields.get "id" = some (.str trace.ID) ∧
      doc.Fields.get "system" = some (.str root.System) ∧
      doc.Fields.get "duration" = some (.num (env.Duration root)) ∧
      doc.Fields.get "chains" = some (.chains chains) ∧
      (∃ docSpans : List (GoMap Iface),
        doc.Fields.get "spans" = some (.records docSpans) ∧
        docSpans.length = spans.length ∧
        ∀ i : Nat, docSpans[i]? = (spans[i]?).map (spanRecord env)) ∧
      doc.Fields.get "profileid" =
        (if trace.ProfileID = "" then none else some (.str trace.ProfileID)) := by
  refine ⟨withChains env (rootHeader env (promoteRoot trace) root) spans chains,
    (mem_documents_iff env trace _).2 ⟨rootSpanID, root, spans, chains, hroot, hchains, rfl⟩,
    ?_, ?_, ?_, ?_, withChains_get_chains env _ _ _, ?_, ?_⟩
  · rw [withChains_get_timestamp, rootHeader_timestamp, promoteRoot_Timestamp]
  · rw [withChains_get_of_ne env _ _ _ _ (by decide) (by decide), rootHeader_id,
      promoteRoot_ID]
  · rw [withChains_get_of_ne env _ _ _ _ (by decide) (by decide), rootHeader_system]
  · rw [withChains_get_of_ne env _ _ _ _ (by decide) (by decide), rootHeader_duration]
  · refine ⟨spans.map (spanRecord env), withChains_get_spans env _ _ _, ?_, ?_⟩
    · simp
    · intro i
      simp
  · rw [withChains_get_of_ne env _ _ _ _ (by decide) (by decide), rootHeader_profileid,
      promoteRoot_ProfileID]
    by_cases h : trace.ProfileID = ""
    · rw [if_pos h, if_neg]
      rw [h]
      decide
    · rw [if_neg h, if_pos ((strLen_pos_iff _).2 h)]

/-- C11 on the scenario of the spec: trace `T1`, completed, a single root `s1` with timeline
`cs = t0` and the annotation `host = a`, `minTTL` zero and `maxTTL` one hour. `Collect` sends
one document, `docT1`, which holds `t0` under `timestamp`, `T1` under `id`, and one span
record with `host = a`. -/
theorem GetESDocuments_fields_witness :
    (GetESDocuments sampleEnv (traceT1 true)).trace.Roots.get "s1" = some spanS1 ∧
    sampleEnv.GetChains (GetESDocuments sampleEnv (traceT1 true)).trace "s1" =
      .ok ([spanS1], ["s1"]) ∧
    (Collect sampleEnv (t0.Add second) 0 (GoMap.ofList [("T1", traceT1 true)]) 0
      (3600 * second) 10).toES = [docT1] ∧
    (GetESDocuments sampleEnv (traceT1 true)).documents = [docT1] ∧
    docT1.Fields.get "timestamp" = some (.time t0) ∧
    docT1.Fields.get "id" = some (.str "T1") ∧
    docT1.Fields.get "spans" = some (.records [spanRecord sampleEnv spanS1]) ∧
    (spanRecord sampleEnv spanS1).get "host" = some (.str "a") ∧
    (∃ doc ∈ (GetESDocuments sampleEnv (traceT1 true)).documents,
      doc.Fields.get "timestamp" =
        some (.time (sampleEnv.get spanS1.Timeline (traceT1 true).Timestamp ["cs", "sr"])) ∧
      doc.Fields.get "id" = some (.str (traceT1 true).ID) ∧
      doc.Fields.get "system" = some (.str spanS1.System) ∧
      doc.Fields.get "duration" = some (.num (sampleEnv.Duration spanS1)) ∧
      doc.Fields.get "chains" = some (.chains ["s1"]) ∧
      (∃ docSpans : List (GoMap Iface),
        doc.Fields.get "spans" = some (.records docSpans) ∧
        docSpans.length = [spanS1].length ∧
        ∀ i : Nat, docSpans[i]? = (([spanS1])[i]?).map (spanRecord sampleEnv)) ∧
      doc.Fields.get "profileid" =
        (if (traceT1 true).ProfileID = "" then none
          else some (.str (traceT1 true).ProfileID))) :=
  ⟨by decide, by decide, by decide, by decide, by decide, by decide, by decide, by decide,
    GetESDocuments_fields sampleEnv (traceT1 true) "s1" spanS1 [spanS1] ["s1"] (by decide)
      (by decide)⟩

/-! ## The optional fields of a span record -/

section optional

variable (env : Collaborators)

theorem GoMap.not_mem_range_of_get_none {α : Type} (m : GoMap α) (k : String)
    (h : m.get k = none) : k ∉ m.range.map Prod.fst := by
  rw [GoMap.range_keys]
  exact fun hk => (AList.lookup_eq_none.1 h) (AList.mem_keys.2 hk)

theorem GoMap.get_none_of_not_mem_range {α : Type} (m : GoMap α) (k : String)
    (h : k ∉ m.range.map Prod.fst) : m.get k = none := by
  rw [GoMap.range_keys] at h
  exact AList.lookup_eq_none.2 (fun hk => h (AList.mem_keys.1 hk))

theorem formatTimeline_get (tl : Timeline) (code : String) :
    (formatTimeline tl).get code =
      (tl.get code).map (fun ts => ts.Value.FormatRFC3339Nano) := by
  have hfold : formatTimeline tl =
      (tl.range.map (fun kt => (kt.1, kt.2.Value.FormatRFC3339Nano))).foldl
        (fun m kv => m.set kv.1 kv.2) GoMap.empty := by
    unfold formatTimeline
    rw [List.foldl_map]
  have hkeys : (tl.range.map (fun kt => (kt.1, kt.2.Value.FormatRFC3339Nano))).map Prod.fst =
      tl.range.map Prod.fst := by
    rw [List.map_map]
    rfl
  rw [hfold]
  cases hget : tl.get code with
  | none =>
    rw [fold_set_get_of_not_mem _ _ _ (by
      rw [hkeys]
      exact GoMap.not_mem_range_of_get_none _ _ hget)]
    exact GoMap.get_empty _
  | some ts =>
    rw [fold_set_get_of_mem _ _ code ts.Value.FormatRFC3339Nano (by
        rw [hkeys]
        exact GoMap.range_nodup _)
      (List.mem_map.2 ⟨(code, ts), (GoMap.mem_range_iff _ _ _).2 hget, rfl⟩)]
    rfl

theorem spanRecord_get_unannotated (span : Span) (key : String)
    (hann : span.Annotations.get key = none)
    (hcd : key ≠ "cd") (hsd : key ≠ "sd") (htd : key ≠ "td")
    (htl : key = "timeline" → span.Timeline.len = 0) :
    (spanRecord env span).get key =
      ((if strLen span.ParentSpanID > 0 then
            ((GoMap.empty : GoMap Iface).set "spanid" (.str span.ID)).set "parentspanid"
              (.str span.ParentSpanID)
          else (GoMap.empty : GoMap Iface).set "spanid" (.str span.ID)).set "prefix"
          (.str span.Prefix)).get key := by
  rw [spanRecord_get_of_not_computed env span key hcd hsd htd htl]
  exact fold_set_get_of_not_mem _ _ _ (GoMap.not_mem_range_of_get_none _ _ hann)

end optional

/-- C12 fails as stated: the span `spanNoted` has no timeline entry and an empty
`ParentSpanID`, and its annotations are named `timeline` and `parentspanid`. Its record has
both keys: they hold the values of the annotations. -/
theorem spanRecord_optional_counterexample :
    spanNoted.Timeline.len = 0 ∧
    spanNoted.ParentSpanID = "" ∧
    (spanRecord sampleEnv spanNoted).get "timeline" = some (.str "x") ∧
    (spanRecord sampleEnv spanNoted).get "parentspanid" = some (.str "y") := by
  decide

/-- C12, amended. For every span: when the span has at least one timeline entry, the record
has a `timeline` key, whose value maps every event code of the span's `Timeline`, and no
other, to the RFC3339Nano rendering of that entry's time, whatever the annotations. When the
span has no annotation named `timeline`, the record has a `timeline` key exactly when the
span has at least one timeline entry, so that such a span with no timeline entry gives a
record with no `timeline` key. When the span has no annotation named `parentspanid`, the
record has a `parentspanid` key exactly when `ParentSpanID` is not empty, holding
`ParentSpanID`. -/
theorem spanRecord_optional (env : Collaborators) (span : Span) :
    (0 < span.Timeline.len →
      ((spanRecord env span).get "timeline").isSome = true ∧
      ∃ timeline : GoMap String,
        (spanRecord env span).get "timeline" = some (.strMap timeline) ∧
        ∀ code : String,
          timeline.get code =
            (span.Timeline.get code).map (fun ts => ts.Value.FormatRFC3339Nano)) ∧
    (span.Annotations.get "timeline" = none →
      (((spanRecord env span).get "timeline").isSome = true ↔ 0 < span.Timeline.len) ∧
      (span.Timeline.len = 0 → (spanRecord env span).get "timeline" = none)) ∧
    (span.Annotations.get "parentspanid" = none →
      (spanRecord env span).get "parentspanid" =
        (if span.ParentSpanID = "" then none else some (.str span.ParentSpanID))) := by
  refine ⟨?_, ?_, ?_⟩
  · intro h
    refine ⟨?_, formatTimeline span.Timeline, spanRecord_get_timeline env span h,
      formatTimeline_get span.Timeline⟩
    rw [spanRecord_get_timeline env span h]
    rfl
  · intro hnotl
    have hzero : span.Timeline.len = 0 → (spanRecord env span).get "timeline" = none := by
      intro h0
      rw [spanRecord_get_unannotated env span "timeline" hnotl (by decide) (by decide)
        (by decide) (fun _ => h0)]
      split
      · rw [GoMap.get_set_ne _ _ (by decide), GoMap.get_set_ne _ _ (by decide),
          GoMap.get_set_ne _ _ (by decide), GoMap.get_empty]
      · rw [GoMap.get_set_ne _ _ (by decide), GoMap.get_set_ne _ _ (by decide),
          GoMap.get_empty]
    refine ⟨?_, hzero⟩
    constructor
    · intro h
      by_contra hlen
      have h0 : span.Timeline.len = 0 := by omega
      rw [hzero h0] at h
      simp at h
    · intro h
      rw [spanRecord_get_timeline env span h]
      rfl
  · intro hnoparent
    rw [spanRecord_get_unannotated env span "parentspanid" hnoparent (by decide)
      (by decide) (by decide) (fun h => absurd h (by decide))]
    by_cases h : span.ParentSpanID = ""
    · have hlen : ¬ strLen span.ParentSpanID > 0 := by
        rw [h]
        decide
      rw [if_neg hlen, if_pos h, GoMap.get_set_ne _ _ (by decide),
        GoMap.get_set_ne _ _ (by decide), GoMap.get_empty]
    · have hlen : strLen span.ParentSpanID > 0 := (strLen_pos_iff _).2 h
      rw [if_pos hlen, if_neg h, GoMap.get_set_ne _ _ (by decide), GoMap.get_set_self]

/-- C12 amended, on the span `s1`, which has the timeline entry `cs` at 2016-02-29T00:00:00Z,
no parent, and the single annotation `host`; and on the span `spanNoted`, whose annotation
`timeline` does not keep the record of a span with a timeline entry from holding the
formatted timeline. -/
theorem spanRecord_optional_witness :
    0 < spanS1.Timeline.len ∧
    spanS1.Annotations.get "timeline" = none ∧
    spanS1.Annotations.get "parentspanid" = none ∧
    (spanRecord sampleEnv spanS1).get "timeline" =
      some (.strMap (GoMap.ofList [("cs", "2016-02-29T00:00:00Z")])) ∧
    (spanRecord sampleEnv spanS1).get "parentspanid" = none ∧
    (spanRecord sampleEnv { spanNoted with Timeline := spanS1.Timeline }).get "timeline" =
      some (.strMap (GoMap.ofList [("cs", "2016-02-29T00:00:00Z")])) ∧
    ((0 < spanS1.Timeline.len →
      ((spanRecord sampleEnv spanS1).get "timeline").isSome = true ∧
      ∃ timeline : GoMap String,
        (spanRecord sampleEnv spanS1).get "timeline" = some (.strMap timeline) ∧
        ∀ code : String,
          timeline.get code =
            (spanS1.Timeline.get code).map (fun ts => ts.Value.FormatRFC3339Nano)) ∧
    (spanS1.Annotations.get "timeline" = none →
      (((spanRecord sampleEnv spanS1).get "timeline").isSome = true ↔
        0 < spanS1.Timeline.len) ∧
      (spanS1.Timeline.len = 0 → (spanRecord sampleEnv spanS1).get "timeline" = none)) ∧
    (spanS1.Annotations.get "parentspanid" = none →
      (spanRecord sampleEnv spanS1).get "parentspanid" =
        (if spanS1.ParentSpanID = "" then none else some (.str spanS1.ParentSpanID)))) :=
  ⟨by decide, by decide, by decide, by decide, by decide, by decide,
    spanRecord_optional sampleEnv spanS1⟩

/-! ## The loop of `elasticSender` -/

section sink

theorem sink_accumulate (b : Int) (ds : List Document) (bulk0 : List Document)
    (D : List (List Document)) (h : ((bulk0.length + ds.length : Nat) : Int) < b) :
    (ds.map SinkEvent.receive).foldl (sinkStep b)
        { bulk := bulk0, dispatched := D, returned := false } =
      { bulk := bulk0 ++ ds, dispatched := D, returned := false } := by
  induction ds generalizing bulk0 with
  | nil => simp
  | cons d ds ih =>
    have hlt : ¬ (((bulk0 ++ [d]).length : Nat) : Int) ≥ b := by
      simp only [List.length_append, List.length_cons, List.length_nil] at h ⊢
      omega
    have hstep : sinkStep b { bulk := bulk0, dispatched := D, returned := false }
        (SinkEvent.receive d) =
        { bulk := bulk0 ++ [d], dispatched := D, returned := false } := by
      simp only [sinkStep, Bool.false_eq_true, if_false, hlt]
    rw [List.map_cons, List.foldl_cons, hstep, ih]
    · simp
    · simp only [List.length_append, List.length_cons, List.length_nil] at h ⊢
      omega

theorem sink_fill (b : Nat) (hb : 1 ≤ b) (ds : List Document) (D : List (List Document))
    (h : ds.length = b) :
    (ds.map SinkEvent.receive).foldl (sinkStep (b : Int))
        { bulk := [], dispatched := D, returned := false } =
      { bulk := [], dispatched := D ++ [ds], returned := false } := by
  have hne : ds ≠ [] := by
    intro h0
    rw [h0] at h
    simp at h
    omega
  obtain ⟨init, last, rfl⟩ : ∃ init last, ds = init ++ [last] :=
    ⟨ds.dropLast, ds.getLast hne, (List.dropLast_append_getLast hne).symm⟩
  have hlen : init.length + 1 = b := by
    simpa using h
  rw [List.map_append, List.foldl_append,
    sink_accumulate (b : Int) init [] D (by simp; omega)]
  have hge : (((init ++ [last]).length : Nat) : Int) ≥ (b : Int) := by
    simp
    omega
  simp only [List.map_cons, List.map_nil, List.foldl_cons, List.foldl_nil, sinkStep,
    Bool.false_eq_true, if_false, List.nil_append, hge, if_true]

/-- Receiving `ds` from an empty batch dispatches `ds.length / b` batches of `b` documents
and leaves the last `ds.length % b` documents in the batch. -/
theorem sink_receive_all (b : Nat) (hb : 1 ≤ b) :
    ∀ (n : Nat) (ds : List Document) (D : List (List Document)), ds.length = n →
      ∃ full rest,
        (ds.map SinkEvent.receive).foldl (sinkStep (b : Int))
            { bulk := [], dispatched := D, returned := false } =
          { bulk := rest, dispatched := D ++ full, returned := false } ∧
        full.length = n / b ∧ (∀ batch ∈ full, batch.length = b) ∧
        rest.length = n % b ∧ full.flatten ++ rest = ds := by
  intro n
  induction n using Nat.strong_induction_on with
  | _ n ih =>
    intro ds D hn
    by_cases hlt : n < b
    · refine ⟨[], ds, ?_, ?_, ?_, ?_, ?_⟩
      · rw [sink_accumulate (b : Int) ds [] D (by simp; omega)]
        simp
      · rw [Nat.div_eq_of_lt hlt]
        rfl
      · intro batch hbatch
        simp at hbatch
      · rw [Nat.mod_eq_of_lt hlt, hn]
      · simp
    · have hge : b ≤ n := by omega
      have htake : (ds.take b).length = b := by
        rw [List.length_take]
        omega
      have hdrop : (ds.drop b).length = n - b := by
        rw [List.length_drop, hn]
      obtain ⟨full, rest, hrun, hfull, hall, hrest, hcat⟩ :=
        ih (n - b) (by omega) (ds.drop b) (D ++ [ds.take b]) hdrop
      refine ⟨ds.take b :: full, rest, ?_, ?_, ?_, ?_, ?_⟩
      · have hsplit : ds.map SinkEvent.receive =
            (ds.take b).map SinkEvent.receive ++ (ds.drop b).map SinkEvent.receive := by
          rw [← List.map_append, List.take_append_drop]
        rw [hsplit, List.foldl_append, sink_fill b hb (ds.take b) D htake, hrun]
        simp
      · rw [List.length_cons, hfull]
        have := Nat.div_eq_sub_div (show 0 < b by omega) hge
        omega
      · intro batch hbatch
        rcases List.mem_cons.1 hbatch with h | h
        · rw [h]
          exact htake
        · exact hall batch h
      · rw [hrest]
        exact (Nat.mod_eq_sub_mod hge).symm
      · rw [List.flatten_cons, List.append_assoc, hcat, List.take_append_drop]

/-- While the channel is open, the batches dispatched so far followed by the current batch are
the documents received so far, for every batch size. -/
theorem sink_invariant (b : Int) (evs : List SinkEvent) (st : SinkState)
    (hopen : st.returned = false) (hnoclose : ∀ ev ∈ evs, ev ≠ SinkEvent.close) :
    (evs.foldl (sinkStep b) st).returned = false ∧
    (evs.foldl (sinkStep b) st).dispatched.flatten ++ (evs.foldl (sinkStep b) st).bulk =
      st.dispatched.flatten ++ st.bulk ++ received evs := by
  induction evs generalizing st with
  | nil => exact ⟨hopen, by simp [received]⟩
  | cons ev evs ih =>
    have hrest : ∀ e ∈ evs, e ≠ SinkEvent.close := fun e he =>
      hnoclose e (List.mem_cons_of_mem _ he)
    have hev : ev ≠ SinkEvent.close := hnoclose ev (List.mem_cons_self _ _)
    rw [List.foldl_cons]
    cases ev with
    | close => exact absurd rfl hev
    | timerFire =>
      have hstep : sinkStep b st SinkEvent.timerFire =
          { st with bulk := [], dispatched := st.dispatched ++ [st.bulk] } := by
        simp [sinkStep, hopen]
      obtain ⟨h1, h2⟩ := ih (sinkStep b st SinkEvent.timerFire) (by rw [hstep]; exact hopen)
        hrest
      refine ⟨h1, ?_⟩
      rw [h2, hstep]
      simp [received]
    | receive doc =>
      by_cases hfull : (((st.bulk ++ [doc]).length : Nat) : Int) ≥ b
      · have hstep : sinkStep b st (SinkEvent.receive doc) =
            { st with bulk := [], dispatched := st.dispatched ++ [st.bulk ++ [doc]] } := by
          simp only [sinkStep, hopen, Bool.false_eq_true, if_false, hfull, if_true]
        obtain ⟨h1, h2⟩ := ih (sinkStep b st (SinkEvent.receive doc))
          (by rw [hstep]; exact hopen) hrest
        refine ⟨h1, ?_⟩
        rw [h2, hstep]
        simp [received]
      · have hstep : sinkStep b st (SinkEvent.receive doc) =
            { st with bulk := st.bulk ++ [doc] } := by
          simp only [sinkStep, hopen, Bool.false_eq_true, if_false, hfull]
        obtain ⟨h1, h2⟩ := ih (sinkStep b st (SinkEvent.receive doc))
          (by rw [hstep]; exact hopen) hrest
        refine ⟨h1, ?_⟩
        rw [h2, hstep]
        simp [received]

end sink

/-! ## `sendBulk`: counters, calls and log -/

section send

theorem AddInt64_of_isInt64 (x d : Int) (h : isInt64 (x + d)) : AddInt64 x d = x + d := by
  unfold isInt64 at h
  unfold AddInt64 wrapInt64
  omega

theorem AddInt64_enter_leave (x : Int) (h : isInt64 x) : AddInt64 (AddInt64 x 1) (-1) = x := by
  unfold isInt64 at h
  unfold AddInt64 wrapInt64
  omega

theorem addDocument_eq (s : Session) (m : Document) :
    addDocument s m =
      { requests := s.requests ++ [requestFor m],
        calls := s.calls ++ [FacadeCall.NewBulkIndexRequest, FacadeCall.Index m.Index,
          FacadeCall.TypeName "trace", FacadeCall.Doc m.Fields,
          FacadeCall.Add (requestFor m)] } := rfl

theorem session_fold (documents : List Document) (s : Session) :
    documents.foldl addDocument s =
      { requests := s.requests ++ documents.map requestFor,
        calls := s.calls ++ (documents.map (fun m =>
          [FacadeCall.NewBulkIndexRequest, FacadeCall.Index m.Index,
            FacadeCall.TypeName "trace", FacadeCall.Doc m.Fields,
            FacadeCall.Add (requestFor m)])).flatten } := by
  induction documents generalizing s with
  | nil => simp
  | cons m ms ih =>
    rw [List.foldl_cons, ih, addDocument_eq]
    simp

theorem failLoop_eq (l : List BulkResponseItem) (i : Nat)
    (hser : ∀ item ∈ l, ∃ response, item.Error.json = .ok response) :
    failLoop i l =
      ((l.take (6 - i)).enumFrom i).map
          (fun p => SendLog.failDetails p.1 p.2.Index p.2.Error.response) ++
        (if 6 - i < l.length then [SendLog.omitted] else []) := by
  induction l generalizing i with
  | nil => simp [failLoop]
  | cons x xs ih =>
    by_cases hi : i > 5
    · have h0 : 6 - i = 0 := by omega
      simp [failLoop, hi, h0]
    · obtain ⟨response, hresp⟩ := hser x (List.mem_cons_self _ _)
      have hsucc : 6 - i = (6 - (i + 1)) + 1 := by omega
      have htext : x.Error.response = response := by
        unfold ErrorDetails.response
        rw [hresp]
      rw [failLoop, if_neg hi]
      simp only [hresp]
      rw [ih (i + 1) (fun item hitem => hser item (List.mem_cons_of_mem _ hitem)), hsucc,
        List.take_succ_cons, List.enumFrom_cons, List.map_cons, htext]
      simp only [List.cons_append, List.length_cons]
      congr 2
      by_cases hlen : 6 - (i + 1) < xs.length
      · rw [if_pos hlen, if_pos (by omega)]
      · rw [if_neg hlen, if_neg (by omega)]

theorem filter_failDetails_map (l : List (Nat × BulkResponseItem)) :
    (l.map (fun p => SendLog.failDetails p.1 p.2.Index p.2.Error.response)).filter
        SendLog.isFailDetails =
      l.map (fun p => SendLog.failDetails p.1 p.2.Index p.2.Error.response) := by
  induction l with
  | nil => rfl
  | cons p l ih => simp [SendLog.isFailDetails, ih]

theorem omitted_not_mem_map (l : List (Nat × BulkResponseItem)) :
    SendLog.omitted ∉
      l.map (fun p => SendLog.failDetails p.1 p.2.Index p.2.Error.response) := by
  simp

end send

section sendcases

/-- The calls `sendBulk` makes on the facade for a non-empty batch. -/
theorem sendBulk_ok (client : ESClient) (documents : List Document) (m : Metrics)
    (res : BulkResponse) (hne : documents ≠ [])
    (hdo : client.Do (documents.map requestFor) = .ok res) :
    sendBulk (some client) documents m =
      { metrics :=
          { ActiveESRequests := AddInt64 (AddInt64 m.ActiveESRequests 1) (-1),
            FailedESRequests := m.FailedESRequests,
            FailedESTraces := AddInt64 m.FailedESTraces res.Failed.length },
        calls := [FacadeCall.Bulk] ++ (documents.map (fun d =>
            [FacadeCall.NewBulkIndexRequest, FacadeCall.Index d.Index,
              FacadeCall.TypeName "trace", FacadeCall.Doc d.Fields,
              FacadeCall.Add (requestFor d)])).flatten ++
          [FacadeCall.Do (documents.map requestFor)],
        log := SendLog.indexed res.Indexed.length res.Failed.length documents.length res.Took ::
          failLoop 0 res.Failed,
        panicked := false } := by
  have hlen : ¬ documents.length = 0 := fun h => hne (List.length_eq_zero.1 h)
  unfold sendBulk
  simp only [if_neg hlen, session_fold, List.nil_append, hdo, leaveRequest]

theorem sendBulk_error (client : ESClient) (documents : List Document) (m : Metrics)
    (err : String) (hne : documents ≠ [])
    (hdo : client.Do (documents.map requestFor) = .error err) :
    sendBulk (some client) documents m =
      { metrics :=
          { ActiveESRequests := AddInt64 (AddInt64 m.ActiveESRequests 1) (-1),
            FailedESRequests := AddInt64 m.FailedESRequests 1,
            FailedESTraces := m.FailedESTraces },
        calls := [FacadeCall.Bulk] ++ (documents.map (fun d =>
            [FacadeCall.NewBulkIndexRequest, FacadeCall.Index d.Index,
              FacadeCall.TypeName "trace", FacadeCall.Doc d.Fields,
              FacadeCall.Add (requestFor d)])).flatten ++
          [FacadeCall.Do (documents.map requestFor)],
        log := [SendLog.sendFailed err],
        panicked := false } := by
  have hlen : ¬ documents.length = 0 := fun h => hne (List.length_eq_zero.1 h)
  unfold sendBulk
  simp only [if_neg hlen, session_fold, List.nil_append, hdo, leaveRequest]

theorem sendBulk_calls (client : ESClient) (documents : List Document) (m : Metrics)
    (hne : documents ≠ []) :
    (sendBulk (some client) documents m).calls =
      [FacadeCall.Bulk] ++ (documents.map (fun d =>
            [FacadeCall.NewBulkIndexRequest, FacadeCall.Index d.Index,
              FacadeCall.TypeName "trace", FacadeCall.Doc d.Fields,
              FacadeCall.Add (requestFor d)])).flatten ++
          [FacadeCall.Do (documents.map requestFor)] := by
  cases hdo : client.Do (documents.map requestFor) with
  | error err => rw [sendBulk_error client documents m err hne hdo]
  | ok res => rw [sendBulk_ok client documents m res hne hdo]

theorem calls_filter_isDo (documents : List Document) :
    ((documents.map (fun d =>
        [FacadeCall.NewBulkIndexRequest, FacadeCall.Index d.Index,
          FacadeCall.TypeName "trace", FacadeCall.Doc d.Fields,
          FacadeCall.Add (requestFor d)])).flatten).filter FacadeCall.isDo = [] := by
  induction documents with
  | nil => rfl
  | cons d ds ih => simp [FacadeCall.isDo, ih]

theorem calls_filter_isBulk (documents : List Document) :
    ((documents.map (fun d =>
        [FacadeCall.NewBulkIndexRequest, FacadeCall.Index d.Index,
          FacadeCall.TypeName "trace", FacadeCall.Doc d.Fields,
          FacadeCall.Add (requestFor d)])).flatten).filter FacadeCall.isBulk = [] := by
  induction documents with
  | nil => rfl
  | cons d ds ih => simp [FacadeCall.isBulk, ih]

theorem calls_filter_isAdd (documents : List Document) :
    ((documents.map (fun d =>
        [FacadeCall.NewBulkIndexRequest, FacadeCall.Index d.Index,
          FacadeCall.TypeName "trace", FacadeCall.Doc d.Fields,
          FacadeCall.Add (requestFor d)])).flatten).filter FacadeCall.isAdd =
      documents.map (fun d => FacadeCall.Add (requestFor d)) := by
  induction documents with
  | nil => rfl
  | cons d ds ih => simp [FacadeCall.isAdd, ih]

end sendcases

/-! ## Storage client: the claims about `sendBulk` -/

/-- C15. For a non-empty batch whose bulk call succeeds and reports `k` failed documents, all
with serializable error details: the failed-document counter is advanced by exactly `k` (the
`int64` sum, which is the plain sum whenever that is an `int64`), the failed-request counter
is unchanged, the `Fail details` lines are those of the first six failures, in order, so
there are `min k 6` of them, and the `omitted` notice is logged once when `k > 6` and not at
all otherwise. -/
theorem sendBulk_partial_failure (client : ESClient) (documents : List Document)
    (m : Metrics) (res : BulkResponse)
    (hne : documents ≠ [])
    (hdo : client.Do (documents.map requestFor) = .ok res)
    (hser : ∀ item ∈ res.Failed, ∃ response, item.Error.json = .ok response) :
    (sendBulk (some client) documents m).metrics.FailedESTraces =
      AddInt64 m.FailedESTraces res.Failed.length ∧
    (isInt64 (m.FailedESTraces + res.Failed.length) →
      (sendBulk (some client) documents m).metrics.FailedESTraces =
        m.FailedESTraces + res.Failed.length) ∧
    (sendBulk (some client) documents m).metrics.FailedESRequests = m.FailedESRequests ∧
    ((sendBulk (some client) documents m).log.filter SendLog.isFailDetails).length =
      min res.Failed.length 6 ∧
    (sendBulk (some client) documents m).log.filter SendLog.isFailDetails =
      ((res.Failed.take 6).enum).map
        (fun p => SendLog.failDetails p.1 p.2.Index p.2.Error.response) ∧
    (SendLog.omitted ∈ (sendBulk (some client) documents m).log ↔ 6 < res.Failed.length) ∧
    (sendBulk (some client) documents m).log.count SendLog.omitted =
      (if 6 < res.Failed.length then 1 else 0) := by
  have hlog : (sendBulk (some client) documents m).log =
      SendLog.indexed res.Indexed.length res.Failed.length documents.length res.Took ::
        (((res.Failed.take 6).enum).map
            (fun p => SendLog.failDetails p.1 p.2.Index p.2.Error.response) ++
          (if 6 < res.Failed.length then [SendLog.omitted] else [])) := by
    rw [sendBulk_ok client documents m res hne hdo, failLoop_eq res.Failed 0 hser]
    rfl
  have hfilter : (sendBulk (some client) documents m).log.filter SendLog.isFailDetails =
      ((res.Failed.take 6).enum).map
        (fun p => SendLog.failDetails p.1 p.2.Index p.2.Error.response) := by
    rw [hlog, List.filter_cons_of_neg (by simp [SendLog.isFailDetails]), List.filter_append,
      filter_failDetails_map]
    by_cases hk : 6 < res.Failed.length
    · rw [if_pos hk]
      simp [SendLog.isFailDetails]
    · rw [if_neg hk]
      simp
  refine ⟨?_, ?_, ?_, ?_, hfilter, ?_, ?_⟩
  · rw [sendBulk_ok client documents m res hne hdo]
  · intro hin
    rw [sendBulk_ok client documents m res hne hdo]
    exact AddInt64_of_isInt64 _ _ hin
  · rw [sendBulk_ok client documents m res hne hdo]
  · rw [hfilter, List.length_map, List.enum_length, List.length_take]
    omega
  · rw [hlog]
    by_cases hk : 6 < res.Failed.length
    · simp [hk]
    · simp [hk]
  · rw [hlog]
    by_cases hk : 6 < res.Failed.length
    · simp [hk, List.count_cons, List.count_append, List.count_eq_zero_of_not_mem]
    · simp [hk, List.count_cons, List.count_eq_zero_of_not_mem]

/-- C15 on the scenario of the spec: the bulk call reports 2 failed of 5 documents. The
failed-document counter goes from 9 to 11, the failed-request counter stays at 4, and two
`Fail details` lines are logged. -/
theorem sendBulk_partial_failure_witness :
    fiveDocs ≠ [] ∧
    (partialClient 2).Do (fiveDocs.map requestFor) =
      .ok { Took := 12,
            Indexed := [indexedItem "d3", indexedItem "d4", indexedItem "d5"],
            Failed := [failedItem "d1", failedItem "d2"] } ∧
    (∀ item ∈ [failedItem "d1", failedItem "d2"], ∃ response, item.Error.json = .ok response) ∧
    (sendBulk (some (partialClient 2)) fiveDocs sampleMetrics).metrics =
      { ActiveESRequests := 1, FailedESRequests := 4, FailedESTraces := 11 } ∧
    (sendBulk (some (partialClient 2)) fiveDocs sampleMetrics).log =
      [SendLog.indexed 3 2 5 12, SendLog.failDetails 0 "d1" "boom",
        SendLog.failDetails 1 "d2" "boom"] ∧
    ((sendBulk (some (partialClient 2)) fiveDocs sampleMetrics).metrics.FailedESTraces =
      AddInt64 sampleMetrics.FailedESTraces [failedItem "d1", failedItem "d2"].length ∧
    (isInt64 (sampleMetrics.FailedESTraces + [failedItem "d1", failedItem "d2"].length) →
      (sendBulk (some (partialClient 2)) fiveDocs sampleMetrics).metrics.FailedESTraces =
        sampleMetrics.FailedESTraces + [failedItem "d1", failedItem "d2"].length) ∧
    (sendBulk (some (partialClient 2)) fiveDocs sampleMetrics).metrics.FailedESRequests =
      sampleMetrics.FailedESRequests ∧
    ((sendBulk (some (partialClient 2)) fiveDocs sampleMetrics).log.filter
        SendLog.isFailDetails).length = min [failedItem "d1", failedItem "d2"].length 6 ∧
    (sendBulk (some (partialClient 2)) fiveDocs sampleMetrics).log.filter
        SendLog.isFailDetails =
      ((([failedItem "d1", failedItem "d2"] : List BulkResponseItem).take 6).enum).map
        (fun p => SendLog.failDetails p.1 p.2.Index p.2.Error.response) ∧
    (SendLog.omitted ∈ (sendBulk (some (partialClient 2)) fiveDocs sampleMetrics).log ↔
      6 < [failedItem "d1", failedItem "d2"].length) ∧
    (sendBulk (some (partialClient 2)) fiveDocs sampleMetrics).log.count SendLog.omitted =
      (if 6 < [failedItem "d1", failedItem "d2"].length then 1 else 0)) :=
  ⟨by decide, by decide,
    fun item hitem => by
      simp only [List.mem_cons, List.mem_singleton, List.not_mem_nil, or_false] at hitem
      rcases hitem with h | h <;> exact ⟨"boom", by rw [h]; rfl⟩,
    by decide, by decide,
    sendBulk_partial_failure (partialClient 2) fiveDocs sampleMetrics
      { Took := 12,
        Indexed := [indexedItem "d3", indexedItem "d4", indexedItem "d5"],
        Failed := [failedItem "d1", failedItem "d2"] }
      (by decide) (by decide)
      (fun item hitem => by
        simp only [List.mem_cons, List.mem_singleton, List.not_mem_nil, or_false] at hitem
        rcases hitem with h | h <;> exact ⟨"boom", by rw [h]; rfl⟩)⟩

/-- C16 fails as stated: after a failed connection `elasticSender` keeps the nil client
(lines 146 to 149) and hands it to `sendBulk` with each batch (lines 176 to 179). With that
client and the five documents `d1` to `d5`, the call `esClient.Bulk()` at line 194 panics: no
session is opened, `Do` is never called, and the failed-request counter stays as it was. -/
theorem sendBulk_transport_failure_counterexample :
    (failedFactory []).1.isNone = true ∧
    (elasticSender failedFactory 1000 [] 5
      (fiveDocs.map SinkEvent.receive ++ [SinkEvent.close])).esClient.isNone = true ∧
    fiveDocs ∈ (elasticSender failedFactory 1000 [] 5
      (fiveDocs.map SinkEvent.receive ++ [SinkEvent.close])).state.dispatched ∧
    fiveDocs ≠ [] ∧
    (sendBulk (failedFactory []).1 fiveDocs sampleMetrics).panicked = true ∧
    (sendBulk (failedFactory []).1 fiveDocs sampleMetrics).calls = [] ∧
    (sendBulk (failedFactory []).1 fiveDocs sampleMetrics).calls.filter FacadeCall.isDo = [] ∧
    (sendBulk (failedFactory []).1 fiveDocs sampleMetrics).metrics.FailedESRequests =
      sampleMetrics.FailedESRequests ∧
    (sendBulk (failedFactory []).1 fiveDocs sampleMetrics).log = [] := by
  decide

/-- C16, amended. For a non-empty batch and a client that is not nil, `sendBulk` opens one
bulk session, and for each document of the batch, in order, builds a request with the
document's `Index`, the type `trace` and the document's `Fields` and adds it; then it
executes the session once. If the
execution returns an error, the failed-request counter is advanced by exactly 1 (the `int64`
sum, the plain sum whenever that is an `int64`), the failed-document counter is unchanged,
`Do` is not called again, and the active-request gauge is back at its value before the
call. -/
theorem sendBulk_transport_failure (client : ESClient) (documents : List Document)
    (m : Metrics)
    (hne : documents ≠ [])
    (hgauge : isInt64 m.ActiveESRequests) :
    (sendBulk (some client) documents m).calls =
      [FacadeCall.Bulk] ++ (documents.map (fun d =>
          [FacadeCall.NewBulkIndexRequest, FacadeCall.Index d.Index,
            FacadeCall.TypeName "trace", FacadeCall.Doc d.Fields,
            FacadeCall.Add { index := d.Index, docType := "trace", doc := some d.Fields }]
          )).flatten ++
        [FacadeCall.Do (documents.map (fun d =>
          { index := d.Index, docType := "trace", doc := some d.Fields }))] ∧
    (sendBulk (some client) documents m).calls.filter FacadeCall.isBulk = [FacadeCall.Bulk] ∧
    (sendBulk (some client) documents m).calls.filter FacadeCall.isAdd =
      documents.map (fun d =>
        FacadeCall.Add { index := d.Index, docType := "trace", doc := some d.Fields }) ∧
    ((sendBulk (some client) documents m).calls.filter FacadeCall.isAdd).length =
      documents.length ∧
    (sendBulk (some client) documents m).calls.filter FacadeCall.isDo =
      [FacadeCall.Do (documents.map (fun d =>
        { index := d.Index, docType := "trace", doc := some d.Fields }))] ∧
    (∀ err : String,
      client.Do (documents.map (fun d =>
        { index := d.Index, docType := "trace", doc := some d.Fields })) = .error err →
      (sendBulk (some client) documents m).metrics.FailedESRequests =
        AddInt64 m.FailedESRequests 1 ∧
      (isInt64 (m.FailedESRequests + 1) →
        (sendBulk (some client) documents m).metrics.FailedESRequests =
          m.FailedESRequests + 1) ∧
      (sendBulk (some client) documents m).metrics.FailedESTraces = m.FailedESTraces ∧
      (sendBulk (some client) documents m).metrics.ActiveESRequests = m.ActiveESRequests ∧
      (sendBulk (some client) documents m).log = [SendLog.sendFailed err] ∧
      (sendBulk (some client) documents m).panicked = false) := by
  have hcalls := sendBulk_calls client documents m hne
  refine ⟨hcalls, ?_, ?_, ?_, ?_, ?_⟩
  · rw [hcalls, List.filter_append, List.filter_append, calls_filter_isBulk]
    simp [FacadeCall.isBulk]
  · rw [hcalls, List.filter_append, List.filter_append, calls_filter_isAdd]
    simp [FacadeCall.isAdd]
    intro d _
    rfl
  · rw [hcalls, List.filter_append, List.filter_append, calls_filter_isAdd]
    simp [FacadeCall.isAdd]
  · rw [hcalls, List.filter_append, List.filter_append, calls_filter_isDo]
    simp [FacadeCall.isDo]
    intro d _
    rfl
  · intro err hdo
    rw [sendBulk_error client documents m err hne hdo]
    exact ⟨rfl, fun hin => AddInt64_of_isInt64 _ _ hin, rfl,
      AddInt64_enter_leave _ hgauge, rfl, rfl⟩

/-- C16 on the five documents `d1` to `d5` and a client whose bulk call is rejected: the
failed-request counter goes from 4 to 5 and the other two counters are as before. -/
theorem sendBulk_transport_failure_witness :
    fiveDocs ≠ [] ∧
    isInt64 sampleMetrics.ActiveESRequests ∧
    (sendBulk (some brokenClient) fiveDocs sampleMetrics).metrics =
      { ActiveESRequests := 1, FailedESRequests := 5, FailedESTraces := 9 } ∧
    ((sendBulk (some brokenClient) fiveDocs sampleMetrics).calls =
      [FacadeCall.Bulk] ++ (fiveDocs.map (fun d =>
          [FacadeCall.NewBulkIndexRequest, FacadeCall.Index d.Index,
            FacadeCall.TypeName "trace", FacadeCall.Doc d.Fields,
            FacadeCall.Add { index := d.Index, docType := "trace", doc := some d.Fields }]
          )).flatten ++
        [FacadeCall.Do (fiveDocs.map (fun d =>
          { index := d.Index, docType := "trace", doc := some d.Fields }))] ∧
    (sendBulk (some brokenClient) fiveDocs sampleMetrics).calls.filter FacadeCall.isBulk =
      [FacadeCall.Bulk] ∧
    (sendBulk (some brokenClient) fiveDocs sampleMetrics).calls.filter FacadeCall.isAdd =
      fiveDocs.map (fun d =>
        FacadeCall.Add { index := d.Index, docType := "trace", doc := some d.Fields }) ∧
    ((sendBulk (some brokenClient) fiveDocs sampleMetrics).calls.filter
      FacadeCall.isAdd).length = fiveDocs.length ∧
    (sendBulk (some brokenClient) fiveDocs sampleMetrics).calls.filter FacadeCall.isDo =
      [FacadeCall.Do (fiveDocs.map (fun d =>
        { index := d.Index, docType := "trace", doc := some d.Fields }))] ∧
    (∀ err : String,
      brokenClient.Do (fiveDocs.map (fun d =>
        { index := d.Index, docType := "trace", doc := some d.Fields })) = .error err →
      (sendBulk (some brokenClient) fiveDocs sampleMetrics).metrics.FailedESRequests =
        AddInt64 sampleMetrics.FailedESRequests 1 ∧
      (isInt64 (sampleMetrics.FailedESRequests + 1) →
        (sendBulk (some brokenClient) fiveDocs sampleMetrics).metrics.FailedESRequests =
          sampleMetrics.FailedESRequests + 1) ∧
      (sendBulk (some brokenClient) fiveDocs sampleMetrics).metrics.FailedESTraces =
        sampleMetrics.FailedESTraces ∧
      (sendBulk (some brokenClient) fiveDocs sampleMetrics).metrics.ActiveESRequests =
        sampleMetrics.ActiveESRequests ∧
      (sendBulk (some brokenClient) fiveDocs sampleMetrics).log = [SendLog.sendFailed err] ∧
      (sendBulk (some brokenClient) fiveDocs sampleMetrics).panicked = false)) :=
  ⟨by decide, by decide, by decide,
    sendBulk_transport_failure brokenClient fiveDocs sampleMetrics (by decide) (by decide)⟩

/-- C17. Called with an empty batch, `sendBulk` makes no call on the facade, whatever the
client, a nil client included; it does not panic, logs nothing, and leaves the three
counters, the active-request gauge among them, at the values they had before the call. The
timer of `elasticSender` firing on an empty batch dispatches exactly such an empty batch. -/
theorem sendBulk_empty (esClient : Option ESClient) (m : Metrics)
    (hgauge : isInt64 m.ActiveESRequests) :
    (sendBulk esClient [] m).calls = [] ∧
    (sendBulk esClient [] m).metrics.FailedESRequests = m.FailedESRequests ∧
    (sendBulk esClient [] m).metrics.FailedESTraces = m.FailedESTraces ∧
    (sendBulk esClient [] m).metrics.ActiveESRequests = m.ActiveESRequests ∧
    (sendBulk esClient [] m).metrics = m ∧
    (sendBulk esClient [] m).log = [] ∧
    (sendBulk esClient [] m).panicked = false ∧
    (∀ (bulkSize : Int) (st : SinkState), st.returned = false → st.bulk = [] →
      sinkStep bulkSize st SinkEvent.timerFire =
        { st with dispatched := st.dispatched ++ [[]] }) := by
  have hrun : sendBulk esClient [] m =
      { metrics := { m with
          ActiveESRequests := AddInt64 (AddInt64 m.ActiveESRequests 1) (-1) },
        calls := [], log := [], panicked := false } := by
    unfold sendBulk
    simp [leaveRequest]
  rw [hrun, AddInt64_enter_leave _ hgauge]
  refine ⟨rfl, rfl, rfl, rfl, rfl, rfl, rfl, ?_⟩
  intro bulkSize st hopen hbulk
  cases st with
  | mk bulk dispatched returned =>
    simp only at hopen hbulk
    subst hopen hbulk
    simp [sinkStep]

/-- C17 on a nil client and the counters `sampleMetrics`. -/
theorem sendBulk_empty_witness :
    isInt64 sampleMetrics.ActiveESRequests ∧
    sendBulk none [] sampleMetrics =
      { metrics := sampleMetrics, calls := [], log := [], panicked := false } ∧
    ((sendBulk none [] sampleMetrics).calls = [] ∧
    (sendBulk none [] sampleMetrics).metrics.FailedESRequests =
      sampleMetrics.FailedESRequests ∧
    (sendBulk none [] sampleMetrics).metrics.FailedESTraces = sampleMetrics.FailedESTraces ∧
    (sendBulk none [] sampleMetrics).metrics.ActiveESRequests =
      sampleMetrics.ActiveESRequests ∧
    (sendBulk none [] sampleMetrics).metrics = sampleMetrics ∧
    (sendBulk none [] sampleMetrics).log = [] ∧
    (sendBulk none [] sampleMetrics).panicked = false ∧
    (∀ (bulkSize : Int) (st : SinkState), st.returned = false → st.bulk = [] →
      sinkStep bulkSize st SinkEvent.timerFire =
        { st with dispatched := st.dispatched ++ [[]] })) :=
  ⟨by decide, by decide, sendBulk_empty none sampleMetrics (by decide)⟩

/-! ## The partition made by a scan -/

section partition

variable (env : Collaborators) (now : Time) (sinceNow : Duration) (minTTL maxTTL : Duration)
  (cap : Int)

theorem GoMap.len_set_of_get_none {α : Type} (m : GoMap α) (k : String) (v : α)
    (h : m.get k = none) : (m.set k v).len = m.len + 1 := by
  have hk := (AList.lookup_eq_none (a := k) (s := m)).1 h
  unfold GoMap.len GoMap.set
  rw [AList.insert_entries_of_neg hk]
  rfl

theorem outcome_exclusive (trace : Trace) :
    (if isRetained now minTTL maxTTL cap trace then 1 else 0) +
      (if isFlushed now minTTL cap trace then 1 else 0) +
      (if isDropped now minTTL maxTTL cap trace then 1 else 0) = (1 : Nat) := by
  unfold isRetained isFlushed isDropped
  cases tooFresh now minTTL cap trace <;> cases trace.Completed <;>
    cases stillWaiting now maxTTL cap trace <;> rfl

theorem countP_outcomes (l : List (String × Trace)) :
    l.countP (fun kv => isRetained now minTTL maxTTL cap kv.2) +
      l.countP (fun kv => isFlushed now minTTL cap kv.2) +
      l.countP (fun kv => isDropped now minTTL maxTTL cap kv.2) = l.length := by
  induction l with
  | nil => rfl
  | cons e l ih =>
    have h := outcome_exclusive now minTTL maxTTL cap e.2
    simp only [List.countP_cons, List.length_cons]
    omega

theorem scan_next_len (l : List (String × Trace)) (st : CollectState)
    (hnd : (l.map Prod.fst).Nodup)
    (hfresh : ∀ k ∈ l.map Prod.fst, st.nextGenerationTraceMap.get k = none) :
    (l.foldl (fun st kv => collectStep env now minTTL maxTTL cap st kv.1 kv.2)
      st).nextGenerationTraceMap.len =
      st.nextGenerationTraceMap.len +
        l.countP (fun kv => isRetained now minTTL maxTTL cap kv.2) := by
  induction l generalizing st with
  | nil => rfl
  | cons e l ih =>
    rw [List.map_cons, List.nodup_cons] at hnd
    have hhead : st.nextGenerationTraceMap.get e.1 = none :=
      hfresh e.1 (by simp)
    have htail : ∀ k ∈ l.map Prod.fst,
        (collectStep env now minTTL maxTTL cap st e.1 e.2).nextGenerationTraceMap.get k =
          none := by
      intro k hk
      have hne : k ≠ e.1 := fun h => hnd.1 (h ▸ hk)
      rw [collectStep_next]
      split
      · rw [GoMap.get_set_ne _ _ hne]
        exact hfresh k (List.mem_cons_of_mem _ hk)
      · exact hfresh k (List.mem_cons_of_mem _ hk)
    rw [List.foldl_cons, ih _ hnd.2 htail, collectStep_next, List.countP_cons]
    by_cases hr : isRetained now minTTL maxTTL cap e.2 = true
    · rw [if_pos hr, GoMap.len_set_of_get_none _ _ _ hhead]
      simp [hr]
      omega
    · rw [if_neg hr]
      simp [hr]

theorem Collect_len (traceMap : TraceMap) :
    ((Collect env now sinceNow traceMap minTTL maxTTL cap).nextGenerationTraceMap.len : Int) +
      (Collect env now sinceNow traceMap minTTL maxTTL cap).completed +
      (Collect env now sinceNow traceMap minTTL maxTTL cap).uncompleted = traceMap.len := by
  have hcount := countP_outcomes now minTTL maxTTL cap traceMap.range
  have hlen := scan_next_len env now minTTL maxTTL cap traceMap.range collectInit
    (GoMap.range_nodup _) (fun k _ => GoMap.get_empty k)
  unfold Collect
  simp only [scan_completed, scan_uncompleted, hlen, GoMap.len_eq_range traceMap]
  have h0 : collectInit.nextGenerationTraceMap.len = 0 := rfl
  have h1 : collectInit.completed = 0 := rfl
  have h2 : collectInit.uncompleted = 0 := rfl
  rw [h0, h1, h2]
  push_cast
  omega

theorem Collect_next_get_of_absent (traceMap : TraceMap) (traceID : String)
    (h : traceMap.get traceID = none) :
    (Collect env now sinceNow traceMap minTTL maxTTL cap).nextGenerationTraceMap.get traceID =
      none := by
  unfold Collect
  simp only
  rw [scan_next_of_not_mem env now minTTL maxTTL cap _ _ traceID
    (GoMap.not_mem_range_of_get_none _ _ h)]
  exact GoMap.get_empty _

end partition

/-! ## Scan metrics and partition: further claims about `Collect` -/

/-- The duration `Collect` gives to the flush timer is the time from entry to the `defer`
statement, whatever the clock reads when the scan is over; the amount added to the pending
counter is the size of the input map. -/
theorem CollectClocked_metrics (env : Collaborators) (clock : Clock) (traceMap : TraceMap)
    (minTTL maxTTL : Duration) (maxSpansPerTrace : Int) :
    (CollectClocked env clock traceMap minTTL maxTTL maxSpansPerTrace).flushTimer =
      clock.atDefer.unixNano - clock.atEntry.unixNano ∧
    (CollectClocked env clock traceMap minTTL maxTTL maxSpansPerTrace).pending =
      traceMap.len := ⟨rfl, rfl⟩

/-- C18, evaluated on `sampleMap` with a clock that reads `t0` at entry, 40 nanoseconds later
at the `defer` statement of line 105 and one second after `t0` when the scan is over: the
duration given to the flush timer is 40 nanoseconds, while the scan took one second. The
amount added to the pending counter is 2, the size of the map before the scan. -/
theorem CollectClocked_flushTimer_is_not_scan_time :
    (CollectClocked sampleEnv sampleClock sampleMap 0 (3600 * second) 10).flushTimer = 40 ∧
    Since sampleClock.atReturn sampleClock.atEntry = 1000000000 ∧
    (CollectClocked sampleEnv sampleClock sampleMap 0 (3600 * second) 10).flushTimer ≠
      Since sampleClock.atReturn sampleClock.atEntry ∧
    (CollectClocked sampleEnv sampleClock sampleMap 0 (3600 * second) 10).pending = 2 ∧
    sampleMap.len = 2 := by
  decide

/-- C19. A scan puts every trace of the input map in exactly one of three classes, retained,
flushed or dropped; the returned map is a sub-map of the input (every ID it holds maps to the
trace it mapped to in the input); and the size of the returned map plus the amounts added to
the completed and uncompleted counters is the size of the input map. -/
theorem Collect_partition (env : Collaborators) (now : Time) (sinceNow : Duration)
    (traceMap : TraceMap) (minTTL maxTTL : Duration) (maxSpansPerTrace : Int) :
    (∀ (traceID : String) (trace : Trace), traceMap.get traceID = some trace →
      (RetainedClass env now sinceNow traceMap minTTL maxTTL maxSpansPerTrace traceID trace ∨
        FlushedClass env now sinceNow traceMap minTTL maxTTL maxSpansPerTrace traceID trace ∨
        DroppedClass env now sinceNow traceMap minTTL maxTTL maxSpansPerTrace traceID trace) ∧
      ¬ (RetainedClass env now sinceNow traceMap minTTL maxTTL maxSpansPerTrace traceID trace ∧
        FlushedClass env now sinceNow traceMap minTTL maxTTL maxSpansPerTrace traceID trace) ∧
      ¬ (RetainedClass env now sinceNow traceMap minTTL maxTTL maxSpansPerTrace traceID trace ∧
        DroppedClass env now sinceNow traceMap minTTL maxTTL maxSpansPerTrace traceID trace) ∧
      ¬ (FlushedClass env now sinceNow traceMap minTTL maxTTL maxSpansPerTrace traceID trace ∧
        DroppedClass env now sinceNow traceMap minTTL maxTTL maxSpansPerTrace traceID
          trace)) ∧
    (∀ (traceID : String) (trace : Trace),
      (Collect env now sinceNow traceMap minTTL maxTTL
          maxSpansPerTrace).nextGenerationTraceMap.get traceID = some trace →
        traceMap.get traceID = some trace) ∧
    ((Collect env now sinceNow traceMap minTTL maxTTL
          maxSpansPerTrace).nextGenerationTraceMap.len : Int) +
        (Collect env now sinceNow traceMap minTTL maxTTL maxSpansPerTrace).completed +
        (Collect env now sinceNow traceMap minTTL maxTTL maxSpansPerTrace).uncompleted =
      traceMap.len := by
  refine ⟨?_, ?_, Collect_len env now sinceNow minTTL maxTTL maxSpansPerTrace traceMap⟩
  · intro traceID trace hin
    have hnext := Collect_next_get env now sinceNow minTTL maxTTL maxSpansPerTrace traceMap
      traceID trace hin
    have hex := outcome_exclusive now minTTL maxTTL maxSpansPerTrace trace
    refine ⟨?_, ?_, ?_, ?_⟩
    · cases hr : isRetained now minTTL maxTTL maxSpansPerTrace trace <;>
        cases hf : isFlushed now minTTL maxSpansPerTrace trace <;>
        cases hd : isDropped now minTTL maxTTL maxSpansPerTrace trace <;>
        simp only [hr, hf, hd, if_true, if_false, Bool.false_eq_true] at hex hnext <;>
        try omega
      · right; right
        refine ⟨hnext, fun st => ?_⟩
        rw [collectStep_toES, collectStep_completed, collectStep_uncompleted, hf, hd]
        simp [sentFor, hf]
      · right; left
        refine ⟨hnext, fun st => ?_⟩
        rw [collectStep_toES, collectStep_completed, collectStep_uncompleted, hf, hd]
        simp [sentFor, hf]
      · left
        refine ⟨hnext, fun st => ?_⟩
        rw [collectStep_toES, collectStep_completed, collectStep_uncompleted, hf, hd]
        simp [sentFor, hf]
    · rintro ⟨⟨h1, _⟩, ⟨h2, _⟩⟩
      rw [h1] at h2
      exact absurd h2 (by simp)
    · rintro ⟨⟨h1, _⟩, ⟨h2, _⟩⟩
      rw [h1] at h2
      exact absurd h2 (by simp)
    · rintro ⟨⟨_, h1⟩, ⟨_, h2⟩⟩
      have a := (h1 collectInit).2.1
      have b := (h2 collectInit).2.1
      rw [a] at b
      omega
  · intro traceID trace hnext
    cases hin : traceMap.get traceID with
    | none =>
      rw [Collect_next_get_of_absent env now sinceNow minTTL maxTTL maxSpansPerTrace traceMap
        traceID hin] at hnext
      exact absurd hnext (by simp)
    | some t =>
      rw [Collect_next_get env now sinceNow minTTL maxTTL maxSpansPerTrace traceMap traceID t
        hin] at hnext
      split at hnext
      · exact hnext
      · exact absurd hnext (by simp)

/-- C19 evaluated on `sampleMap`, one second after its traces were first seen, with a limit
of one span: the completed `T1` is flushed, the incomplete two-span `T2` is dropped, and the
returned map is empty. -/
theorem Collect_partition_example :
    (Collect sampleEnv (t0.Add second) 0 sampleMap 0 (3600 * second)
      1).nextGenerationTraceMap.len = 0 ∧
    (Collect sampleEnv (t0.Add second) 0 sampleMap 0 (3600 * second) 1).completed = 1 ∧
    (Collect sampleEnv (t0.Add second) 0 sampleMap 0 (3600 * second) 1).uncompleted = 1 ∧
    sampleMap.len = 2 := by
  decide

/-! ## Span records: the exact precedence -/

/-- C20. In the record of every span, `cd`, `sd` and `td` are the three values of
`Durations()` and, when the span has timeline entries, `timeline` is the formatted timeline,
whatever the annotations say. For every other annotation key (`spanid`, `parentspanid` and
`prefix` included, and `timeline` when the span has no timeline entry) the record holds the
annotation's value, which replaces the computed span ID, parent ID or prefix. -/
theorem spanRecord_precedence (env : Collaborators) (span : Span) :
    (spanRecord env span).get "cd" = some (.num (env.Durations span).1) ∧
    (spanRecord env span).get "sd" = some (.num (env.Durations span).2.1) ∧
    (spanRecord env span).get "td" = some (.num (env.Durations span).2.2) ∧
    (0 < span.Timeline.len →
      (spanRecord env span).get "timeline" =
        some (.strMap (formatTimeline span.Timeline))) ∧
    (∀ (key : String) (value : Iface), span.Annotations.get key = some value →
      key ≠ "cd" → key ≠ "sd" → key ≠ "td" →
      (key = "timeline" → span.Timeline.len = 0) →
      (spanRecord env span).get key = some value) ∧
    (∀ value : Iface, span.Annotations.get "spanid" = some value →
      (spanRecord env span).get "spanid" = some value) ∧
    (∀ value : Iface, span.Annotations.get "parentspanid" = some value →
      (spanRecord env span).get "parentspanid" = some value) ∧
    (∀ value : Iface, span.Annotations.get "prefix" = some value →
      (spanRecord env span).get "prefix" = some value) ∧
    (∀ value : Iface, span.Annotations.get "timeline" = some value →
      span.Timeline.len = 0 → (spanRecord env span).get "timeline" = some value) := by
  refine ⟨spanRecord_get_cd env span, spanRecord_get_sd env span, spanRecord_get_td env span,
    spanRecord_get_timeline env span, ?_, ?_, ?_, ?_, ?_⟩
  · intro key value hann hcd hsd htd htl
    exact spanRecord_get_annotation env span key value hann hcd hsd htd htl
  · intro value hann
    exact spanRecord_get_annotation env span _ value hann (by decide) (by decide) (by decide)
      (fun h => absurd h (by decide))
  · intro value hann
    exact spanRecord_get_annotation env span _ value hann (by decide) (by decide) (by decide)
      (fun h => absurd h (by decide))
  · intro value hann
    exact spanRecord_get_annotation env span _ value hann (by decide) (by decide) (by decide)
      (fun h => absurd h (by decide))
  · intro value hann hlen
    exact spanRecord_get_annotation env span _ value hann (by decide) (by decide) (by decide)
      (fun _ => hlen)

/-- C20 evaluated on the spans `spanShadow` (annotations `spanid = x` and `cd = y`, ID `s1`)
and `spanNoted` (annotations `timeline = x` and `parentspanid = y`, no timeline entry): the
annotations win for `spanid`, `parentspanid` and `timeline`, the computed duration wins for
`cd`. -/
theorem spanRecord_precedence_example :
    (spanRecord sampleEnv spanShadow).get "spanid" = some (.str "x") ∧
    (spanRecord sampleEnv spanShadow).get "cd" = some (.num 1) ∧
    (spanRecord sampleEnv spanNoted).get "timeline" = some (.str "x") ∧
    (spanRecord sampleEnv spanNoted).get "parentspanid" = some (.str "y") ∧
    (spanRecord sampleEnv spanS1).get "timeline" =
      some (.strMap (GoMap.ofList [("cs", "2016-02-29T00:00:00Z")])) := by
  decide

/-! ## Runs of `elasticSender` -/

section runs

theorem sendBulk_panicked_iff (esClient : Option ESClient) (batch : List Document)
    (m : Metrics) :
    (sendBulk esClient batch m).panicked = true ↔ esClient.isNone = true ∧ batch ≠ [] := by
  unfold sendBulk
  by_cases hlen : batch.length = 0
  · have hnil : batch = [] := List.length_eq_zero.1 hlen
    simp [hnil]
  · have hne : batch ≠ [] := fun h => hlen (by rw [h]; rfl)
    cases esClient with
    | none => simp [hlen, hne]
    | some client =>
      simp only [if_neg hlen]
      cases client.Do (List.foldl addDocument { requests := [], calls := [FacadeCall.Bulk] }
        batch).requests <;> simp

theorem sendPanics_iff (esClient : Option ESClient) (batch : List Document) :
    sendPanics esClient batch = true ↔ esClient.isNone = true ∧ batch ≠ [] :=
  sendBulk_panicked_iff esClient batch _

theorem sendPanics_some (client : ESClient) (batch : List Document) :
    sendPanics (some client) batch = false := by
  rw [Bool.eq_false_iff, Ne, sendPanics_iff]
  simp

theorem sendPanics_nil (esClient : Option ESClient) : sendPanics esClient [] = false := by
  rw [Bool.eq_false_iff, Ne, sendPanics_iff]
  simp

theorem received_append (a b : List SinkEvent) : received (a ++ b) = received a ++ received b := by
  induction a with
  | nil => rfl
  | cons ev a ih =>
    cases ev <;> simp [received, ih]

theorem runStep_of_ended (bulkSize : Int) (run : SinkRun) (ev : SinkEvent)
    (h : run.ended = true) : runStep bulkSize run ev = run := by
  unfold runStep
  rw [if_pos h]

theorem foldl_runStep_of_ended (bulkSize : Int) (evs : List SinkEvent) (run : SinkRun)
    (h : run.ended = true) : evs.foldl (runStep bulkSize) run = run := by
  induction evs with
  | nil => rfl
  | cons ev evs ih => rw [List.foldl_cons, runStep_of_ended bulkSize run ev h, ih]

theorem runStep_of_live (bulkSize : Int) (run : SinkRun) (ev : SinkEvent)
    (h : run.ended = false) :
    runStep bulkSize run ev =
      { run with
        observed := run.observed ++ [ev],
        state := sinkStep bulkSize run.state ev,
        sendPanicked := (sinkStep bulkSize run.state ev).dispatched.any
          (sendPanics run.esClient) } := by
  unfold runStep
  rw [if_neg (by rw [h]; simp)]

theorem live_iff (run : SinkRun) :
    run.ended = false ↔
      run.makePanicked = false ∧ run.sendPanicked = false ∧ run.state.returned = false := by
  unfold SinkRun.ended
  cases run.makePanicked <;> cases run.sendPanicked <;> cases run.state.returned <;> simp

theorem sinkStep_returned_of_ne_close (bulkSize : Int) (st : SinkState) (ev : SinkEvent)
    (hst : st.returned = false) (hev : ev ≠ SinkEvent.close) :
    (sinkStep bulkSize st ev).returned = false := by
  unfold sinkStep
  rw [if_neg (by rw [hst]; simp)]
  cases ev with
  | close => exact absurd rfl hev
  | timerFire => exact hst
  | receive doc =>
    simp only
    split <;> exact hst

theorem runStep_close_ended (bulkSize : Int) (run : SinkRun) :
    (runStep bulkSize run SinkEvent.close).ended = true := by
  by_cases h : run.ended = true
  · rw [runStep_of_ended bulkSize run _ h, h]
  · have hlive : run.ended = false := by simpa using h
    obtain ⟨_, _, hret⟩ := (live_iff run).1 hlive
    rw [runStep_of_live bulkSize run _ hlive]
    simp [SinkRun.ended, sinkStep, hret]

end runs

section runinv

theorem runStep_fields (bulkSize : Int) (run : SinkRun) (ev : SinkEvent) :
    (runStep bulkSize run ev).esClient = run.esClient ∧
    (runStep bulkSize run ev).log = run.log ∧
    (runStep bulkSize run ev).makePanicked = run.makePanicked := by
  unfold runStep
  split <;> exact ⟨rfl, rfl, rfl⟩

theorem foldl_runStep_fields (bulkSize : Int) (evs : List SinkEvent) (run : SinkRun) :
    (evs.foldl (runStep bulkSize) run).esClient = run.esClient ∧
    (evs.foldl (runStep bulkSize) run).log = run.log ∧
    (evs.foldl (runStep bulkSize) run).makePanicked = run.makePanicked := by
  induction evs generalizing run with
  | nil => exact ⟨rfl, rfl, rfl⟩
  | cons ev evs ih =>
    rw [List.foldl_cons]
    obtain ⟨h1, h2, h3⟩ := ih (runStep bulkSize run ev)
    obtain ⟨g1, g2, g3⟩ := runStep_fields bulkSize run ev
    exact ⟨h1.trans g1, h2.trans g2, h3.trans g3⟩

theorem runStep_invariant (bulkSize : Int) (run : SinkRun) (ev : SinkEvent)
    (h : RunInvariant run) : RunInvariant (runStep bulkSize run ev) := by
  by_cases hend : run.ended = true
  · rw [runStep_of_ended bulkSize run ev hend]
    exact h
  · have hlive : run.ended = false := by simpa using hend
    obtain ⟨_, hsp, hret⟩ := (live_iff run).1 hlive
    obtain ⟨hJ, hL, _⟩ := h
    rw [hret] at hJ
    simp only [Bool.false_eq_true, if_false] at hJ
    rw [hsp] at hL
    rw [runStep_of_live bulkSize run ev hlive]
    unfold RunInvariant
    simp only
    refine ⟨?_, trivial, ?_⟩
    · cases ev with
      | close =>
        simp only [sinkStep, hret, Bool.false_eq_true, if_false, if_true, received_append,
          received, List.append_nil, List.flatten_append, List.flatten_cons, List.flatten_nil]
        exact hJ
      | timerFire =>
        simp only [sinkStep, hret, Bool.false_eq_true, if_false, received_append,
          received, List.append_nil, List.flatten_append, List.flatten_cons, List.flatten_nil]
        exact hJ
      | receive doc =>
        by_cases hfull : (((run.state.bulk ++ [doc]).length : Nat) : Int) ≥ bulkSize
        · simp only [sinkStep, hret, Bool.false_eq_true, if_false, hfull, if_true,
            received_append, received, List.append_nil, List.flatten_append,
            List.flatten_cons, List.flatten_nil]
          rw [← hJ]
          simp
        · simp only [sinkStep, hret, Bool.false_eq_true, if_false, hfull,
            received_append, received]
          rw [← hJ]
          simp
    · intro hp
      cases ev with
      | close =>
        left
        simp [sinkStep, hret]
      | timerFire =>
        right
        simp [sinkStep, hret]
      | receive doc =>
        by_cases hfull : (((run.state.bulk ++ [doc]).length : Nat) : Int) ≥ bulkSize
        · right
          simp only [sinkStep, hret, Bool.false_eq_true, if_false, hfull, if_true]
        · exfalso
          simp only [sinkStep, hret, Bool.false_eq_true, if_false, hfull] at hp
          rw [← hL] at hp
          exact absurd hp (by simp)

theorem foldl_runStep_invariant (bulkSize : Int) (evs : List SinkEvent) (run : SinkRun)
    (h : RunInvariant run) : RunInvariant (evs.foldl (runStep bulkSize) run) := by
  induction evs generalizing run with
  | nil => exact h
  | cons ev evs ih =>
    rw [List.foldl_cons]
    exact ih _ (runStep_invariant bulkSize run ev h)

/-- When a run is over, every document taken from the channel is in a batch that was handed
to `sendBulk`. -/
theorem flatten_eq_received_of_ended (run : SinkRun) (h : RunInvariant run)
    (hmake : run.makePanicked = true → run.state.bulk = [] ∨ run.state.returned = true)
    (hend : run.ended = true) :
    run.state.dispatched.flatten = received run.observed := by
  obtain ⟨hJ, _, hK⟩ := h
  by_cases hret : run.state.returned = true
  · rw [hret] at hJ
    simpa using hJ
  · have hret' : run.state.returned = false := by simpa using hret
    have hbulk : run.state.bulk = [] := by
      unfold SinkRun.ended at hend
      rw [hret'] at hend
      simp only [Bool.or_false, Bool.or_eq_true] at hend
      rcases hend with hm | hs
      · rcases hmake hm with h1 | h1
        · exact h1
        · exact absurd h1 hret
      · rcases hK hs with h1 | h1
        · exact absurd h1 hret
        · exact h1
    rw [hret', hbulk] at hJ
    simpa using hJ

/-- A live run that is offered receive and timer events and then the close either is
terminated by a panicking send or takes every event and returns. -/
theorem foldl_runStep_close (bulkSize : Int) (evs : List SinkEvent) (run : SinkRun)
    (hlive : run.ended = false) (hnoclose : ∀ ev ∈ evs, ev ≠ SinkEvent.close)
    (hok : ((evs ++ [SinkEvent.close]).foldl (runStep bulkSize) run).sendPanicked = false) :
    ((evs ++ [SinkEvent.close]).foldl (runStep bulkSize) run).observed =
        run.observed ++ evs ++ [SinkEvent.close] ∧
      ((evs ++ [SinkEvent.close]).foldl (runStep bulkSize) run).state =
        sinkStep bulkSize (evs.foldl (sinkStep bulkSize) run.state) SinkEvent.close := by
  induction evs generalizing run with
  | nil =>
    simp only [List.nil_append, List.foldl_cons, List.foldl_nil, List.append_nil]
    rw [runStep_of_live bulkSize run _ hlive]
    exact ⟨rfl, rfl⟩
  | cons ev evs ih =>
    have hev : ev ≠ SinkEvent.close := hnoclose ev (List.mem_cons_self _ _)
    have hrest : ∀ e ∈ evs, e ≠ SinkEvent.close := fun e he =>
      hnoclose e (List.mem_cons_of_mem _ he)
    obtain ⟨hmk, hsp, hret⟩ := (live_iff run).1 hlive
    rw [List.cons_append, List.foldl_cons] at hok ⊢
    by_cases hnext : (runStep bulkSize run ev).ended = true
    · exfalso
      rw [foldl_runStep_of_ended bulkSize _ _ hnext] at hok
      have hlive' : (runStep bulkSize run ev).ended = false := by
        rw [live_iff]
        refine ⟨?_, hok, ?_⟩
        · rw [(runStep_fields bulkSize run ev).2.2]
          exact hmk
        · rw [runStep_of_live bulkSize run ev hlive]
          exact sinkStep_returned_of_ne_close bulkSize run.state ev hret hev
      rw [hlive'] at hnext
      exact absurd hnext (by simp)
    · have hlive' : (runStep bulkSize run ev).ended = false := by simpa using hnext
      obtain ⟨h1, h2⟩ := ih (runStep bulkSize run ev) hlive' hrest hok
      rw [h1, h2, runStep_of_live bulkSize run ev hlive]
      simp

end runinv

section runs2

theorem foldl_runStep_observed (bulkSize : Int) (evs : List SinkEvent) (run : SinkRun) :
    ∃ taken rest, evs = taken ++ rest ∧
      (evs.foldl (runStep bulkSize) run).observed = run.observed ++ taken := by
  induction evs generalizing run with
  | nil => exact ⟨[], [], rfl, by simp⟩
  | cons ev evs ih =>
    by_cases hend : run.ended = true
    · refine ⟨[], ev :: evs, rfl, ?_⟩
      rw [foldl_runStep_of_ended bulkSize _ run hend]
      simp
    · have hlive : run.ended = false := by simpa using hend
      obtain ⟨taken, rest, hsplit, hobs⟩ := ih (runStep bulkSize run ev)
      refine ⟨ev :: taken, rest, by rw [hsplit]; rfl, ?_⟩
      rw [List.foldl_cons, hobs, runStep_of_live bulkSize run ev hlive]
      simp

/-- The run of `elasticSender` before the first event, when `make` succeeds. -/
theorem elasticSender_eq_of_make
    (ESClientFactory : List String → Option ESClient × Option String) (capLimit : Int)
    (urls : List String) (bulkSize : Int) (events : List SinkEvent)
    (hmake : makeSucceeds capLimit bulkSize = true) :
    elasticSender ESClientFactory capLimit urls bulkSize events =
      events.foldl (runStep bulkSize)
        { esClient := (ESClientFactory urls).1,
          log := SinkLog.connecting urls ::
            (match (ESClientFactory urls).2 with
              | some err => [SinkLog.connectFailed err]
              | none => []),
          makePanicked := false, sendPanicked := false, observed := [], state := sinkInit } := by
  unfold elasticSender
  simp only [hmake, if_true]

theorem elasticSender_eq_of_not_make
    (ESClientFactory : List String → Option ESClient × Option String) (capLimit : Int)
    (urls : List String) (bulkSize : Int) (events : List SinkEvent)
    (hmake : makeSucceeds capLimit bulkSize = false) :
    elasticSender ESClientFactory capLimit urls bulkSize events =
      { esClient := (ESClientFactory urls).1,
        log := SinkLog.connecting urls ::
          (match (ESClientFactory urls).2 with
            | some err => [SinkLog.connectFailed err]
            | none => []),
        makePanicked := true, sendPanicked := false, observed := [], state := sinkInit } := by
  unfold elasticSender
  simp only [hmake, Bool.false_eq_true, if_false]

theorem start_invariant (esClient : Option ESClient) (log : List SinkLog) (mk : Bool) :
    RunInvariant
      { esClient := esClient, log := log, makePanicked := mk, sendPanicked := false,
        observed := [], state := sinkInit } := by
  unfold RunInvariant
  refine ⟨rfl, rfl, ?_⟩
  intro h
  exact absurd h (by simp)

theorem sendPanicked_imp_nil (run : SinkRun) (h : RunInvariant run)
    (hp : run.sendPanicked = true) : run.esClient = none := by
  obtain ⟨_, hL, _⟩ := h
  rw [hL, List.any_eq_true] at hp
  obtain ⟨batch, _, hb⟩ := hp
  have := ((sendPanics_iff run.esClient batch).1 hb).1
  cases hc : run.esClient with
  | none => rfl
  | some c => rw [hc] at this; exact absurd this (by simp)

end runs2

/-! ## Batch sink: the claims about `elasticSender` -/

/-- C13 fails as stated, in two ways. With `bulkSize` the largest `int`, which is at least 1,
`make([]*Document, 0, bulkSize)` at line 151 panics whatever the memory at hand, so for five
documents and a connected client nothing is taken from the channel, nothing is dispatched and
the function does not return. With batch size 3, five documents and the nil client that a
failed connection leaves, the first batch is handed to `sendBulk` with that client, and the
call panics at line 194, which terminates the process. -/
theorem elasticSender_dispatch_count_counterexample :
    (1 : Int) ≤ maxInt ∧
    (∀ capLimit : Int, makeSucceeds capLimit maxInt = false) ∧
    (elasticSender connectedFactory maxSliceCap [] maxInt
      (fiveDocs.map SinkEvent.receive ++ [SinkEvent.close])).makePanicked = true ∧
    (elasticSender connectedFactory maxSliceCap [] maxInt
      (fiveDocs.map SinkEvent.receive ++ [SinkEvent.close])).observed = [] ∧
    (elasticSender connectedFactory maxSliceCap [] maxInt
      (fiveDocs.map SinkEvent.receive ++ [SinkEvent.close])).state =
      { bulk := [], dispatched := [], returned := false } ∧
    (failedFactory []).1.isNone = true ∧
    (elasticSender failedFactory 1000 [] 3
      (fiveDocs.map SinkEvent.receive ++ [SinkEvent.close])).makePanicked = false ∧
    (elasticSender failedFactory 1000 [] 3
      (fiveDocs.map SinkEvent.receive ++ [SinkEvent.close])).esClient.isNone = true ∧
    [mkDoc "d1", mkDoc "d2", mkDoc "d3"] ∈
      (elasticSender failedFactory 1000 [] 3
        (fiveDocs.map SinkEvent.receive ++ [SinkEvent.close])).state.dispatched ∧
    (sendBulk (failedFactory []).1 [mkDoc "d1", mkDoc "d2", mkDoc "d3"]
      sampleMetrics).panicked = true ∧
    (elasticSender failedFactory 1000 [] 3
      (fiveDocs.map SinkEvent.receive ++ [SinkEvent.close])).sendPanicked = true := by
  refine ⟨by decide, ?_, by decide, by decide, by decide, by decide, by decide, by decide,
    by decide, by decide, by decide⟩
  intro capLimit
  unfold makeSucceeds maxInt maxSliceCap
  simp

/-- C13, amended. For a batch size of at least one that `make` at line 151 can allocate, and
a client that is not nil unless no document arrives: when `n` documents are received with no
timer fire in between and the channel is then closed, `elasticSender` takes every event,
dispatches `n / bulkSize` batches of exactly `bulkSize` documents followed by one last batch
of the remaining `n % bulkSize` documents, and returns, with no panic; the batches taken
together are the documents received, in order. -/
theorem elasticSender_dispatch_count
    (ESClientFactory : List String → Option ESClient × Option String) (capLimit : Int)
    (urls : List String) (bulkSize : Nat) (docs : List Document)
    (hsize : 1 ≤ bulkSize)
    (hmake : makeSucceeds capLimit (bulkSize : Int) = true)
    (hclient : (ESClientFactory urls).1.isSome = true ∨ docs = []) :
    ∃ (run : SinkRun) (full : List (List Document)) (rest : List Document),
      elasticSender ESClientFactory capLimit urls (bulkSize : Int)
        (docs.map SinkEvent.receive ++ [SinkEvent.close]) = run ∧
      run.makePanicked = false ∧
      run.sendPanicked = false ∧
      run.observed = docs.map SinkEvent.receive ++ [SinkEvent.close] ∧
      run.state = { bulk := rest, dispatched := full ++ [rest], returned := true } ∧
      full.length = docs.length / bulkSize ∧
      (∀ batch ∈ full, batch.length = bulkSize) ∧
      rest.length = docs.length % bulkSize ∧
      (full ++ [rest]).length = docs.length / bulkSize + 1 ∧
      (full ++ [rest]).flatten = docs := by
  obtain ⟨full, rest, hrun, hfull, hall, hrest, hcat⟩ :=
    sink_receive_all bulkSize hsize docs.length docs [] rfl
  have hnoclose : ∀ ev ∈ docs.map SinkEvent.receive, ev ≠ SinkEvent.close := by
    intro ev hev
    obtain ⟨d, _, rfl⟩ := List.mem_map.1 hev
    simp
  have heq := elasticSender_eq_of_make ESClientFactory capLimit urls (bulkSize : Int)
    (docs.map SinkEvent.receive ++ [SinkEvent.close]) hmake
  have hinv := foldl_runStep_invariant (bulkSize : Int)
    (docs.map SinkEvent.receive ++ [SinkEvent.close]) _
    (start_invariant (ESClientFactory urls).1
      (SinkLog.connecting urls ::
        (match (ESClientFactory urls).2 with
          | some err => [SinkLog.connectFailed err]
          | none => [])) false)
  have hfields := foldl_runStep_fields (bulkSize : Int)
    (docs.map SinkEvent.receive ++ [SinkEvent.close])
    { esClient := (ESClientFactory urls).1,
      log := SinkLog.connecting urls ::
        (match (ESClientFactory urls).2 with
          | some err => [SinkLog.connectFailed err]
          | none => []),
      makePanicked := false, sendPanicked := false, observed := [], state := sinkInit }
  rw [← heq] at hinv hfields
  have hsp : (elasticSender ESClientFactory capLimit urls (bulkSize : Int)
      (docs.map SinkEvent.receive ++ [SinkEvent.close])).sendPanicked = false := by
    rcases hclient with hc | hd
    · by_contra hp
      have hnil := sendPanicked_imp_nil _ hinv (by simpa using hp)
      rw [hfields.1] at hnil
      simp only at hnil
      rw [hnil] at hc
      exact absurd hc (by simp)
    · subst hd
      rw [heq]
      simp [runStep, SinkRun.ended, sinkStep, sinkInit, sendPanics_nil]
  have hclose := foldl_runStep_close (bulkSize : Int) (docs.map SinkEvent.receive)
    { esClient := (ESClientFactory urls).1,
      log := SinkLog.connecting urls ::
        (match (ESClientFactory urls).2 with
          | some err => [SinkLog.connectFailed err]
          | none => []),
      makePanicked := false, sendPanicked := false, observed := [], state := sinkInit }
    rfl hnoclose (by rw [← heq]; exact hsp)
  rw [← heq] at hclose
  refine ⟨_, full, rest, rfl, ?_, hsp, ?_, ?_, hfull, hall, hrest, ?_, ?_⟩
  · rw [hfields.2.2]
  · rw [hclose.1]
    simp
  · rw [hclose.2]
    simp only
    unfold sinkInit
    rw [hrun]
    simp [sinkStep]
  · simp [hfull]
  · simpa using hcat

/-- C13 amended, on the scenario of the spec: batch size 3, five documents and a connected
client give exactly two dispatches, of the first three documents and of the last two, and
the sink returns. -/
theorem elasticSender_dispatch_count_witness :
    1 ≤ 3 ∧
    makeSucceeds 1000 ((3 : Nat) : Int) = true ∧
    ((connectedFactory []).1.isSome = true ∨ fiveDocs = []) ∧
    (elasticSender connectedFactory 1000 [] 3
      (fiveDocs.map SinkEvent.receive ++ [SinkEvent.close])).state =
      { bulk := [mkDoc "d4", mkDoc "d5"],
        dispatched := [[mkDoc "d1", mkDoc "d2", mkDoc "d3"], [mkDoc "d4", mkDoc "d5"]],
        returned := true } ∧
    (elasticSender connectedFactory 1000 [] 3
      (fiveDocs.map SinkEvent.receive ++ [SinkEvent.close])).sendPanicked = false ∧
    (∃ (run : SinkRun) (full : List (List Document)) (rest : List Document),
      elasticSender connectedFactory 1000 [] ((3 : Nat) : Int)
        (fiveDocs.map SinkEvent.receive ++ [SinkEvent.close]) = run ∧
      run.makePanicked = false ∧
      run.sendPanicked = false ∧
      run.observed = fiveDocs.map SinkEvent.receive ++ [SinkEvent.close] ∧
      run.state = { bulk := rest, dispatched := full ++ [rest], returned := true } ∧
      full.length = fiveDocs.length / 3 ∧
      (∀ batch ∈ full, batch.length = 3) ∧
      rest.length = fiveDocs.length % 3 ∧
      (full ++ [rest]).length = fiveDocs.length / 3 + 1 ∧
      (full ++ [rest]).flatten = fiveDocs) :=
  ⟨by decide, by decide, by decide, by decide, by decide,
    elasticSender_dispatch_count connectedFactory 1000 [] 3 fiveDocs (by decide) (by decide)
      (by decide)⟩

/-- C14. For every batch size and every finite sequence of receive and timer events followed
by the close of the channel: the loop of lines 160 to 184 that takes these events returns,
and the batches it handed to `sendBulk`, concatenated in dispatch order, are the documents
received, in arrival order, so that every received document is in exactly one batch, the
documents of the batch open at the close included. For the function as a whole: `make` at
line 151 panics exactly for the batch sizes it cannot allocate, and then no document is
received and no batch handed over; a send panics only with a nil client; and when neither
panics, `elasticSender` takes every event offered, its loop is the loop above, and it
returns. -/
theorem elasticSender_lossless
    (ESClientFactory : List String → Option ESClient × Option String) (capLimit : Int)
    (urls : List String) (bulkSize : Int) (events : List SinkEvent)
    (hnoclose : ∀ ev ∈ events, ev ≠ SinkEvent.close) :
    ∃ run : SinkRun,
      elasticSender ESClientFactory capLimit urls bulkSize (events ++ [SinkEvent.close]) =
        run ∧
      ((events ++ [SinkEvent.close]).foldl (sinkStep bulkSize) sinkInit).returned = true ∧
      ((events ++ [SinkEvent.close]).foldl (sinkStep bulkSize) sinkInit).dispatched.flatten =
        received events ∧
      run.makePanicked = !makeSucceeds capLimit bulkSize ∧
      (run.makePanicked = true → run.observed = [] ∧ run.state.dispatched = []) ∧
      (run.sendPanicked = true → (ESClientFactory urls).1 = none) ∧
      (run.sendPanicked = false → run.state.dispatched.flatten = received run.observed) ∧
      (∃ rest, events ++ [SinkEvent.close] = run.observed ++ rest) ∧
      (run.makePanicked = false → run.sendPanicked = false →
        run.observed = events ++ [SinkEvent.close] ∧
        run.state = (events ++ [SinkEvent.close]).foldl (sinkStep bulkSize) sinkInit ∧
        run.state.returned = true ∧
        run.state.dispatched.flatten = received events) := by
  have hloop : ((events ++ [SinkEvent.close]).foldl (sinkStep bulkSize) sinkInit).returned =
        true ∧
      ((events ++ [SinkEvent.close]).foldl (sinkStep bulkSize) sinkInit).dispatched.flatten =
        received events := by
    obtain ⟨hopen, hinv⟩ := sink_invariant bulkSize events sinkInit rfl hnoclose
    rw [List.foldl_append]
    simp only [List.foldl_cons, List.foldl_nil]
    have hstep : sinkStep bulkSize (events.foldl (sinkStep bulkSize) sinkInit)
        SinkEvent.close =
        { events.foldl (sinkStep bulkSize) sinkInit with
          dispatched := (events.foldl (sinkStep bulkSize) sinkInit).dispatched ++
            [(events.foldl (sinkStep bulkSize) sinkInit).bulk],
          returned := true } := by
      simp [sinkStep, hopen]
    rw [hstep]
    refine ⟨rfl, ?_⟩
    simpa [sinkInit] using hinv
  refine ⟨_, rfl, hloop.1, hloop.2, ?_⟩
  cases hmake : makeSucceeds capLimit bulkSize with
  | false =>
    rw [elasticSender_eq_of_not_make ESClientFactory capLimit urls bulkSize _ hmake]
    refine ⟨rfl, fun _ => ⟨rfl, rfl⟩, ?_, fun _ => rfl, ⟨events ++ [SinkEvent.close], rfl⟩,
      ?_⟩
    · intro h
      exact absurd h (by simp)
    · intro h
      exact absurd h (by simp)
  | true =>
    have heq := elasticSender_eq_of_make ESClientFactory capLimit urls bulkSize
      (events ++ [SinkEvent.close]) hmake
    have hinv := foldl_runStep_invariant bulkSize (events ++ [SinkEvent.close]) _
      (start_invariant (ESClientFactory urls).1
        (SinkLog.connecting urls ::
          (match (ESClientFactory urls).2 with
            | some err => [SinkLog.connectFailed err]
            | none => [])) false)
    have hfields := foldl_runStep_fields bulkSize (events ++ [SinkEvent.close])
      { esClient := (ESClientFactory urls).1,
        log := SinkLog.connecting urls ::
          (match (ESClientFactory urls).2 with
            | some err => [SinkLog.connectFailed err]
            | none => []),
        makePanicked := false, sendPanicked := false, observed := [], state := sinkInit }
    have hobs := foldl_runStep_observed bulkSize (events ++ [SinkEvent.close])
      { esClient := (ESClientFactory urls).1,
        log := SinkLog.connecting urls ::
          (match (ESClientFactory urls).2 with
            | some err => [SinkLog.connectFailed err]
            | none => []),
        makePanicked := false, sendPanicked := false, observed := [], state := sinkInit }
    have hended : ((events ++ [SinkEvent.close]).foldl (runStep bulkSize)
        { esClient := (ESClientFactory urls).1,
          log := SinkLog.connecting urls ::
            (match (ESClientFactory urls).2 with
              | some err => [SinkLog.connectFailed err]
              | none => []),
          makePanicked := false, sendPanicked := false, observed := [],
          state := sinkInit }).ended = true := by
      rw [List.foldl_append]
      exact runStep_close_ended bulkSize _
    have hclose := foldl_runStep_close bulkSize events
      { esClient := (ESClientFactory urls).1,
        log := SinkLog.connecting urls ::
          (match (ESClientFactory urls).2 with
            | some err => [SinkLog.connectFailed err]
            | none => []),
        makePanicked := false, sendPanicked := false, observed := [], state := sinkInit }
      rfl hnoclose
    rw [← heq] at hinv hfields hobs hended hclose
    have hmk : (elasticSender ESClientFactory capLimit urls bulkSize
        (events ++ [SinkEvent.close])).makePanicked = false := hfields.2.2
    have hflat := flatten_eq_received_of_ended _ hinv
      (fun h => by rw [hmk] at h; exact absurd h (by simp)) hended
    refine ⟨?_, ?_, ?_, fun _ => hflat, ?_, ?_⟩
    · rw [hmk]
      rfl
    · intro h
      rw [hmk] at h
      exact absurd h (by simp)
    · intro hp
      have hnil := sendPanicked_imp_nil _ hinv hp
      rw [hfields.1] at hnil
      exact hnil
    · obtain ⟨taken, rest, hsplit, htaken⟩ := hobs
      exact ⟨rest, by rw [htaken, hsplit]; simp⟩
    · intro _ hsp
      obtain ⟨h1, h2⟩ := hclose hsp
      have hobsall : (elasticSender ESClientFactory capLimit urls bulkSize
          (events ++ [SinkEvent.close])).observed = events ++ [SinkEvent.close] := by
        rw [h1]
        simp
      have hstate : (elasticSender ESClientFactory capLimit urls bulkSize
          (events ++ [SinkEvent.close])).state =
          (events ++ [SinkEvent.close]).foldl (sinkStep bulkSize) sinkInit := by
        rw [h2, List.foldl_append]
        rfl
      refine ⟨hobsall, hstate, ?_, ?_⟩
      · rw [hstate]
        exact hloop.1
      · rw [hstate]
        exact hloop.2

/-- C14 on two runs with a connected client. With batch size 2 and the events receive `d1`,
timer, receive `d2`, `d3`, `d4`, close, the batches are `d1`, then `d2 d3`, then `d4`. With
the largest `int` as batch size nothing is received and nothing handed over. -/
theorem elasticSender_lossless_witness :
    (∀ ev ∈ [SinkEvent.receive (mkDoc "d1"), SinkEvent.timerFire,
        SinkEvent.receive (mkDoc "d2"), SinkEvent.receive (mkDoc "d3"),
        SinkEvent.receive (mkDoc "d4")], ev ≠ SinkEvent.close) ∧
    (elasticSender connectedFactory 1000 [] 2 ([SinkEvent.receive (mkDoc "d1"),
        SinkEvent.timerFire, SinkEvent.receive (mkDoc "d2"), SinkEvent.receive (mkDoc "d3"),
        SinkEvent.receive (mkDoc "d4")] ++ [SinkEvent.close])).state.dispatched =
      [[mkDoc "d1"], [mkDoc "d2", mkDoc "d3"], [mkDoc "d4"]] ∧
    (elasticSender connectedFactory 1000 [] maxInt ([SinkEvent.receive (mkDoc "d1"),
        SinkEvent.timerFire, SinkEvent.receive (mkDoc "d2"), SinkEvent.receive (mkDoc "d3"),
        SinkEvent.receive (mkDoc "d4")] ++ [SinkEvent.close])).observed = [] ∧
    (elasticSender connectedFactory 1000 [] maxInt ([SinkEvent.receive (mkDoc "d1"),
        SinkEvent.timerFire, SinkEvent.receive (mkDoc "d2"), SinkEvent.receive (mkDoc "d3"),
        SinkEvent.receive (mkDoc "d4")] ++ [SinkEvent.close])).state.dispatched = [] ∧
    (∃ run : SinkRun,
      elasticSender connectedFactory 1000 [] 2 ([SinkEvent.receive (mkDoc "d1"),
        SinkEvent.timerFire, SinkEvent.receive (mkDoc "d2"), SinkEvent.receive (mkDoc "d3"),
        SinkEvent.receive (mkDoc "d4")] ++ [SinkEvent.close]) = run ∧
      (([SinkEvent.receive (mkDoc "d1"), SinkEvent.timerFire,
        SinkEvent.receive (mkDoc "d2"), SinkEvent.receive (mkDoc "d3"),
        SinkEvent.receive (mkDoc "d4")] ++ [SinkEvent.close]).foldl (sinkStep 2)
          sinkInit).returned = true ∧
      (([SinkEvent.receive (mkDoc "d1"), SinkEvent.timerFire,
        SinkEvent.receive (mkDoc "d2"), SinkEvent.receive (mkDoc "d3"),
        SinkEvent.receive (mkDoc "d4")] ++ [SinkEvent.close]).foldl (sinkStep 2)
          sinkInit).dispatched.flatten =
        received [SinkEvent.receive (mkDoc "d1"), SinkEvent.timerFire,
          SinkEvent.receive (mkDoc "d2"), SinkEvent.receive (mkDoc "d3"),
          SinkEvent.receive (mkDoc "d4")] ∧
      run.makePanicked = !makeSucceeds 1000 2 ∧
      (run.makePanicked = true → run.observed = [] ∧ run.state.dispatched = []) ∧
      (run.sendPanicked = true → (connectedFactory []).1 = none) ∧
      (run.sendPanicked = false → run.state.dispatched.flatten = received run.observed) ∧
      (∃ rest, [SinkEvent.receive (mkDoc "d1"), SinkEvent.timerFire,
        SinkEvent.receive (mkDoc "d2"), SinkEvent.receive (mkDoc "d3"),
        SinkEvent.receive (mkDoc "d4")] ++ [SinkEvent.close] = run.observed ++ rest) ∧
      (run.makePanicked = false → run.sendPanicked = false →
        run.observed = [SinkEvent.receive (mkDoc "d1"), SinkEvent.timerFire,
          SinkEvent.receive (mkDoc "d2"), SinkEvent.receive (mkDoc "d3"),
          SinkEvent.receive (mkDoc "d4")] ++ [SinkEvent.close] ∧
        run.state = ([SinkEvent.receive (mkDoc "d1"), SinkEvent.timerFire,
          SinkEvent.receive (mkDoc "d2"), SinkEvent.receive (mkDoc "d3"),
          SinkEvent.receive (mkDoc "d4")] ++ [SinkEvent.close]).foldl (sinkStep 2) sinkInit ∧
        run.state.returned = true ∧
        run.state.dispatched.flatten = received [SinkEvent.receive (mkDoc "d1"),
          SinkEvent.timerFire, SinkEvent.receive (mkDoc "d2"), SinkEvent.receive (mkDoc "d3"),
          SinkEvent.receive (mkDoc "d4")])) :=
  ⟨by decide, by decide, by decide, by decide,
    elasticSender_lossless connectedFactory 1000 [] 2 [SinkEvent.receive (mkDoc "d1"),
        SinkEvent.timerFire, SinkEvent.receive (mkDoc "d2"), SinkEvent.receive (mkDoc "d3"),
        SinkEvent.receive (mkDoc "d4")] (by decide)⟩

end dtrace
